import Mathlib

/-!
Cart / inventory consistency of `ayo-ajayi/ecommerce`.

A shallow embedding of `internal/app/cart` (with the parts of `internal/errors` and
`internal/app/item` it uses), of the identifier validation of `internal/app/item` and
`internal/app/category`, and theorems about them.

Modelling conventions

* `primitive.ObjectID` is a natural number; `0` is the zero value (`NilObjectID`).
* Go `int` is a 64-bit two's complement integer: values are `Int`, and every arithmetic
  operation of the Go code is followed by `wrapInt`.
* Go `float64` prices are the rationals they denote: in the embedding of the service `+`, `-`,
  `*`, `/` are exact, and rounding, infinities and NaN are outside it.  A statement about a
  stored price therefore repeats the expression by which the code computes it.  Where two
  differently computed prices are compared, the expressions are evaluated as Go evaluates them,
  on `float64` values, every operation rounded on its own (`float64.round`: to nearest, ties to
  even).
* `time.Time` fields (`UpdatedAt`) are not modelled.
* The document store is explicit state (`DB`): the cart collection, the item collection and the
  list of writes issued so far.  Every repository call can fail with a storage error; whether it
  does is read from the environment `Env` of the service call.  A failed write leaves the
  collection unchanged.  The quantity of a stored item is an integer of the store and `$inc`
  adds to it exactly.
* `updateConcurrently` runs two goroutines, each of which performs one store operation on a
  different collection; `Env.cartBranchFirst` says which of the two runs (and reports) first.
* The identifier validation (`checkCategoryID`, `checkParentID`) starts one goroutine per
  identifier.  A goroutine is the list of messages it sends, in order; the order in which the
  channel delivers the messages of different goroutines is a schedule (`channelOrder`), and
  the storage error of the existence check of the identifier at position `i`, if any, is
  `fault i`.  A send on, or a close of, a channel that is already closed is recorded in
  `CheckOutcome.panics`.
* The handler `CartController.UpdateCart` is modelled from the bound request on: the result of
  `ShouldBindJSON` and the function `primitive.ObjectIDFromHex` are parameters.  Its outcome is
  the answer, the call of the service it has made and the store it leaves.
* Sequences of calls (`runCalls`) are executed one at a time, each in its own environment.
-/

namespace Ecommerce

/-- The identity type `primitive.ObjectID`; `0` is `primitive.NilObjectID`. -/
abbrev ObjectID := Nat

/-- The 24 digit lower case hexadecimal form of an identity (`ObjectID.Hex`). -/
def Hex (id : ObjectID) : String :=
  let ds := Nat.toDigits 16 id
  String.mk (List.replicate (24 - ds.length) '0' ++ ds)

/-- Smallest Go `int` (64 bit). -/
def minInt : Int := -(2 ^ 63)

/-- Largest Go `int` (64 bit). -/
def maxInt : Int := 2 ^ 63 - 1

/-- Reduction of a mathematical integer to the Go `int` it wraps to. -/
def wrapInt (x : Int) : Int := (x + 2 ^ 63) % 2 ^ 64 - 2 ^ 63

/-- The values a Go `int` can hold. -/
def IsInt (x : Int) : Prop := minInt ≤ x ∧ x ≤ maxInt

instance (x : Int) : Decidable (IsInt x) := by
  unfold IsInt; exact inferInstance

/-- A finite value of Go's `float64` (IEEE 754 binary64), `significand * 2 ^ exponent`, written
with an odd significand; zero is `0 * 2 ^ 0` (the sign of a zero is not kept). -/
structure float64 where
  significand : Int
  exponent : Int
  deriving DecidableEq, Repr

/-- The number of binary digits of `n`, counted in at most `fuel` halvings. -/
def bitLengthFrom : Nat → Nat → Nat
  | 0, _ => 0
  | fuel + 1, n => if n = 0 then 0 else bitLengthFrom fuel (n / 2) + 1

/-- The number of binary digits of a natural number. -/
def bitLength (n : Nat) : Nat := bitLengthFrom n n

/-- The quotient `n / d` rounded to the nearest natural number, a tie to the even one. -/
def divRoundEven (n d : Nat) : Nat :=
  let q := n / d
  let r := n % d
  if 2 * r < d then q
  else if d < 2 * r then q + 1
  else if q % 2 = 0 then q else q + 1

/-- Whether `2 ^ l ≤ n / d`. -/
def atLeastPow2 (n d : Nat) (l : Int) : Bool :=
  if 0 ≤ l then decide (d * 2 ^ l.toNat ≤ n) else decide (d ≤ n * 2 ^ (-l).toNat)

/-- The same value `s * 2 ^ e` with an odd significand, after at most `fuel` halvings. -/
def float64.normalize : Nat → Nat → Int → Nat × Int
  | 0, s, e => (s, e)
  | fuel + 1, s, e =>
    if s = 0 then (0, 0)
    else if s % 2 = 0 then float64.normalize fuel (s / 2) (e + 1)
    else (s, e)

/-- The rounding of every `float64` operation (and of `strconv.ParseFloat`): the `float64`
nearest to the rational `num / den` (`den > 0`), a tie to the one with the even last digit.  A
value keeps 53 binary digits, and no digit below `2 ^ -1074`.  `none` stands for a result that
is not finite. -/
def float64.round (num : Int) (den : Nat) : Option float64 :=
  let n := num.natAbs
  if n = 0 then some { significand := 0, exponent := 0 }
  else
    let l : Int := (bitLength n : Int) - (bitLength den : Int)
    let t : Int := if atLeastPow2 n den l then l else l - 1
    let u : Int := max (t - 52) (-1074)
    let s : Nat :=
      if 0 ≤ u then divRoundEven n (den * 2 ^ u.toNat)
      else divRoundEven (n * 2 ^ (-u).toNat) den
    if 1024 < (bitLength s : Int) + u then none
    else
      let r := float64.normalize 64 s u
      some { significand := if num < 0 then -(r.1 : Int) else (r.1 : Int), exponent := r.2 }

/-- The numerator of a `float64` written as a fraction over a power of two. -/
def float64.num (x : float64) : Int :=
  if 0 ≤ x.exponent then x.significand * 2 ^ x.exponent.toNat else x.significand

/-- The denominator of a `float64` written as a fraction over a power of two. -/
def float64.den (x : float64) : Nat :=
  if 0 ≤ x.exponent then 1 else 2 ^ (-x.exponent).toNat

/-- The product `x * y` of Go: the exact product, rounded. -/
def float64.mul (x y : float64) : Option float64 :=
  float64.round (x.num * y.num) (x.den * y.den)

/-- The sum `x + y` of Go: the exact sum, rounded. -/
def float64.add (x y : float64) : Option float64 :=
  float64.round (x.num * (y.den : Int) + y.num * (x.den : Int)) (x.den * y.den)

/-- The conversion `float64(n)` of a Go `int`. -/
def float64.ofInt (n : Int) : Option float64 := float64.round n 1

namespace errors

/-- The struct `errors.AppError`. -/
structure AppError where
  Msg : String
  StatusCode : Int
  deriving DecidableEq, Repr

/-- The constructor `errors.NewError`. -/
def NewError (msg : String) (statusCode : Int) : AppError :=
  { Msg := msg, StatusCode := statusCode }

/-- The value `errors.ErrInternalServer`. -/
def ErrInternalServer : AppError := NewError "internal server error" 500

/-- The value `errors.ErrNotFound`. -/
def ErrNotFound : AppError := NewError "not found" 404

/-- The method `AppError.Error`. -/
def AppError.Error (e : AppError) : String := e.Msg

end errors

open errors

/-- Errors of the document store driver: `mongo.ErrNoDocuments` and every other error. -/
inductive DBError where
  | ErrNoDocuments
  | other
  deriving DecidableEq, Repr

namespace item

/-- The fields of `item.Item` the cart service reads or writes. -/
structure Item where
  ID : ObjectID
  Price : ℚ
  Discount : ℚ
  Quantity : Int
  deriving DecidableEq

end item

/-- The run-time panics of channel operations. -/
inductive ChanPanic where
  | sendOnClosedChannel
  | closeOfClosedChannel
  deriving DecidableEq, Repr

/-- What a call of one of the two validation functions does: the value it returns, the
identifiers for which `IsExists` is called, and the panics raised in the goroutines it starts
(a panic in a goroutine ends the process; it can be raised after the call has returned). -/
structure CheckOutcome where
  result : Option AppError
  calls : List ObjectID
  panics : List ChanPanic
  deriving DecidableEq

/-- The next message of goroutine `i`, if it has one left to send, and the messages left. -/
def takeFrom {α : Type} : Nat → List (List α) → Option (α × List (List α))
  | _, [] => none
  | 0, [] :: _ => none
  | 0, (m :: ms) :: rest => some (m, ms :: rest)
  | i + 1, l :: rest =>
    match takeFrom i rest with
    | some (m, r) => some (m, l :: r)
    | none => none

/-- The order in which the messages of concurrently running goroutines arrive on a channel.
Each goroutine sends its own messages in order; `sched` says which goroutine sends next (an entry
for a goroutine with nothing left to send is skipped); what is left when `sched` is used up
arrives goroutine by goroutine.  Every interleaving is the result of some `sched`. -/
def channelOrder {α : Type} : List Nat → List (List α) → List α
  | [], sends => sends.flatten
  | i :: sched, sends =>
    match takeFrom i sends with
    | some (m, sends1) => m :: channelOrder sched sends1
    | none => channelOrder sched sends

namespace category

/-- The fields of `category.Category` the validation reads. -/
structure Category where
  ID : ObjectID
  ParentID : List ObjectID
  deriving DecidableEq

/-- The call `CategoryRepo.IsExists(bson.M{"_id": id})`.  `fault` is the text of the error of
`FindOne` when it fails with an error other than `mongo.ErrNoDocuments`. -/
def CategoryRepo.IsExists (fault : Option String) (categories : List Category)
    (id : ObjectID) : Bool × Option String :=
  match fault with
  | some err => (false, some err)
  | none => if categories.any (fun c => decide (c.ID = id)) then (true, none) else (false, none)

/-- The goroutine `checkParentID` starts for one identifier: what it sends on `idExistChanErr`,
in order. -/
def CategoryService.checkParentID.goroutine (fault : Option String)
    (categories : List Category) (parentId : ObjectID) : List (Option AppError) :=
  let r := CategoryRepo.IsExists fault categories parentId
  (match r.2 with
    | some err => [some (NewError ("internal error: " ++ err) 500)]
    | none => []) ++
  (if !r.1 then
    [some (NewError ("category not found: " ++ ErrNotFound.Error) ErrNotFound.StatusCode)]
   else [])

/-- The loop `for _, v := range parentID` of `checkParentID`, from the identifier at position `i`
on: the errors appended to `allErrors` and the panics raised.  The goroutine that closes the
channel and the loop that reads it stand inside this loop.  While the channel is open (first
identifier) the messages of the check are read until the channel is closed.  Once it is closed,
the read loop ends at once, the first send of the check panics, and when the check sends nothing
the close panics. -/
def CategoryService.checkParentID.loop (fault : Nat → Option String)
    (categories : List Category) : Nat → List ObjectID → Bool → List AppError × List ChanPanic
  | _, [], _ => ([], [])
  | i, v :: rest, closed =>
    let sends := CategoryService.checkParentID.goroutine (fault i) categories v
    let r := CategoryService.checkParentID.loop fault categories (i + 1) rest true
    if closed then
      ((r.1), (if sends.isEmpty then ChanPanic.closeOfClosedChannel
               else ChanPanic.sendOnClosedChannel) :: r.2)
    else ((sends.filterMap (fun e => e) ++ r.1), r.2)

/-- The method `CategoryService.checkParentID`; `fault i` is the storage error, if any, of the
existence check of the identifier at position `i`. -/
def CategoryService.checkParentID (fault : Nat → Option String) (categories : List Category)
    (parentID : List ObjectID) : CheckOutcome :=
  let r := CategoryService.checkParentID.loop fault categories 0 parentID false
  { result := r.1.head?, calls := parentID, panics := r.2 }

end category

namespace item

open category

/-- The goroutine `checkCategoryID` starts for one identifier: what it sends on `itemExistChan`,
in order. -/
def ItemService.checkCategoryID.goroutine (fault : Option String)
    (categories : List Category) (categoryID : ObjectID) : List (Option AppError) :=
  let r := CategoryRepo.IsExists fault categories categoryID
  (match r.2 with
    | some err => [some (NewError ("internal error: " ++ err) 500)]
    | none => []) ++
  (if !r.1 then
    [some (NewError ("category not found: " ++ ErrNotFound.Error) ErrNotFound.StatusCode)]
   else [])

/-- The loop `for _, v := range categoryID` of `checkCategoryID`, from position `i` on: the
messages of the goroutines it starts. -/
def ItemService.checkCategoryID.spawn (fault : Nat → Option String)
    (categories : List Category) : Nat → List ObjectID → List (List (Option AppError))
  | _, [] => []
  | i, v :: rest =>
    ItemService.checkCategoryID.goroutine (fault i) categories v ::
      ItemService.checkCategoryID.spawn fault categories (i + 1) rest

/-- The method `ItemService.checkCategoryID`; `fault i` is the storage error, if any, of the
existence check of the identifier at position `i`, and `sched` the order in which the goroutines
get to send.  The channel is closed once, after every goroutine is done. -/
def ItemService.checkCategoryID (sched : List Nat) (fault : Nat → Option String)
    (categories : List Category) (categoryID : List ObjectID) : CheckOutcome :=
  let sends := ItemService.checkCategoryID.spawn fault categories 0 categoryID
  let allErrors := (channelOrder sched sends).filterMap (fun e => e)
  { result := allErrors.head?, calls := categoryID, panics := [] }

end item

namespace cart

open item

/-- The struct `cart.CartItem`. -/
structure CartItem where
  ItemID : ObjectID
  Quantity : Int
  Price : ℚ
  TotalPrice : ℚ
  deriving DecidableEq

/-- The struct `cart.Cart` (without `UpdatedAt`). -/
structure Cart where
  ID : ObjectID
  UserID : ObjectID
  CartItems : List CartItem
  TotalPrice : ℚ
  deriving DecidableEq

/-- The zero value `Cart{}`. -/
def Cart.zero : Cart := { ID := 0, UserID := 0, CartItems := [], TotalPrice := 0 }

/-- A write handed to the document store. -/
inductive Write where
  | CreateCart (c : Cart)
  | UpdateCart (id : ObjectID) (cartItems : List CartItem) (totalPrice : ℚ)
  | UpdateItem (id : ObjectID) (quantityChange : Int)
  deriving DecidableEq

/-- The document store: both collections and the writes issued so far (oldest first). -/
structure DB where
  carts : List Cart
  items : List Item
  writes : List Write
  deriving DecidableEq

/-- What the surroundings decide during one service call: which repository calls fail with a
storage error, the identity the driver generates for an inserted cart, and the order of the two
branches of the coordinator. -/
structure Env where
  getItemFails : Bool
  getCartFails : Bool
  createCartFails : Bool
  updateCartFails : Bool
  updateItemFails : Bool
  newID : ObjectID
  cartBranchFirst : Bool
  deriving DecidableEq

/-- An environment where every repository call succeeds. -/
def Env.ok (newID : ObjectID) (cartBranchFirst : Bool) : Env :=
  { getItemFails := false, getCartFails := false, createCartFails := false,
    updateCartFails := false, updateItemFails := false, newID := newID,
    cartBranchFirst := cartBranchFirst }

/-- The call `ItemRepo.GetItem(bson.M{"_id": id})`: the first item with that identity. -/
def ItemRepo.GetItem (fails : Bool) (db : DB) (id : ObjectID) : Except DBError Item :=
  if fails then .error DBError.other
  else match db.items.find? (fun it => decide (it.ID = id)) with
    | some it => .ok it
    | none => .error DBError.ErrNoDocuments

/-- The store operation `$inc` of `quantity` on the first item with the given identity. -/
def incQuantity (id : ObjectID) (quantityChange : Int) : List Item → List Item
  | [] => []
  | it :: rest =>
    if it.ID = id then { it with Quantity := it.Quantity + quantityChange } :: rest
    else it :: incQuantity id quantityChange rest

/-- The call `ItemRepo.UpdateItem(bson.M{"_id": id}, bson.M{"$inc": bson.M{"quantity": q}})`.
An update that matches no document is not an error. -/
def ItemRepo.UpdateItem (fails : Bool) (db : DB) (id : ObjectID) (quantityChange : Int) :
    Option DBError × DB :=
  let db1 := { db with writes := db.writes ++ [Write.UpdateItem id quantityChange] }
  if fails then (some DBError.other, db1)
  else (none, { db1 with items := incQuantity id quantityChange db1.items })

/-- The store operation `FindOne` with the filter `user_id = userid` on the cart collection: the
first match.  `user_id` is stored with `omitempty`, so a cart whose `UserID` is the zero identity
has no such field and is matched by no filter. -/
def findCart (carts : List Cart) (userid : ObjectID) : Option Cart :=
  carts.find? (fun c => decide (c.UserID ≠ 0 ∧ c.UserID = userid))

/-- The call `CartRepo.GetCart(bson.M{"user_id": userid})`.  As in the source the result is a
cart together with the error; the cart is the zero value when nothing was decoded. -/
def CartRepo.GetCart (fails : Bool) (db : DB) (userid : ObjectID) : Cart × Option DBError :=
  if fails then (Cart.zero, some DBError.other)
  else match findCart db.carts userid with
    | some c => (c, none)
    | none => (Cart.zero, some DBError.ErrNoDocuments)

/-- The document an insert stores: `_id` is written with `omitempty`, so for a cart whose `ID` is
the zero identity the driver generates one (`newID`). -/
def assignID (newID : ObjectID) (c : Cart) : Cart :=
  { c with ID := if c.ID = 0 then newID else c.ID }

/-- The call `CartRepo.CreateCart(cart)`.  Identities are unique in a collection: an insert under
an identity already present is a storage error. -/
def CartRepo.CreateCart (fails : Bool) (newID : ObjectID) (db : DB) (c : Cart) :
    Option DBError × DB :=
  let db1 := { db with writes := db.writes ++ [Write.CreateCart c] }
  if fails then (some DBError.other, db1)
  else if db1.carts.any (fun d => decide (d.ID = (assignID newID c).ID)) then
    (some DBError.other, db1)
  else (none, { db1 with carts := db1.carts ++ [assignID newID c] })

/-- The store operation `$set` of `cart_items` and `total_price` on the first cart with the
given identity. -/
def setCart (id : ObjectID) (cartItems : List CartItem) (totalPrice : ℚ) : List Cart → List Cart
  | [] => []
  | c :: rest =>
    if c.ID = id then { c with CartItems := cartItems, TotalPrice := totalPrice } :: rest
    else c :: setCart id cartItems totalPrice rest

/-- The call `CartRepo.UpdateCart(bson.M{"_id": id}, bson.M{"$set": ...})`.
An update that matches no document is not an error. -/
def CartRepo.UpdateCart (fails : Bool) (db : DB) (id : ObjectID) (cartItems : List CartItem)
    (totalPrice : ℚ) : Option DBError × DB :=
  let db1 := { db with writes := db.writes ++ [Write.UpdateCart id cartItems totalPrice] }
  if fails then (some DBError.other, db1)
  else (none, { db1 with carts := setCart id cartItems totalPrice db1.carts })

/-- The struct `itemUpdateRequest` (the response channel is the result of the step). -/
structure itemUpdateRequest where
  itemID : ObjectID
  quantityChange : Int
  deriving DecidableEq

/-- One iteration of the loop of `processItemUpdates`: the store increment for one request and
the error sent on its response channel. -/
def CartService.processItemUpdates (fails : Bool) (db : DB) (req : itemUpdateRequest) :
    Option DBError × DB :=
  ItemRepo.UpdateItem fails db req.itemID req.quantityChange

/-- The loop of `processItemUpdates` over the requests in the order in which the worker receives
them, each with whether its store update fails: the answers sent on the response channels, in
the same order, and the store left behind. -/
def CartService.processItemUpdatesLoop :
    List (itemUpdateRequest × Bool) → DB → List (Option DBError) × DB
  | [], db => ([], db)
  | (req, fails) :: rest, db =>
    let r := CartService.processItemUpdates fails db req
    let rs := CartService.processItemUpdatesLoop rest r.2
    (r.1 :: rs.1, rs.2)

/-- The method `CartService.updateItemQuantity`: hands the request to the worker and maps the
answer. -/
def CartService.updateItemQuantity (env : Env) (db : DB) (itemID : ObjectID)
    (quantityChange : Int) : Option AppError × DB :=
  let r := CartService.processItemUpdates env.updateItemFails db
    { itemID := itemID, quantityChange := quantityChange }
  match r.1 with
  | some _ => (some ErrInternalServer, r.2)
  | none => (none, r.2)

/-- The type `action`. -/
abbrev action := String

/-- The constant `add`. -/
def add : action := "add"

/-- The constant `remove`. -/
def remove : action := "remove"

/-- The quantity change the second goroutine of `updateConcurrently` asks for. -/
def quantityChangeFor (cartItem : CartItem) (act : action) : Int :=
  if act = remove then cartItem.Quantity else wrapInt (-1 * cartItem.Quantity)

/-- First goroutine of `updateConcurrently`: the cart write; what it sends on `errChan`. -/
def cartBranch (env : Env) (db : DB) (ct : Cart) : List (Option AppError) × DB :=
  let r := CartRepo.UpdateCart env.updateCartFails db ct.ID ct.CartItems ct.TotalPrice
  match r.1 with
  | some _ => ([some ErrInternalServer], r.2)
  | none => ([], r.2)

/-- Second goroutine of `updateConcurrently`: the inventory adjustment; what it sends on
`errChan`. -/
def itemBranch (env : Env) (db : DB) (cartItem : CartItem) (act : action) :
    List (Option AppError) × DB :=
  let r := CartService.updateItemQuantity env db cartItem.ItemID (quantityChangeFor cartItem act)
  match r.1 with
  | some _ => ([some ErrInternalServer], r.2)
  | none => ([], r.2)

/-- The loop `for err := range errChan` of `updateConcurrently`: the first non-nil error. -/
def drain : List (Option AppError) → Option AppError
  | [] => none
  | some e :: _ => some e
  | none :: rest => drain rest

/-- The method `CartService.updateConcurrently`. -/
def CartService.updateConcurrently (env : Env) (db : DB) (ct : Cart) (cartItem : CartItem)
    (act : action) : Option AppError × DB :=
  if env.cartBranchFirst then
    let a := cartBranch env db ct
    let b := itemBranch env a.2 cartItem act
    (drain (a.1 ++ b.1), b.2)
  else
    let b := itemBranch env db cartItem act
    let a := cartBranch env b.2 ct
    (drain (b.1 ++ a.1), a.2)

/-- The recomputation loop `ct.TotalPrice = 0.0; for ... { ct.TotalPrice += item.TotalPrice }`. -/
def sumTotalPrice (cartItems : List CartItem) : ℚ :=
  cartItems.foldl (fun acc it => acc + it.TotalPrice) 0

/-- The merge loop of `AddToCart`: the first line of the item gets the quantity and the total of
`cartItem` added; the flag is `itemExists`.  The sum of the totals is the exact one; as Go
evaluates it, it is `mergedTotalFloat64`. -/
def addLoop (cartItem : CartItem) : List CartItem → List CartItem × Bool
  | [] => ([], false)
  | v :: rest =>
    if v.ItemID = cartItem.ItemID then
      ({ v with Quantity := wrapInt (v.Quantity + cartItem.Quantity),
                TotalPrice := v.TotalPrice + cartItem.TotalPrice } :: rest, true)
    else ((v :: (addLoop cartItem rest).1), (addLoop cartItem rest).2)

/-- The unit price `AddToCart` records for an item. -/
def unitPrice (it : Item) : ℚ :=
  if it.Discount > 0 then it.Price - it.Price * it.Discount / 100 else it.Price

/-- Lines 67-72 of `AddToCart`: `cartItem` with its unit price and its total filled in.  The
product is the exact one; as Go evaluates it, it is `lineTotalFloat64`. -/
def priceLine (it : Item) (cartItem : CartItem) : CartItem :=
  let cartItem1 : CartItem := { cartItem with Price := unitPrice it }
  { cartItem1 with TotalPrice := cartItem1.Price * (cartItem1.Quantity : ℚ) }

/-- Line 72 of `AddToCart` (and line 152 of `RemoveFromCart`) as Go evaluates it:
`TotalPrice = Price * float64(Quantity)`, the conversion and the product each rounded. -/
def lineTotalFloat64 (price : float64) (quantity : Int) : Option float64 :=
  (float64.ofInt quantity).bind (fun q => float64.mul price q)

/-- Line 93 of `AddToCart` as Go evaluates it: `TotalPrice += cartItem.TotalPrice`, where
`cartItem.TotalPrice` is what line 72 has computed for the requested quantity; the sum is
rounded. -/
def mergedTotalFloat64 (total price : float64) (quantity : Int) : Option float64 :=
  (lineTotalFloat64 price quantity).bind (fun contribution => float64.add total contribution)

/-- Lines 89-105 of `AddToCart`: the stored cart after the merge loop, the append of a line that
was not merged, and the recomputation of the total. -/
def addMutate (ct : Cart) (cartItem : CartItem) : Cart :=
  let l := addLoop cartItem ct.CartItems
  let cartItems := if l.2 then l.1 else l.1 ++ [cartItem]
  { ct with CartItems := cartItems, TotalPrice := sumTotalPrice cartItems }

/-- Lines 78-83 of `AddToCart`: the cart built for a user who has none (its `ID` is left at the
zero value). -/
def firstCart (userid : ObjectID) (cartItem : CartItem) : Cart :=
  { ID := 0, UserID := userid, CartItems := [cartItem], TotalPrice := cartItem.TotalPrice }

/-- The method `CartService.AddToCart`. -/
def CartService.AddToCart (env : Env) (db : DB) (userid : ObjectID) (cartItem : CartItem) :
    Option AppError × DB :=
  match ItemRepo.GetItem env.getItemFails db cartItem.ItemID with
  | .error DBError.ErrNoDocuments =>
    (some (NewError ("item not found with ID: " ++ Hex cartItem.ItemID) 404), db)
  | .error DBError.other => (some ErrInternalServer, db)
  | .ok item =>
    if item.Quantity < cartItem.Quantity then
      (some (NewError "not enough quantity available in inventory" 400), db)
    else
      let cartItem1 := priceLine item cartItem
      let g := CartRepo.GetCart env.getCartFails db userid
      match g.2 with
      | some err =>
        if err ≠ DBError.ErrNoDocuments then (some ErrInternalServer, db)
        else
          let r := CartRepo.CreateCart env.createCartFails env.newID db (firstCart userid cartItem1)
          match r.1 with
          | some _ => (some ErrInternalServer, r.2)
          | none => CartService.updateConcurrently env r.2 g.1 cartItem1 add
      | none => CartService.updateConcurrently env db (addMutate g.1 cartItem1) cartItem1 add

/-- The search loop of `RemoveFromCart`: the first line of the item (`foundCartItem`). -/
def findLoop (cartItem : CartItem) (cartItems : List CartItem) : Option CartItem :=
  cartItems.find? (fun v => decide (v.ItemID = cartItem.ItemID))

/-- The removal loop of `RemoveFromCart`: the first line of the item is reduced when it holds
more than the requested quantity and deleted otherwise; the flag is `itemFound`. -/
def removeLoop (cartItem : CartItem) : List CartItem → List CartItem × Bool
  | [] => ([], false)
  | v :: rest =>
    if v.ItemID = cartItem.ItemID then
      if v.Quantity > cartItem.Quantity then
        let q := wrapInt (v.Quantity - cartItem.Quantity)
        ({ v with Quantity := q, TotalPrice := v.Price * (q : ℚ) } :: rest, true)
      else (rest, true)
    else ((v :: (removeLoop cartItem rest).1), (removeLoop cartItem rest).2)

/-- Lines 147-168 of `RemoveFromCart` after a successful removal loop: the stored cart with the
new lines and the recomputed total. -/
def removeMutate (ct : Cart) (cartItem : CartItem) : Cart :=
  let l := removeLoop cartItem ct.CartItems
  { ct with CartItems := l.1, TotalPrice := sumTotalPrice l.1 }

/-- The method `CartService.RemoveFromCart`. -/
def CartService.RemoveFromCart (env : Env) (db : DB) (userid : ObjectID) (cartItem : CartItem) :
    Option AppError × DB :=
  let g := CartRepo.GetCart env.getCartFails db userid
  match g.2 with
  | some err =>
    if err ≠ DBError.ErrNoDocuments then (some ErrInternalServer, db)
    else (some (NewError "cart not found or empty" 404), db)
  | none =>
    match findLoop cartItem g.1.CartItems with
    | none => (some (NewError "item not found in cart" 404), db)
    | some foundCartItem =>
      if foundCartItem.Quantity < cartItem.Quantity then
        (some (NewError "cannot remove more items than what is in the cart cart" 400), db)
      else if !(removeLoop cartItem g.1.CartItems).2 then
        (some (NewError "item not found in cart" 404), db)
      else CartService.updateConcurrently env db (removeMutate g.1 cartItem) cartItem remove

/-- The cart invariant: the aggregate total is the sum of the line totals. -/
def TotalIsSum (c : Cart) : Prop :=
  c.TotalPrice = (c.CartItems.map (fun it => it.TotalPrice)).sum

/-- The stores reached from a store without carts by calls of `AddToCart` and `RemoveFromCart`
(whatever they return) and by changes other services make to the item collection.  The
requested quantity is a Go `int`, and the identity the driver generates for an inserted cart is
never the zero identity. -/
inductive Reachable : DB → Prop where
  | init (items : List Item) : Reachable { carts := [], items := items, writes := [] }
  | addToCart {db : DB} (env : Env) (userid : ObjectID) (cartItem : CartItem) :
      env.newID ≠ 0 → IsInt cartItem.Quantity → Reachable db →
      Reachable (CartService.AddToCart env db userid cartItem).2
  | removeFromCart {db : DB} (env : Env) (userid : ObjectID) (cartItem : CartItem) :
      IsInt cartItem.Quantity → Reachable db →
      Reachable (CartService.RemoveFromCart env db userid cartItem).2
  | catalog {db : DB} (items : List Item) :
      Reachable db → Reachable { db with items := items }

/-- The line invariant: the total of a line is its unit price times its quantity. -/
def LineTotalOK (l : CartItem) : Prop := l.TotalPrice = l.Price * (l.Quantity : ℚ)

/-- The inventory requests among a list of writes: the item and the quantity change of each
`UpdateItem`. -/
def itemUpdates : List Write → List (ObjectID × Int)
  | [] => []
  | Write.UpdateItem id quantityChange :: rest => (id, quantityChange) :: itemUpdates rest
  | Write.CreateCart _ :: rest => itemUpdates rest
  | Write.UpdateCart _ _ _ :: rest => itemUpdates rest

/-- The writes a call has issued: those of the store after the call that were not there before. -/
def newWrites (before after : DB) : List Write :=
  after.writes.drop before.writes.length

/-- The `CartItem` the controller builds for a request: identity and quantity only. -/
def request (itemID : ObjectID) (quantity : Int) : CartItem :=
  { ItemID := itemID, Quantity := quantity, Price := 0, TotalPrice := 0 }

/-- A change of an item's discount made by the catalog (outside the cart service). -/
def setDiscount (id : ObjectID) (discount : ℚ) (db : DB) : DB :=
  let items := db.items.map (fun it => if it.ID = id then { it with Discount := discount } else it)
  { db with items := items }

/-- The store of the end-to-end scenario: no carts and one item with quantity 10, price 100 and
no discount. -/
def scenarioDB (itemID : ObjectID) : DB :=
  { carts := [], items := [{ ID := itemID, Price := 100, Discount := 0, Quantity := 10 }],
    writes := [] }

/-- The lookup `GetItem` does, on a store: the stored quantity of an item. -/
def storedQuantity (db : DB) (id : ObjectID) : Option Int :=
  (db.items.find? (fun it => decide (it.ID = id))).map (fun it => it.Quantity)

/-- First step of the end-to-end scenario: `AddToCart` of 3. -/
def scenarioAdd3 (userid itemID n1 : ObjectID) (b1 : Bool) : Option AppError × DB :=
  CartService.AddToCart (Env.ok n1 b1) (scenarioDB itemID) userid (request itemID 3)

/-- Second step of the scenario: the discount is now 10 and `AddToCart` of 2 is called. -/
def scenarioAdd2 (userid itemID n1 n2 : ObjectID) (b1 b2 : Bool) : Option AppError × DB :=
  CartService.AddToCart (Env.ok n2 b2)
    (setDiscount itemID 10 (scenarioAdd3 userid itemID n1 b1).2) userid (request itemID 2)

/-- Third step of the scenario: `RemoveFromCart` of 5. -/
def scenarioRemove5 (userid itemID n1 n2 n3 : ObjectID) (b1 b2 b3 : Bool) :
    Option AppError × DB :=
  CartService.RemoveFromCart (Env.ok n3 b3) (scenarioAdd2 userid itemID n1 n2 b1 b2).2 userid
    (request itemID 5)

/-- The first step for user 7 and item 1. -/
def afterAdd3 : Option AppError × DB := scenarioAdd3 7 1 9 true

/-- The second step for user 7 and item 1. -/
def afterAdd2 : Option AppError × DB := scenarioAdd2 7 1 9 10 true true

/-- The third step for user 7 and item 1. -/
def afterRemove5 : Option AppError × DB := scenarioRemove5 7 1 9 10 11 true true true

/-- The store after the first step of the scenario, with a second item in the catalog. -/
def twoItemsDB : DB :=
  { afterAdd3.2 with
    items := afterAdd3.2.items ++ [{ ID := 2, Price := 50, Discount := 0, Quantity := 4 }] }

/-- A call of one of the two operations of the cart service, with the environment it runs in. -/
inductive Call where
  | addToCart (env : Env) (userid : ObjectID) (cartItem : CartItem)
  | removeFromCart (env : Env) (userid : ObjectID) (cartItem : CartItem)

/-- The line a call is made with. -/
def Call.cartItem : Call → CartItem
  | Call.addToCart _ _ cartItem => cartItem
  | Call.removeFromCart _ _ cartItem => cartItem

/-- A call, run on a store. -/
def Call.run : Call → DB → Option AppError × DB
  | Call.addToCart env userid cartItem, db => CartService.AddToCart env db userid cartItem
  | Call.removeFromCart env userid cartItem, db =>
    CartService.RemoveFromCart env db userid cartItem

/-- Calls executed one at a time, each on the store the call before it has left. -/
def runCalls : List Call → DB → DB
  | [], db => db
  | c :: rest, db => runCalls rest (c.run db).2

/-- The cart writes of the coordinator among a list of writes: the key, the line items and the
total of each `UpdateCart`. -/
def cartUpdates : List Write → List (ObjectID × List CartItem × ℚ)
  | [] => []
  | Write.UpdateCart id cartItems totalPrice :: rest =>
    (id, cartItems, totalPrice) :: cartUpdates rest
  | Write.CreateCart _ :: rest => cartUpdates rest
  | Write.UpdateItem _ _ :: rest => cartUpdates rest

/-- The quantity of the line of an item in the cart stored for a user; 0 when the user has no
cart or the cart has no line of the item. -/
def lineQuantity (db : DB) (userid itemID : ObjectID) : Int :=
  match findCart db.carts userid with
  | none => 0
  | some ct =>
    match ct.CartItems.find? (fun v => decide (v.ItemID = itemID)) with
    | none => 0
    | some v => v.Quantity

/-- The stock of an item held by the inventory and by the cart of a user together. -/
def stockOf (db : DB) (userid itemID : ObjectID) : Option Int :=
  (storedQuantity db itemID).map (fun q => q + lineQuantity db userid itemID)

/-- Every line of a cart has a positive quantity. -/
def LinesPositive (c : Cart) : Prop := ∀ l ∈ c.CartItems, 0 < l.Quantity

instance (c : Cart) : Decidable (LinesPositive c) := by
  unfold LinesPositive; exact inferInstance

/-- A store without carts whose item 1 has the largest Go `int` in stock. -/
def fullStockDB : DB :=
  { carts := [], items := [{ ID := 1, Price := 100, Discount := 0, Quantity := maxInt }],
    writes := [] }

/-- User 7 puts the whole stock of `fullStockDB` into the cart. -/
def afterAddAll : Option AppError × DB :=
  CartService.AddToCart (Env.ok 9 true) fullStockDB 7 (request 1 maxInt)

/-- The catalog then stocks one more unit of item 1. -/
def restockedDB : DB :=
  { afterAddAll.2 with items := [{ ID := 1, Price := 100, Discount := 0, Quantity := 1 }] }

/-- User 7 adds that unit to the cart. -/
def afterAddOneMore : Option AppError × DB :=
  CartService.AddToCart (Env.ok 10 true) restockedDB 7 (request 1 1)

/-- An HTTP answer of a handler: the status and the message of its JSON body. -/
structure Response where
  status : Int
  message : String
  deriving DecidableEq, Repr

/-- The request body of the cart update handler, as bound from JSON. -/
structure UpdateCartRequest where
  ItemID : String
  Quantity : Int
  deriving DecidableEq

/-- The call of the service a handler makes. -/
inductive ServiceCall where
  | RemoveFromCart (userid : ObjectID) (cartItem : CartItem)
  | AddToCart (userid : ObjectID) (cartItem : CartItem)
  deriving DecidableEq

/-- What a run of the cart update handler does: its answer, the call of the service it has
made, if any, and the store it leaves. -/
structure HandlerOutcome where
  response : Response
  call : Option ServiceCall
  db : DB
  deriving DecidableEq

/-- The answer of the handler after a call of the service. -/
def respond (err : Option AppError) (success : String) : Response :=
  match err with
  | some e => { status := e.StatusCode, message := e.Error }
  | none => { status := 200, message := success }

/-- The handler `CartController.UpdateCart`.  `bound` is the result of `c.ShouldBindJSON(&req)`
(the bound request or the text of the binding error) and `objectIDFromHex` the function
`primitive.ObjectIDFromHex` of the driver. -/
def CartController.UpdateCart (objectIDFromHex : String → Except String ObjectID) (env : Env)
    (db : DB) (userid : ObjectID) (bound : Except String UpdateCartRequest) : HandlerOutcome :=
  if userid = 0 then
    { response := { status := 400, message := "invalid user" }, call := none, db := db }
  else
    match bound with
    | .error msg => { response := { status := 400, message := msg }, call := none, db := db }
    | .ok req =>
      if req.Quantity = 0 then
        { response := { status := 400, message := "invalid quantity" }, call := none, db := db }
      else
        match objectIDFromHex req.ItemID with
        | .error msg =>
          { response := { status := 400, message := msg }, call := none, db := db }
        | .ok objectID =>
          let cartItem : CartItem :=
            { ItemID := objectID, Quantity := req.Quantity, Price := 0, TotalPrice := 0 }
          if req.Quantity < 0 then
            let cartItem1 : CartItem := { cartItem with Quantity := wrapInt (-cartItem.Quantity) }
            let r := CartService.RemoveFromCart env db userid cartItem1
            { response := respond r.1 "success removed item from cart",
              call := some (ServiceCall.RemoveFromCart userid cartItem1), db := r.2 }
          else
            let r := CartService.AddToCart env db userid cartItem
            { response := respond r.1 "success added new item to cart",
              call := some (ServiceCall.AddToCart userid cartItem), db := r.2 }

/-- The quantity a call of the service is made with. -/
def ServiceCall.quantity : ServiceCall → Int
  | ServiceCall.RemoveFromCart _ cartItem => cartItem.Quantity
  | ServiceCall.AddToCart _ cartItem => cartItem.Quantity

/-! ## The coordinator and the repositories: what a call leaves behind -/

theorem sumTotalPrice_foldl (l : List CartItem) (a : ℚ) :
    l.foldl (fun acc it => acc + it.TotalPrice) a = a + (l.map (fun it => it.TotalPrice)).sum := by
  induction l generalizing a with
  | nil => simp
  | cons v rest ih => simp [ih, add_assoc]

theorem sumTotalPrice_eq_sum (l : List CartItem) :
    sumTotalPrice l = (l.map (fun it => it.TotalPrice)).sum := by
  simp [sumTotalPrice, sumTotalPrice_foldl]

theorem updateConcurrently_carts (env : Env) (db : DB) (ct : Cart) (ci : CartItem) (act : action) :
    (CartService.updateConcurrently env db ct ci act).2.carts =
      if env.updateCartFails then db.carts
      else setCart ct.ID ct.CartItems ct.TotalPrice db.carts := by
  unfold CartService.updateConcurrently cartBranch itemBranch CartService.updateItemQuantity
    CartService.processItemUpdates CartRepo.UpdateCart ItemRepo.UpdateItem
  cases env.cartBranchFirst <;> cases env.updateCartFails <;> cases env.updateItemFails <;> simp

theorem updateConcurrently_items (env : Env) (db : DB) (ct : Cart) (ci : CartItem) (act : action) :
    (CartService.updateConcurrently env db ct ci act).2.items =
      if env.updateItemFails then db.items
      else incQuantity ci.ItemID (quantityChangeFor ci act) db.items := by
  unfold CartService.updateConcurrently cartBranch itemBranch CartService.updateItemQuantity
    CartService.processItemUpdates CartRepo.UpdateCart ItemRepo.UpdateItem
  cases env.cartBranchFirst <;> cases env.updateCartFails <;> cases env.updateItemFails <;> simp

theorem updateConcurrently_fst (env : Env) (db : DB) (ct : Cart) (ci : CartItem) (act : action) :
    (CartService.updateConcurrently env db ct ci act).1 =
      if env.updateCartFails || env.updateItemFails then some ErrInternalServer else none := by
  unfold CartService.updateConcurrently cartBranch itemBranch CartService.updateItemQuantity
    CartService.processItemUpdates CartRepo.UpdateCart ItemRepo.UpdateItem
  cases env.cartBranchFirst <;> cases env.updateCartFails <;> cases env.updateItemFails <;>
    simp [drain]

theorem updateConcurrently_writes (env : Env) (db : DB) (ct : Cart) (ci : CartItem) (act : action) :
    (CartService.updateConcurrently env db ct ci act).2.writes =
      if env.cartBranchFirst then
        db.writes ++ [Write.UpdateCart ct.ID ct.CartItems ct.TotalPrice,
                      Write.UpdateItem ci.ItemID (quantityChangeFor ci act)]
      else
        db.writes ++ [Write.UpdateItem ci.ItemID (quantityChangeFor ci act),
                      Write.UpdateCart ct.ID ct.CartItems ct.TotalPrice] := by
  unfold CartService.updateConcurrently cartBranch itemBranch CartService.updateItemQuantity
    CartService.processItemUpdates CartRepo.UpdateCart ItemRepo.UpdateItem
  cases env.cartBranchFirst <;> cases env.updateCartFails <;> cases env.updateItemFails <;> simp

theorem CreateCart_carts (fails : Bool) (newID : ObjectID) (db : DB) (c : Cart) :
    (CartRepo.CreateCart fails newID db c).2.carts =
      if (CartRepo.CreateCart fails newID db c).1 = none then db.carts ++ [assignID newID c]
      else db.carts := by
  unfold CartRepo.CreateCart
  cases fails <;> simp only [Bool.false_eq_true, if_false, if_true]
  · split_ifs <;> simp_all
  · simp

/-! ## The two operations, case by case -/

theorem GetItem_fails_false {fails : Bool} {db : DB} {id : ObjectID} {it : Item}
    (h : ItemRepo.GetItem fails db id = .ok it) : fails = false := by
  cases fails
  · rfl
  · simp [ItemRepo.GetItem] at h

theorem GetItem_id {fails : Bool} {db : DB} {id : ObjectID} {it : Item}
    (h : ItemRepo.GetItem fails db id = .ok it) : it.ID = id ∧ it ∈ db.items := by
  have hf := GetItem_fails_false h
  subst hf
  simp only [ItemRepo.GetItem, Bool.false_eq_true, if_false] at h
  split at h
  · rename_i x hx
    have := List.find?_some hx
    have hm := List.mem_of_find?_eq_some hx
    simp at this
    cases h
    exact ⟨this, hm⟩
  · simp at h

theorem AddToCart_of_cart (env : Env) {db : DB} {userid : ObjectID} {cartItem : CartItem}
    {it : Item} {ct : Cart}
    (h1 : ItemRepo.GetItem env.getItemFails db cartItem.ItemID = .ok it)
    (h2 : ¬ it.Quantity < cartItem.Quantity)
    (h3 : CartRepo.GetCart env.getCartFails db userid = (ct, none)) :
    CartService.AddToCart env db userid cartItem =
      CartService.updateConcurrently env db (addMutate ct (priceLine it cartItem))
        (priceLine it cartItem) add := by
  simp [CartService.AddToCart, h1, h2, h3]

theorem AddToCart_of_noCart (env : Env) {db : DB} {userid : ObjectID} {cartItem : CartItem}
    {it : Item} {ct : Cart}
    (h1 : ItemRepo.GetItem env.getItemFails db cartItem.ItemID = .ok it)
    (h2 : ¬ it.Quantity < cartItem.Quantity)
    (h3 : CartRepo.GetCart env.getCartFails db userid = (ct, some DBError.ErrNoDocuments)) :
    CartService.AddToCart env db userid cartItem =
      if (CartRepo.CreateCart env.createCartFails env.newID db
            (firstCart userid (priceLine it cartItem))).1 = none then
        CartService.updateConcurrently env
          (CartRepo.CreateCart env.createCartFails env.newID db
            (firstCart userid (priceLine it cartItem))).2 ct (priceLine it cartItem) add
      else (some ErrInternalServer,
        (CartRepo.CreateCart env.createCartFails env.newID db
            (firstCart userid (priceLine it cartItem))).2) := by
  simp only [CartService.AddToCart, h1, h2, h3]
  simp only [if_false, ne_eq, not_true_eq_false]
  split <;> simp_all

theorem AddToCart_of_getCart_error {env : Env} {db : DB} {userid : ObjectID} {cartItem : CartItem}
    {it : Item} {ct : Cart}
    (h1 : ItemRepo.GetItem env.getItemFails db cartItem.ItemID = .ok it)
    (h2 : ¬ it.Quantity < cartItem.Quantity)
    (h3 : CartRepo.GetCart env.getCartFails db userid = (ct, some DBError.other)) :
    CartService.AddToCart env db userid cartItem = (some ErrInternalServer, db) := by
  simp [CartService.AddToCart, h1, h2, h3]

theorem AddToCart_of_short {env : Env} {db : DB} {userid : ObjectID} {cartItem : CartItem}
    {it : Item}
    (h1 : ItemRepo.GetItem env.getItemFails db cartItem.ItemID = .ok it)
    (h2 : it.Quantity < cartItem.Quantity) :
    CartService.AddToCart env db userid cartItem =
      (some (NewError "not enough quantity available in inventory" 400), db) := by
  simp [CartService.AddToCart, h1, h2]

theorem AddToCart_of_getItem_error {env : Env} {db : DB} {userid : ObjectID} {cartItem : CartItem}
    {e : DBError}
    (h1 : ItemRepo.GetItem env.getItemFails db cartItem.ItemID = .error e) :
    CartService.AddToCart env db userid cartItem =
      (some (if e = DBError.ErrNoDocuments then
          NewError ("item not found with ID: " ++ Hex cartItem.ItemID) 404
        else ErrInternalServer), db) := by
  cases e <;> simp [CartService.AddToCart, h1]


theorem setCart_of_no_match (id : ObjectID) (cartItems : List CartItem) (totalPrice : ℚ)
    (l : List Cart) (h : ∀ c ∈ l, c.ID ≠ id) : setCart id cartItems totalPrice l = l := by
  induction l with
  | nil => rfl
  | cons d rest ih =>
    have hd : d.ID ≠ id := h d (List.mem_cons_self _ _)
    simp only [setCart, hd, if_false]
    rw [ih (fun c hc => h c (List.mem_cons_of_mem _ hc))]

theorem setCart_map_ID (id : ObjectID) (cartItems : List CartItem) (totalPrice : ℚ)
    (l : List Cart) : (setCart id cartItems totalPrice l).map (fun c => c.ID) =
      l.map (fun c => c.ID) := by
  induction l with
  | nil => rfl
  | cons d rest ih =>
    simp only [setCart]
    split
    · simp
    · simp [ih]

theorem findCart_setCart (userid : ObjectID) (cartItems : List CartItem) (totalPrice : ℚ)
    (l : List Cart) (ct : Cart) (hu : (l.map (fun c => c.ID)).Nodup)
    (h : findCart l userid = some ct) :
    findCart (setCart ct.ID cartItems totalPrice l) userid =
      some { ct with CartItems := cartItems, TotalPrice := totalPrice } := by
  induction l with
  | nil => simp [findCart] at h
  | cons d rest ih =>
    unfold findCart at h ih ⊢
    by_cases hp : d.UserID ≠ 0 ∧ d.UserID = userid
    · have hd : ct = d := by
        rw [List.find?_cons_of_pos] at h
        · exact (Option.some.inj h).symm
        · simpa using hp
      subst hd
      simp only [setCart, if_true]
      rw [List.find?_cons_of_pos]
      simpa using hp
    · have hrest : List.find? (fun c => decide (c.UserID ≠ 0 ∧ c.UserID = userid)) rest = some ct := by
        rw [List.find?_cons_of_neg] at h
        · exact h
        · simpa using hp
      have hmem : ct ∈ rest := List.mem_of_find?_eq_some hrest
      have hnd := List.nodup_cons.1 (by simpa using hu : (d.ID :: rest.map (fun c => c.ID)).Nodup)
      have hne : d.ID ≠ ct.ID := by
        intro heq
        exact hnd.1 (heq ▸ List.mem_map_of_mem (fun c => c.ID) hmem)
      simp only [setCart, hne, if_false]
      rw [List.find?_cons_of_neg]
      · exact ih hnd.2 hrest
      · simpa using hp

theorem findCart_append_of_none (l : List Cart) (c : Cart) (userid : ObjectID)
    (h : findCart l userid = none) (hc : c.UserID = userid) (hz : userid ≠ 0) :
    findCart (l ++ [c]) userid = some c := by
  unfold findCart at *
  rw [List.find?_append, h]
  simp [hc, hz]

theorem GetCart_eq (db : DB) (userid : ObjectID) :
    CartRepo.GetCart false db userid =
      match findCart db.carts userid with
      | some c => (c, none)
      | none => (Cart.zero, some DBError.ErrNoDocuments) := by
  simp [CartRepo.GetCart]

theorem priceLine_ItemID (it : Item) (ci : CartItem) : (priceLine it ci).ItemID = ci.ItemID := rfl

theorem priceLine_Quantity (it : Item) (ci : CartItem) :
    (priceLine it ci).Quantity = ci.Quantity := rfl

theorem priceLine_Price (it : Item) (ci : CartItem) : (priceLine it ci).Price = unitPrice it := rfl

theorem priceLine_TotalPrice (it : Item) (ci : CartItem) :
    (priceLine it ci).TotalPrice = unitPrice it * (ci.Quantity : ℚ) := rfl

theorem quantityChangeFor_add (ci : CartItem) :
    quantityChangeFor ci add = wrapInt (-1 * ci.Quantity) := by
  simp [quantityChangeFor, add, remove]

theorem quantityChangeFor_remove (ci : CartItem) : quantityChangeFor ci remove = ci.Quantity := by
  simp [quantityChangeFor]


theorem CreateCart_ok {fails : Bool} {newID : ObjectID} {db : DB} {c : Cart}
    (h : (CartRepo.CreateCart fails newID db c).1 = none) :
    fails = false ∧ (∀ d ∈ db.carts, d.ID ≠ (assignID newID c).ID) ∧
    (CartRepo.CreateCart fails newID db c).2.carts = db.carts ++ [assignID newID c] := by
  have hc := CreateCart_carts fails newID db c
  rw [if_pos h] at hc
  refine ⟨?_, ?_, hc⟩
  · cases fails
    · rfl
    · simp [CartRepo.CreateCart] at h
  · cases fails
    · simp only [CartRepo.CreateCart, Bool.false_eq_true, if_false] at h
      split_ifs at h with hany
      simpa using hany
    · simp [CartRepo.CreateCart] at h

theorem CreateCart_items (fails : Bool) (newID : ObjectID) (db : DB) (c : Cart) :
    (CartRepo.CreateCart fails newID db c).2.items = db.items := by
  unfold CartRepo.CreateCart
  cases fails <;> simp only [Bool.false_eq_true, if_false, if_true]
  split_ifs <;> rfl

theorem GetCart_cases (fails : Bool) (db : DB) (userid : ObjectID) :
    (fails = true ∧ CartRepo.GetCart fails db userid = (Cart.zero, some DBError.other)) ∨
    (fails = false ∧ findCart db.carts userid = none ∧
      CartRepo.GetCart fails db userid = (Cart.zero, some DBError.ErrNoDocuments)) ∨
    (fails = false ∧ ∃ ct, findCart db.carts userid = some ct ∧
      CartRepo.GetCart fails db userid = (ct, none)) := by
  cases fails
  · right
    cases h : findCart db.carts userid with
    | none => left; simp [CartRepo.GetCart, h]
    | some ct => right; exact ⟨rfl, ct, rfl, by simp [CartRepo.GetCart, h]⟩
  · left; simp [CartRepo.GetCart]

/-- What a successful `AddToCart` has read and written. -/
theorem AddToCart_ok {env : Env} {db : DB} {userid : ObjectID} {cartItem : CartItem}
    (hok : (CartService.AddToCart env db userid cartItem).1 = none) :
    ∃ it, ItemRepo.GetItem false db cartItem.ItemID = .ok it ∧
      ¬ it.Quantity < cartItem.Quantity ∧
      (CartService.AddToCart env db userid cartItem).2.items =
        incQuantity cartItem.ItemID (wrapInt (-1 * cartItem.Quantity)) db.items ∧
      ((∃ ct, findCart db.carts userid = some ct ∧
          (CartService.AddToCart env db userid cartItem).2.carts =
            setCart ct.ID (addMutate ct (priceLine it cartItem)).CartItems
              (addMutate ct (priceLine it cartItem)).TotalPrice db.carts) ∨
       (findCart db.carts userid = none ∧ (∀ c ∈ db.carts, c.ID ≠ env.newID) ∧
          (CartService.AddToCart env db userid cartItem).2.carts =
            setCart 0 [] 0
              (db.carts ++ [assignID env.newID (firstCart userid (priceLine it cartItem))]))) := by
  cases hgi : ItemRepo.GetItem env.getItemFails db cartItem.ItemID with
  | error e => rw [AddToCart_of_getItem_error hgi] at hok; simp at hok
  | ok it =>
    have hf := GetItem_fails_false hgi
    by_cases hq : it.Quantity < cartItem.Quantity
    · rw [AddToCart_of_short hgi hq] at hok; simp at hok
    · refine ⟨it, hf ▸ hgi, hq, ?_⟩
      rcases GetCart_cases env.getCartFails db userid with ⟨_, hg⟩ | ⟨_, hnone, hg⟩ | ⟨_, ct, hsome, hg⟩
      · rw [AddToCart_of_getCart_error hgi hq hg] at hok; simp at hok
      · rw [AddToCart_of_noCart env hgi hq hg] at hok ⊢
        by_cases hcr : (CartRepo.CreateCart env.createCartFails env.newID db
            (firstCart userid (priceLine it cartItem))).1 = none
        · rw [if_pos hcr] at hok ⊢
          rw [updateConcurrently_fst] at hok
          have hflags : env.updateCartFails = false ∧ env.updateItemFails = false := by
            cases h1 : env.updateCartFails <;> cases h2 : env.updateItemFails <;> simp_all
          obtain ⟨_, hfresh, hcarts⟩ := CreateCart_ok hcr
          rw [updateConcurrently_carts, updateConcurrently_items, hflags.1, hflags.2, hcarts,
            CreateCart_items]
          refine ⟨by simp [quantityChangeFor_add, priceLine_ItemID, priceLine_Quantity], Or.inr ⟨hnone, ?_, ?_⟩⟩
          · simpa [firstCart, assignID] using hfresh
          · simp [Cart.zero]
        · rw [if_neg hcr] at hok; simp at hok
      · rw [AddToCart_of_cart env hgi hq hg] at hok ⊢
        rw [updateConcurrently_fst] at hok
        have hflags : env.updateCartFails = false ∧ env.updateItemFails = false := by
          cases h1 : env.updateCartFails <;> cases h2 : env.updateItemFails <;> simp_all
        rw [updateConcurrently_carts, updateConcurrently_items, hflags.1, hflags.2]
        exact ⟨by simp [quantityChangeFor_add, priceLine_ItemID, priceLine_Quantity],
          Or.inl ⟨ct, hsome, by simp [addMutate]⟩⟩


theorem removeLoop_snd (ci : CartItem) (l : List CartItem) :
    (removeLoop ci l).2 = (findLoop ci l).isSome := by
  induction l with
  | nil => rfl
  | cons v rest ih =>
    unfold findLoop at *
    by_cases h : v.ItemID = ci.ItemID
    · simp only [removeLoop, h, if_true]
      rw [List.find?_cons_of_pos _ (by simpa using h)]
      split <;> rfl
    · simp only [removeLoop, h, if_false]
      rw [List.find?_cons_of_neg _ (by simpa using h)]
      exact ih

theorem addLoop_snd (ci : CartItem) (l : List CartItem) :
    (addLoop ci l).2 = (findLoop ci l).isSome := by
  induction l with
  | nil => rfl
  | cons v rest ih =>
    unfold findLoop at *
    by_cases h : v.ItemID = ci.ItemID
    · simp only [addLoop, h, if_true]
      rw [List.find?_cons_of_pos _ (by simpa using h)]
      rfl
    · simp only [addLoop, h, if_false]
      rw [List.find?_cons_of_neg _ (by simpa using h)]
      exact ih

theorem RemoveFromCart_of_getCart_error {env : Env} {db : DB} {userid : ObjectID}
    {cartItem : CartItem} {ct : Cart}
    (h : CartRepo.GetCart env.getCartFails db userid = (ct, some DBError.other)) :
    CartService.RemoveFromCart env db userid cartItem = (some ErrInternalServer, db) := by
  simp [CartService.RemoveFromCart, h]

theorem RemoveFromCart_of_noCart {env : Env} {db : DB} {userid : ObjectID}
    {cartItem : CartItem} {ct : Cart}
    (h : CartRepo.GetCart env.getCartFails db userid = (ct, some DBError.ErrNoDocuments)) :
    CartService.RemoveFromCart env db userid cartItem =
      (some (NewError "cart not found or empty" 404), db) := by
  simp [CartService.RemoveFromCart, h]

theorem RemoveFromCart_of_noLine {env : Env} {db : DB} {userid : ObjectID}
    {cartItem : CartItem} {ct : Cart}
    (h : CartRepo.GetCart env.getCartFails db userid = (ct, none))
    (hl : findLoop cartItem ct.CartItems = none) :
    CartService.RemoveFromCart env db userid cartItem =
      (some (NewError "item not found in cart" 404), db) := by
  simp [CartService.RemoveFromCart, h, hl]

theorem RemoveFromCart_of_tooMany {env : Env} {db : DB} {userid : ObjectID}
    {cartItem : CartItem} {ct : Cart} {v : CartItem}
    (h : CartRepo.GetCart env.getCartFails db userid = (ct, none))
    (hl : findLoop cartItem ct.CartItems = some v) (hq : v.Quantity < cartItem.Quantity) :
    CartService.RemoveFromCart env db userid cartItem =
      (some (NewError "cannot remove more items than what is in the cart cart" 400), db) := by
  simp [CartService.RemoveFromCart, h, hl, hq]

theorem RemoveFromCart_of_line {env : Env} {db : DB} {userid : ObjectID}
    {cartItem : CartItem} {ct : Cart} {v : CartItem}
    (h : CartRepo.GetCart env.getCartFails db userid = (ct, none))
    (hl : findLoop cartItem ct.CartItems = some v) (hq : ¬ v.Quantity < cartItem.Quantity) :
    CartService.RemoveFromCart env db userid cartItem =
      CartService.updateConcurrently env db (removeMutate ct cartItem) cartItem remove := by
  simp [CartService.RemoveFromCart, h, hl, hq, removeLoop_snd]

/-- What a successful `RemoveFromCart` has read and written. -/
theorem RemoveFromCart_ok {env : Env} {db : DB} {userid : ObjectID} {cartItem : CartItem}
    (hok : (CartService.RemoveFromCart env db userid cartItem).1 = none) :
    ∃ ct v, findCart db.carts userid = some ct ∧ findLoop cartItem ct.CartItems = some v ∧
      ¬ v.Quantity < cartItem.Quantity ∧
      (CartService.RemoveFromCart env db userid cartItem).2.items =
        incQuantity cartItem.ItemID cartItem.Quantity db.items ∧
      (CartService.RemoveFromCart env db userid cartItem).2.carts =
        setCart ct.ID (removeMutate ct cartItem).CartItems (removeMutate ct cartItem).TotalPrice
          db.carts := by
  rcases GetCart_cases env.getCartFails db userid with ⟨_, hg⟩ | ⟨_, hnone, hg⟩ | ⟨_, ct, hsome, hg⟩
  · rw [RemoveFromCart_of_getCart_error hg] at hok; simp at hok
  · rw [RemoveFromCart_of_noCart hg] at hok; simp at hok
  · cases hl : findLoop cartItem ct.CartItems with
    | none => rw [RemoveFromCart_of_noLine hg hl] at hok; simp at hok
    | some v =>
      by_cases hq : v.Quantity < cartItem.Quantity
      · rw [RemoveFromCart_of_tooMany hg hl hq] at hok; simp at hok
      · rw [RemoveFromCart_of_line hg hl hq] at hok ⊢
        rw [updateConcurrently_fst] at hok
        have hflags : env.updateCartFails = false ∧ env.updateItemFails = false := by
          cases h1 : env.updateCartFails <;> cases h2 : env.updateItemFails <;> simp_all
        rw [updateConcurrently_carts, updateConcurrently_items, hflags.1, hflags.2]
        exact ⟨ct, v, hsome, hl, hq, by simp [quantityChangeFor_remove], by simp [removeMutate]⟩


theorem wrapInt_of_isInt {x : Int} (h : IsInt x) : wrapInt x = x := by
  unfold IsInt minInt maxInt at h
  unfold wrapInt
  omega

theorem addLoop_of_none (ci : CartItem) (l : List CartItem) (h : findLoop ci l = none) :
    addLoop ci l = (l, false) := by
  induction l with
  | nil => rfl
  | cons v rest ih =>
    unfold findLoop at *
    by_cases hv : v.ItemID = ci.ItemID
    · rw [List.find?_cons_of_pos _ (by simpa using hv)] at h
      simp at h
    · rw [List.find?_cons_of_neg _ (by simpa using hv)] at h
      simp only [addLoop, hv, if_false, ih h]

theorem addLoop_append_of_none (ci v : CartItem) (l : List CartItem)
    (h : findLoop ci l = none) (hv : v.ItemID = ci.ItemID) :
    addLoop ci (l ++ [v]) =
      (l ++ [{ v with Quantity := wrapInt (v.Quantity + ci.Quantity),
                      TotalPrice := v.TotalPrice + ci.TotalPrice }], true) := by
  induction l with
  | nil => simp [addLoop, hv]
  | cons w rest ih =>
    unfold findLoop at *
    by_cases hw : w.ItemID = ci.ItemID
    · rw [List.find?_cons_of_pos _ (by simpa using hw)] at h
      simp at h
    · rw [List.find?_cons_of_neg _ (by simpa using hw)] at h
      have ih' := ih h
      simp only [List.cons_append, addLoop, hw, if_false]
      rw [show rest.append [v] = rest ++ [v] from rfl, ih']

theorem updateConcurrently_ok (n : ObjectID) (b : Bool) (db : DB) (ct : Cart) (ci : CartItem)
    (act : action) : (CartService.updateConcurrently (Env.ok n b) db ct ci act).1 = none := by
  rw [updateConcurrently_fst]; rfl

theorem AddToCart_ok_of_cart (n : ObjectID) (b : Bool) {db : DB} {userid : ObjectID}
    (cartItem : CartItem) {it : Item} {ct : Cart}
    (h1 : ItemRepo.GetItem false db cartItem.ItemID = .ok it)
    (h2 : ¬ it.Quantity < cartItem.Quantity) (h3 : findCart db.carts userid = some ct) :
    (CartService.AddToCart (Env.ok n b) db userid cartItem).1 = none := by
  have hg : CartRepo.GetCart (Env.ok n b).getCartFails db userid = (ct, none) := by
    simp [Env.ok, GetCart_eq, h3]
  rw [AddToCart_of_cart (Env.ok n b) h1 h2 hg]
  exact updateConcurrently_ok _ _ _ _ _ _

theorem CreateCart_ok_of_fresh (newID : ObjectID) (db : DB) (c : Cart)
    (h : ∀ d ∈ db.carts, d.ID ≠ (assignID newID c).ID) :
    (CartRepo.CreateCart false newID db c).1 = none := by
  have : (db.carts.any fun d => decide (d.ID = (assignID newID c).ID)) = false := by
    simpa using h
  simp [CartRepo.CreateCart, this]

theorem AddToCart_ok_of_noCart (n : ObjectID) (b : Bool) {db : DB} {userid : ObjectID}
    (cartItem : CartItem) {it : Item}
    (h1 : ItemRepo.GetItem false db cartItem.ItemID = .ok it)
    (h2 : ¬ it.Quantity < cartItem.Quantity) (h3 : findCart db.carts userid = none)
    (hfresh : ∀ c ∈ db.carts, c.ID ≠ n) :
    (CartService.AddToCart (Env.ok n b) db userid cartItem).1 = none := by
  have hg : CartRepo.GetCart (Env.ok n b).getCartFails db userid =
      (Cart.zero, some DBError.ErrNoDocuments) := by
    simp [Env.ok, GetCart_eq, h3]
  rw [AddToCart_of_noCart (Env.ok n b) h1 h2 hg]
  have hc : (CartRepo.CreateCart (Env.ok n b).createCartFails (Env.ok n b).newID db
      (firstCart userid (priceLine it cartItem))).1 = none :=
    CreateCart_ok_of_fresh _ _ _ (by simpa [assignID, firstCart, Env.ok] using hfresh)
  rw [if_pos hc]
  exact updateConcurrently_ok _ _ _ _ _ _

/-- The cart stored for a user after a successful `AddToCart`, when the user had a cart. -/
theorem AddToCart_stored_of_cart {env : Env} {db : DB} {userid : ObjectID} {cartItem : CartItem}
    {it : Item} {ct : Cart}
    (hok : (CartService.AddToCart env db userid cartItem).1 = none)
    (hu : (db.carts.map (fun c => c.ID)).Nodup)
    (hi : ItemRepo.GetItem false db cartItem.ItemID = .ok it)
    (hc : findCart db.carts userid = some ct) :
    findCart (CartService.AddToCart env db userid cartItem).2.carts userid =
      some (addMutate ct (priceLine it cartItem)) := by
  obtain ⟨it', hi', _, _, h | h⟩ := AddToCart_ok hok
  · obtain ⟨ct', hc', hcarts⟩ := h
    rw [hc] at hc'
    cases hc'
    rw [hi] at hi'
    cases hi'
    rw [hcarts, findCart_setCart _ _ _ _ _ hu hc]
    rfl
  · rw [hc] at h
    simp at h

/-- The cart stored for a user after a successful `AddToCart`, when the user had no cart. -/
theorem AddToCart_stored_of_noCart {env : Env} {db : DB} {userid : ObjectID}
    {cartItem : CartItem} {it : Item}
    (hok : (CartService.AddToCart env db userid cartItem).1 = none)
    (hz : ∀ c ∈ db.carts, c.ID ≠ 0) (hn : env.newID ≠ 0) (huid : userid ≠ 0)
    (hi : ItemRepo.GetItem false db cartItem.ItemID = .ok it)
    (hc : findCart db.carts userid = none) :
    findCart (CartService.AddToCart env db userid cartItem).2.carts userid =
      some (assignID env.newID (firstCart userid (priceLine it cartItem))) := by
  obtain ⟨it', hi', _, _, h | h⟩ := AddToCart_ok hok
  · obtain ⟨ct', hc', _⟩ := h
    rw [hc] at hc'
    simp at hc'
  · obtain ⟨_, _, hcarts⟩ := h
    rw [hi] at hi'
    cases hi'
    rw [hcarts, setCart_of_no_match]
    · exact findCart_append_of_none _ _ _ hc rfl huid
    · intro c hcm
      rcases List.mem_append.1 hcm with hcm | hcm
      · exact hz c hcm
      · rw [List.mem_singleton.1 hcm]
        simpa [assignID, firstCart] using hn

/-- A successful `AddToCart` keeps the identities of the stored carts distinct and non-zero. -/
theorem AddToCart_ids {env : Env} {db : DB} {userid : ObjectID} {cartItem : CartItem}
    (hok : (CartService.AddToCart env db userid cartItem).1 = none)
    (hu : (db.carts.map (fun c => c.ID)).Nodup) (hz : ∀ c ∈ db.carts, c.ID ≠ 0)
    (hn : env.newID ≠ 0) :
    ((CartService.AddToCart env db userid cartItem).2.carts.map (fun c => c.ID)).Nodup ∧
    ∀ c ∈ (CartService.AddToCart env db userid cartItem).2.carts, c.ID ≠ 0 := by
  have key : ∀ l : List Cart, (∀ c ∈ l, c.ID ≠ 0) → ∀ id ci t, ∀ c ∈ setCart id ci t l, c.ID ≠ 0 := by
    intro l hl id ci t c hc
    have : c.ID ∈ (setCart id ci t l).map (fun c => c.ID) := List.mem_map_of_mem (fun c => c.ID) hc
    rw [setCart_map_ID] at this
    obtain ⟨d, hd, hdc⟩ := List.mem_map.1 this
    rw [← hdc]; exact hl d hd
  obtain ⟨it', _, _, _, h | h⟩ := AddToCart_ok hok
  · obtain ⟨ct', _, hcarts⟩ := h
    rw [hcarts, setCart_map_ID]
    exact ⟨hu, key _ hz _ _ _⟩
  · obtain ⟨_, hfresh, hcarts⟩ := h
    rw [hcarts, setCart_map_ID]
    have hz' : ∀ c ∈ db.carts ++ [assignID env.newID (firstCart userid (priceLine it' cartItem))],
        c.ID ≠ 0 := by
      intro c hcm
      rcases List.mem_append.1 hcm with hcm | hcm
      · exact hz c hcm
      · rw [List.mem_singleton.1 hcm]
        simpa [assignID, firstCart] using hn
    refine ⟨?_, key _ hz' _ _ _⟩
    rw [List.map_append, List.nodup_append]
    refine ⟨hu, by simp, ?_⟩
    intro a ha hb
    obtain ⟨d, hd, hda⟩ := List.mem_map.1 ha
    simp [assignID, firstCart] at hb
    exact hfresh d hd (by rw [hda, hb])


/-! ## Invariants of the reachable stores -/

theorem findCart_mem {carts : List Cart} {userid : ObjectID} {ct : Cart}
    (h : findCart carts userid = some ct) : ct ∈ carts :=
  List.mem_of_find?_eq_some h

/-- The cart collection after `AddToCart`, whatever the call returns: untouched, or the user's
cart overwritten with the mutated one, or a first cart inserted (and then the update keyed by the
zero identity applied). -/
theorem AddToCart_carts_cases (env : Env) (db : DB) (userid : ObjectID) (cartItem : CartItem) :
    (CartService.AddToCart env db userid cartItem).2.carts = db.carts ∨
    (∃ it ct, findCart db.carts userid = some ct ∧
      (CartService.AddToCart env db userid cartItem).2.carts =
        setCart ct.ID (addMutate ct (priceLine it cartItem)).CartItems
          (addMutate ct (priceLine it cartItem)).TotalPrice db.carts) ∨
    (∃ it, (∀ d ∈ db.carts,
        d.ID ≠ (assignID env.newID (firstCart userid (priceLine it cartItem))).ID) ∧
      ((CartService.AddToCart env db userid cartItem).2.carts =
          db.carts ++ [assignID env.newID (firstCart userid (priceLine it cartItem))] ∨
       (CartService.AddToCart env db userid cartItem).2.carts =
          setCart 0 [] 0
            (db.carts ++ [assignID env.newID (firstCart userid (priceLine it cartItem))]))) := by
  cases hgi : ItemRepo.GetItem env.getItemFails db cartItem.ItemID with
  | error e => rw [AddToCart_of_getItem_error hgi]; exact Or.inl rfl
  | ok it =>
    by_cases hq : it.Quantity < cartItem.Quantity
    · rw [AddToCart_of_short hgi hq]; exact Or.inl rfl
    · rcases GetCart_cases env.getCartFails db userid with
        ⟨_, hg⟩ | ⟨_, hnone, hg⟩ | ⟨_, ct, hsome, hg⟩
      · rw [AddToCart_of_getCart_error hgi hq hg]; exact Or.inl rfl
      · rw [AddToCart_of_noCart env hgi hq hg]
        by_cases hcr : (CartRepo.CreateCart env.createCartFails env.newID db
            (firstCart userid (priceLine it cartItem))).1 = none
        · rw [if_pos hcr]
          obtain ⟨_, hfresh, hcarts⟩ := CreateCart_ok hcr
          rw [updateConcurrently_carts, hcarts]
          refine Or.inr (Or.inr ⟨it, hfresh, ?_⟩)
          split
          · exact Or.inl rfl
          · exact Or.inr rfl
        · rw [if_neg hcr]
          have := CreateCart_carts env.createCartFails env.newID db
            (firstCart userid (priceLine it cartItem))
          rw [if_neg hcr] at this
          exact Or.inl this
      · rw [AddToCart_of_cart env hgi hq hg, updateConcurrently_carts]
        split
        · exact Or.inl rfl
        · exact Or.inr (Or.inl ⟨it, ct, hsome, by simp [addMutate]⟩)

/-- The cart collection after `RemoveFromCart`, whatever the call returns: untouched, or the
user's cart overwritten with the mutated one. -/
theorem RemoveFromCart_carts_cases (env : Env) (db : DB) (userid : ObjectID)
    (cartItem : CartItem) :
    (CartService.RemoveFromCart env db userid cartItem).2.carts = db.carts ∨
    (∃ ct, findCart db.carts userid = some ct ∧
      (CartService.RemoveFromCart env db userid cartItem).2.carts =
        setCart ct.ID (removeMutate ct cartItem).CartItems (removeMutate ct cartItem).TotalPrice
          db.carts) := by
  rcases GetCart_cases env.getCartFails db userid with ⟨_, hg⟩ | ⟨_, hnone, hg⟩ | ⟨_, ct, hsome, hg⟩
  · rw [RemoveFromCart_of_getCart_error hg]; exact Or.inl rfl
  · rw [RemoveFromCart_of_noCart hg]; exact Or.inl rfl
  · cases hl : findLoop cartItem ct.CartItems with
    | none => rw [RemoveFromCart_of_noLine hg hl]; exact Or.inl rfl
    | some v =>
      by_cases hq : v.Quantity < cartItem.Quantity
      · rw [RemoveFromCart_of_tooMany hg hl hq]; exact Or.inl rfl
      · rw [RemoveFromCart_of_line hg hl hq, updateConcurrently_carts]
        split
        · exact Or.inl rfl
        · exact Or.inr ⟨ct, hsome, by simp [removeMutate]⟩

/-- A property of the contents of every stored cart survives `$set` with contents that have
it. -/
theorem setCart_forall (P : List CartItem → ℚ → Prop) (id : ObjectID)
    (cartItems : List CartItem) (totalPrice : ℚ) (h : P cartItems totalPrice) (l : List Cart)
    (hl : ∀ c ∈ l, P c.CartItems c.TotalPrice) :
    ∀ c ∈ setCart id cartItems totalPrice l, P c.CartItems c.TotalPrice := by
  induction l with
  | nil => simp [setCart]
  | cons d rest ih =>
    intro c hc
    simp only [setCart] at hc
    split at hc
    · rcases List.mem_cons.1 hc with rfl | hc
      · exact h
      · exact hl c (List.mem_cons_of_mem _ hc)
    · rcases List.mem_cons.1 hc with rfl | hc
      · exact hl _ (List.mem_cons_self _ _)
      · exact ih (fun c hc => hl c (List.mem_cons_of_mem _ hc)) c hc

/-- A property of cart contents that holds of the empty cart and of the one-line cart of the
priced line, and is kept by the mutation of `AddToCart` with the priced line, holds of every
stored cart after `AddToCart` when it held before. -/
theorem AddToCart_forall (P : List CartItem → ℚ → Prop) (env : Env) (db : DB)
    (userid : ObjectID) (cartItem : CartItem) (h0 : P [] 0)
    (h1 : ∀ it : Item, P [priceLine it cartItem] (priceLine it cartItem).TotalPrice)
    (hadd : ∀ (ct : Cart) (it : Item), P ct.CartItems ct.TotalPrice →
      P (addMutate ct (priceLine it cartItem)).CartItems
        (addMutate ct (priceLine it cartItem)).TotalPrice)
    (hl : ∀ c ∈ db.carts, P c.CartItems c.TotalPrice) :
    ∀ c ∈ (CartService.AddToCart env db userid cartItem).2.carts, P c.CartItems c.TotalPrice := by
  rcases AddToCart_carts_cases env db userid cartItem with h | ⟨it, ct, hc, h⟩ | ⟨it, _, h | h⟩
  · rw [h]; exact hl
  · rw [h]
    exact setCart_forall P _ _ _ (hadd ct it (hl ct (findCart_mem hc))) _ hl
  all_goals
    have hnew : ∀ c ∈ db.carts ++ [assignID env.newID (firstCart userid (priceLine it cartItem))],
        P c.CartItems c.TotalPrice := by
      intro c hc
      rcases List.mem_append.1 hc with hc | hc
      · exact hl c hc
      · rw [List.mem_singleton.1 hc]; exact h1 it
    rw [h]
  · exact hnew
  · exact setCart_forall P _ _ _ h0 _ hnew

/-- A property of cart contents kept by the mutation of `RemoveFromCart` holds of every stored
cart after `RemoveFromCart` when it held before. -/
theorem RemoveFromCart_forall (P : List CartItem → ℚ → Prop) (env : Env) (db : DB)
    (userid : ObjectID) (cartItem : CartItem)
    (hrem : ∀ ct : Cart, P ct.CartItems ct.TotalPrice →
      P (removeMutate ct cartItem).CartItems (removeMutate ct cartItem).TotalPrice)
    (hl : ∀ c ∈ db.carts, P c.CartItems c.TotalPrice) :
    ∀ c ∈ (CartService.RemoveFromCart env db userid cartItem).2.carts,
      P c.CartItems c.TotalPrice := by
  rcases RemoveFromCart_carts_cases env db userid cartItem with h | ⟨ct, hc, h⟩
  · rw [h]; exact hl
  · rw [h]
    exact setCart_forall P _ _ _ (hrem ct (hl ct (findCart_mem hc))) _ hl

/-- Induction over the reachable stores for a property of cart contents. -/
theorem Reachable.forall_carts (P : List CartItem → ℚ → Prop) (h0 : P [] 0)
    (h1 : ∀ ci : CartItem, IsInt ci.Quantity → P [ci] ci.TotalPrice)
    (hadd : ∀ (ct : Cart) (ci : CartItem), IsInt ci.Quantity → P ct.CartItems ct.TotalPrice →
      P (addMutate ct ci).CartItems (addMutate ct ci).TotalPrice)
    (hrem : ∀ (ct : Cart) (ci : CartItem), IsInt ci.Quantity → P ct.CartItems ct.TotalPrice →
      P (removeMutate ct ci).CartItems (removeMutate ct ci).TotalPrice)
    {db : DB} (h : Reachable db) : ∀ c ∈ db.carts, P c.CartItems c.TotalPrice := by
  induction h with
  | init items => simp
  | addToCart env userid cartItem _ hq _ ih =>
    exact AddToCart_forall P _ _ _ _ h0 (fun it => h1 _ hq) (fun ct it => hadd ct _ hq) ih
  | removeFromCart env userid cartItem hq _ ih =>
    exact RemoveFromCart_forall P _ _ _ _ (fun ct => hrem ct _ hq) ih
  | catalog items _ ih => exact ih

/-- In every reachable store the total of a cart is the sum of the totals of its lines. -/
theorem Reachable.totalIsSum {db : DB} (h : Reachable db) : ∀ c ∈ db.carts, TotalIsSum c :=
  Reachable.forall_carts (fun l t => t = (l.map (fun it => it.TotalPrice)).sum)
    (by simp) (by simp) (fun ct ci _ _ => by simp [addMutate, sumTotalPrice_eq_sum])
    (fun ct ci _ _ => by simp [removeMutate, sumTotalPrice_eq_sum]) h

theorem addLoop_map_ItemID (ci : CartItem) (l : List CartItem) :
    (addLoop ci l).1.map (fun v => v.ItemID) = l.map (fun v => v.ItemID) := by
  induction l with
  | nil => rfl
  | cons w rest ih =>
    by_cases hw : w.ItemID = ci.ItemID
    · simp [addLoop, hw]
    · simp [addLoop, hw, ih]

theorem removeLoop_map_ItemID_sublist (ci : CartItem) (l : List CartItem) :
    ((removeLoop ci l).1.map (fun v => v.ItemID)).Sublist (l.map (fun v => v.ItemID)) := by
  induction l with
  | nil => simp [removeLoop]
  | cons w rest ih =>
    by_cases hw : w.ItemID = ci.ItemID
    · by_cases hq : w.Quantity > ci.Quantity
      · simp [removeLoop, hw, hq]
      · simp [removeLoop, hw, hq]
    · simp only [removeLoop, hw, if_false, List.map_cons]
      exact ih.cons₂ _

theorem addMutate_lines_nodup (ct : Cart) (ci : CartItem)
    (h : (ct.CartItems.map (fun v => v.ItemID)).Nodup) :
    ((addMutate ct ci).CartItems.map (fun v => v.ItemID)).Nodup := by
  unfold addMutate
  simp only
  split
  · rw [addLoop_map_ItemID]; exact h
  · rename_i hf
    rw [addLoop_snd] at hf
    have hnone : findLoop ci ct.CartItems = none := by
      cases hx : findLoop ci ct.CartItems with
      | none => rfl
      | some v => rw [hx] at hf; simp at hf
    rw [List.map_append, addLoop_map_ItemID, List.nodup_append]
    refine ⟨h, by simp, ?_⟩
    intro a ha hb
    obtain ⟨w, hw, hwa⟩ := List.mem_map.1 ha
    simp at hb
    unfold findLoop at hnone
    have := List.find?_eq_none.1 hnone w hw
    simp at this
    exact this (by rw [hwa, hb])

theorem removeMutate_lines_nodup (ct : Cart) (ci : CartItem)
    (h : (ct.CartItems.map (fun v => v.ItemID)).Nodup) :
    ((removeMutate ct ci).CartItems.map (fun v => v.ItemID)).Nodup :=
  (removeLoop_map_ItemID_sublist ci ct.CartItems).nodup h

/-- In every reachable store a cart holds at most one line per item. -/
theorem Reachable.lines_nodup {db : DB} (h : Reachable db) :
    ∀ c ∈ db.carts, (c.CartItems.map (fun v => v.ItemID)).Nodup :=
  Reachable.forall_carts (fun l _ => (l.map (fun v => v.ItemID)).Nodup)
    (by simp) (by simp) (fun ct ci _ hct => addMutate_lines_nodup ct ci hct)
    (fun ct ci _ hct => removeMutate_lines_nodup ct ci hct) h

/-- In every reachable store the carts have distinct identities. -/
theorem Reachable.ids_nodup {db : DB} (h : Reachable db) :
    (db.carts.map (fun c => c.ID)).Nodup := by
  induction h with
  | init items => simp
  | @addToCart db env userid cartItem _ _ _ ih =>
    rcases AddToCart_carts_cases env db userid cartItem with h | ⟨it, ct, _, h⟩ | ⟨it, hf, h | h⟩
    · rw [h]; exact ih
    · rw [h, setCart_map_ID]; exact ih
    all_goals
      have hnew : ((db.carts ++
          [assignID env.newID (firstCart userid (priceLine it cartItem))]).map
            (fun c => c.ID)).Nodup := by
        rw [List.map_append, List.nodup_append]
        refine ⟨ih, by simp, ?_⟩
        intro a ha hb
        obtain ⟨d, hd, hda⟩ := List.mem_map.1 ha
        simp only [List.map_cons, List.map_nil, List.mem_singleton] at hb
        exact hf d hd (by rw [hda, hb])
      rw [h]
    · exact hnew
    · rw [setCart_map_ID]; exact hnew
  | @removeFromCart db env userid cartItem _ _ ih =>
    rcases RemoveFromCart_carts_cases env db userid cartItem with h | ⟨ct, _, h⟩
    · rw [h]; exact ih
    · rw [h, setCart_map_ID]; exact ih
  | catalog items _ ih => exact ih

theorem wrapInt_isInt (x : Int) : IsInt (wrapInt x) := by
  unfold IsInt minInt maxInt wrapInt
  omega

theorem addLoop_quantities (ci : CartItem) (l : List CartItem)
    (h : ∀ v ∈ l, IsInt v.Quantity) : ∀ v ∈ (addLoop ci l).1, IsInt v.Quantity := by
  induction l with
  | nil => simp [addLoop]
  | cons w rest ih =>
    intro v hv
    by_cases hw : w.ItemID = ci.ItemID
    · simp only [addLoop, hw, if_true] at hv
      rcases List.mem_cons.1 hv with rfl | hv
      · exact wrapInt_isInt _
      · exact h v (List.mem_cons_of_mem _ hv)
    · simp only [addLoop, hw, if_false] at hv
      rcases List.mem_cons.1 hv with rfl | hv
      · exact h _ (List.mem_cons_self _ _)
      · exact ih (fun v hv => h v (List.mem_cons_of_mem _ hv)) v hv

theorem removeLoop_quantities (ci : CartItem) (l : List CartItem)
    (h : ∀ v ∈ l, IsInt v.Quantity) : ∀ v ∈ (removeLoop ci l).1, IsInt v.Quantity := by
  induction l with
  | nil => simp [removeLoop]
  | cons w rest ih =>
    intro v hv
    by_cases hw : w.ItemID = ci.ItemID
    · by_cases hq : w.Quantity > ci.Quantity
      · simp only [removeLoop, hw, hq, if_true] at hv
        rcases List.mem_cons.1 hv with rfl | hv
        · exact wrapInt_isInt _
        · exact h v (List.mem_cons_of_mem _ hv)
      · simp only [removeLoop, hw, hq, if_true, if_false] at hv
        exact h v (List.mem_cons_of_mem _ hv)
    · simp only [removeLoop, hw, if_false] at hv
      rcases List.mem_cons.1 hv with rfl | hv
      · exact h _ (List.mem_cons_self _ _)
      · exact ih (fun v hv => h v (List.mem_cons_of_mem _ hv)) v hv

/-- In every reachable store the quantity of every line is a Go `int`. -/
theorem Reachable.quantities_isInt {db : DB} (h : Reachable db) :
    ∀ c ∈ db.carts, ∀ v ∈ c.CartItems, IsInt v.Quantity := by
  refine Reachable.forall_carts (fun l _ => ∀ v ∈ l, IsInt v.Quantity) (by simp) ?_ ?_ ?_ h
  · intro ci hq v hv
    rw [List.mem_singleton.1 hv]; exact hq
  · intro ct ci hq hct v hv
    unfold addMutate at hv
    simp only at hv
    split at hv
    · exact addLoop_quantities ci ct.CartItems hct v hv
    · rcases List.mem_append.1 hv with hv | hv
      · exact addLoop_quantities ci ct.CartItems hct v hv
      · rw [List.mem_singleton.1 hv]; exact hq
  · intro ct ci _ hct
    exact removeLoop_quantities ci ct.CartItems hct

/-- In every reachable store no cart has the zero identity. -/
theorem Reachable.ids_ne_zero {db : DB} (h : Reachable db) : ∀ c ∈ db.carts, c.ID ≠ 0 := by
  have key : ∀ l : List Cart, (∀ c ∈ l, c.ID ≠ 0) → ∀ id ci t, ∀ c ∈ setCart id ci t l,
      c.ID ≠ 0 := by
    intro l hl id ci t c hc
    have : c.ID ∈ (setCart id ci t l).map (fun c => c.ID) :=
      List.mem_map_of_mem (fun c => c.ID) hc
    rw [setCart_map_ID] at this
    obtain ⟨d, hd, hdc⟩ := List.mem_map.1 this
    rw [← hdc]; exact hl d hd
  induction h with
  | init items => simp
  | @addToCart db env userid cartItem hn _ _ ih =>
    rcases AddToCart_carts_cases env db userid cartItem with h | ⟨it, ct, _, h⟩ | ⟨it, hf, h | h⟩
    · rw [h]; exact ih
    · rw [h]; exact key _ ih _ _ _
    all_goals
      have hnew : ∀ c ∈ db.carts ++
          [assignID env.newID (firstCart userid (priceLine it cartItem))], c.ID ≠ 0 := by
        intro c hc
        rcases List.mem_append.1 hc with hc | hc
        · exact ih c hc
        · rw [List.mem_singleton.1 hc]
          simpa [assignID, firstCart] using hn
      rw [h]
    · exact hnew
    · exact key _ hnew _ _ _
  | @removeFromCart db env userid cartItem _ _ ih =>
    rcases RemoveFromCart_carts_cases env db userid cartItem with h | ⟨ct, _, h⟩
    · rw [h]; exact ih
    · rw [h]; exact key _ ih _ _ _
  | catalog items _ ih => exact ih

/-- C1: in every store reached from a store without carts by calls of `AddToCart` and
`RemoveFromCart` (successful or not, with changes of the catalog in between), the `TotalPrice` of
every stored cart is exactly the sum of the `TotalPrice` of its line items. -/
theorem cart_total_is_sum_of_line_totals (db : DB) (h : Reachable db) :
    ∀ c ∈ db.carts, c.TotalPrice = (c.CartItems.map (fun it => it.TotalPrice)).sum :=
  fun c hc => Reachable.totalIsSum h c hc

theorem reachable_afterAdd3 : Reachable afterAdd3.2 :=
  Reachable.addToCart _ _ _ (by decide) (by decide) (Reachable.init _)

theorem reachable_afterAdd3_discount : Reachable (setDiscount 1 10 afterAdd3.2) :=
  Reachable.catalog _ reachable_afterAdd3

theorem reachable_afterAdd2 : Reachable afterAdd2.2 :=
  Reachable.addToCart _ _ _ (by decide) (by decide) reachable_afterAdd3_discount

theorem cart_total_is_sum_of_line_totals_witness :
    afterAdd2.2.carts.length = 1 ∧
    ∀ c ∈ afterAdd2.2.carts,
      c.TotalPrice = (c.CartItems.map (fun it => it.TotalPrice)).sum :=
  ⟨by with_unfolding_all decide, cart_total_is_sum_of_line_totals afterAdd2.2 reachable_afterAdd2⟩

/-! ## Adding to the cart -/

theorem findLoop_congr (ci ci' : CartItem) (h : ci.ItemID = ci'.ItemID) (l : List CartItem) :
    findLoop ci l = findLoop ci' l := by
  unfold findLoop; rw [h]

theorem GetCart_of_findCart {db : DB} {userid : ObjectID} {c : Cart}
    (h : findCart db.carts userid = some c) : CartRepo.GetCart false db userid = (c, none) := by
  rw [GetCart_eq, h]

theorem unitPrice_congr {it it2 : Item} (hp : it2.Price = it.Price)
    (hd : it2.Discount = it.Discount) : unitPrice it2 = unitPrice it := by
  unfold unitPrice; rw [hp, hd]

/-- C2 (the code differs): in a reachable store, `AddToCart(q1)` followed by `AddToCart(q2)` of
the same item, for a user whose cart holds no line of the item yet, with every store call
succeeding, the price and the discount of the item the same at both calls and both quantities
positive and within the stock found: both calls return nil, and the stored cart then holds
exactly one line of the item, with the Go sum of `q1` and `q2` as quantity (`q1 + q2` when that
is a Go `int`), the unit price of the item, and as total the sum of the two contributions, each
computed as line 72 computes it and added as line 93 adds it: `unitPrice * q1 + unitPrice * q2`.
The total is not computed as `unitPrice * (q1 + q2)`, and as Go evaluates them the two differ:
for the price 0.1, after 1 and then 5 the total is 0.6 (5404319552844595 * 2^-53), while
`0.1 * 6` is 0.6000000000000001 (1351079888211149 * 2^-51). -/
theorem add_twice_total_is_sum_of_contributions
    (db db2 : DB) (userid id : ObjectID) (it it2 : Item) (q1 q2 : Int) (n1 n2 : ObjectID)
    (b1 b2 : Bool)
    (hr : Reachable db) (huid : userid ≠ 0)
    (hn1 : n1 ≠ 0) (hfresh : ∀ c ∈ db.carts, c.ID ≠ n1)
    (hline : ∀ ct, findCart db.carts userid = some ct →
      ∀ l ∈ ct.CartItems, l.ItemID ≠ id)
    (hit : ItemRepo.GetItem false db id = .ok it)
    (hq1 : 0 < q1) (hs1 : q1 ≤ it.Quantity)
    (hcarts : db2.carts =
      (CartService.AddToCart (Env.ok n1 b1) db userid (request id q1)).2.carts)
    (hit2 : ItemRepo.GetItem false db2 id = .ok it2)
    (hprice : it2.Price = it.Price) (hdisc : it2.Discount = it.Discount)
    (hq2 : 0 < q2) (hs2 : q2 ≤ it2.Quantity) :
    ((CartService.AddToCart (Env.ok n1 b1) db userid (request id q1)).1 = none ∧
     (CartService.AddToCart (Env.ok n2 b2) db2 userid (request id q2)).1 = none ∧
     ∃ c, CartRepo.GetCart false
         (CartService.AddToCart (Env.ok n2 b2) db2 userid (request id q2)).2 userid = (c, none) ∧
       c.CartItems.filter (fun l => decide (l.ItemID = id)) =
         [{ ItemID := id, Quantity := wrapInt (q1 + q2), Price := unitPrice it,
            TotalPrice := unitPrice it * (q1 : ℚ) + unitPrice it * (q2 : ℚ) }]) ∧
    (q1 + q2 ≤ maxInt → wrapInt (q1 + q2) = q1 + q2) ∧
    float64.round 1 10 = some { significand := 3602879701896397, exponent := -55 } ∧
    lineTotalFloat64 { significand := 3602879701896397, exponent := -55 } 1 =
      some { significand := 3602879701896397, exponent := -55 } ∧
    mergedTotalFloat64 { significand := 3602879701896397, exponent := -55 }
        { significand := 3602879701896397, exponent := -55 } 5 =
      some { significand := 5404319552844595, exponent := -53 } ∧
    lineTotalFloat64 { significand := 3602879701896397, exponent := -55 } 6 =
      some { significand := 1351079888211149, exponent := -51 } ∧
    mergedTotalFloat64 { significand := 3602879701896397, exponent := -55 }
        { significand := 3602879701896397, exponent := -55 } 5 ≠
      lineTotalFloat64 { significand := 3602879701896397, exponent := -55 } 6 := by
  refine ⟨?_, ?_, by decide, by decide, by decide, by decide, by decide⟩
  swap
  · intro hsum
    apply wrapInt_of_isInt
    unfold IsInt minInt
    exact ⟨by omega, hsum⟩
  have hids := Reachable.ids_nodup hr
  have hnil := Reachable.ids_ne_zero hr
  have hnl1 : ¬ it.Quantity < (request id q1).Quantity := by simp [request]; exact hs1
  have hnl2 : ¬ it2.Quantity < (request id q2).Quantity := by simp [request]; exact hs2
  -- the first call succeeds and leaves a cart whose last line is the new one
  have first : (CartService.AddToCart (Env.ok n1 b1) db userid (request id q1)).1 = none ∧
      ∃ c1 L, findCart (CartService.AddToCart (Env.ok n1 b1) db userid (request id q1)).2.carts
          userid = some c1 ∧ c1.CartItems = L ++ [priceLine it (request id q1)] ∧
        ∀ l ∈ L, l.ItemID ≠ id := by
    cases hc : findCart db.carts userid with
    | some ct =>
      have hok := AddToCart_ok_of_cart n1 b1 (request id q1) hit hnl1 hc
      refine ⟨hok, _, ct.CartItems, AddToCart_stored_of_cart hok hids hit hc, ?_, hline ct hc⟩
      have hnone : findLoop (priceLine it (request id q1)) ct.CartItems = none := by
        unfold findLoop
        rw [List.find?_eq_none]
        intro l hl
        simpa [priceLine, request] using hline ct hc l hl
      simp [addMutate, addLoop_of_none _ _ hnone]
    | none =>
      have hok := AddToCart_ok_of_noCart n1 b1 (request id q1) hit hnl1
        hc hfresh
      exact ⟨hok, _, [], AddToCart_stored_of_noCart hok hnil hn1 huid hit hc,
        by simp [assignID, firstCart], by simp⟩
  obtain ⟨hok1, c1, L, hc1, hL, hLid⟩ := first
  have hids2 := (AddToCart_ids hok1 hids hnil hn1).1
  rw [← hcarts] at hc1 hids2
  have hok2 := AddToCart_ok_of_cart n2 b2 (request id q2) hit2 hnl2 hc1
  refine ⟨hok1, hok2, _, GetCart_of_findCart (AddToCart_stored_of_cart hok2 hids2 hit2 hc1), ?_⟩
  have hnone : findLoop (priceLine it2 (request id q2)) L = none := by
    unfold findLoop
    rw [List.find?_eq_none]
    intro l hl
    simpa [priceLine, request] using hLid l hl
  have hfil : L.filter (fun l => decide (l.ItemID = id)) = [] := by
    rw [List.filter_eq_nil_iff]
    intro a ha
    simpa using hLid a ha
  simp only [addMutate, hL, addLoop_append_of_none _ _ _ hnone (rfl : (priceLine it (request id q1)).ItemID = _),
    if_true, List.filter_append, hfil, List.nil_append]
  simp [priceLine, request, unitPrice_congr hprice hdisc]

theorem add_twice_total_is_sum_of_contributions_witness :
    (CartService.AddToCart (Env.ok 9 true) (scenarioDB 1) 7 (request 1 3)).1 = none ∧
    (CartService.AddToCart (Env.ok 10 false)
      (CartService.AddToCart (Env.ok 9 true) (scenarioDB 1) 7 (request 1 3)).2 7
      (request 1 2)).1 = none ∧
    ∃ c, CartRepo.GetCart false
        (CartService.AddToCart (Env.ok 10 false)
          (CartService.AddToCart (Env.ok 9 true) (scenarioDB 1) 7 (request 1 3)).2 7
          (request 1 2)).2 7 = (c, none) ∧
      c.CartItems.filter (fun l => decide (l.ItemID = 1)) =
        [{ ItemID := 1, Quantity := wrapInt (3 + 2),
           Price := unitPrice { ID := 1, Price := 100, Discount := 0, Quantity := 10 },
           TotalPrice :=
             unitPrice { ID := 1, Price := 100, Discount := 0, Quantity := 10 } * ((3 : Int) : ℚ) +
             unitPrice { ID := 1, Price := 100, Discount := 0, Quantity := 10 } *
               ((2 : Int) : ℚ) }] :=
  (add_twice_total_is_sum_of_contributions (scenarioDB 1)
    (CartService.AddToCart (Env.ok 9 true) (scenarioDB 1) 7 (request 1 3)).2 7 1
    { ID := 1, Price := 100, Discount := 0, Quantity := 10 }
    { ID := 1, Price := 100, Discount := 0, Quantity := 7 } 3 2 9 10 true false
    (Reachable.init _) (by decide) (by decide) (by simp [scenarioDB])
    (by simp [scenarioDB, findCart]) (by rfl) (by decide) (by decide) rfl
    (by with_unfolding_all rfl) rfl rfl (by decide) (by decide)).1


theorem findLoop_addLoop (ci v : CartItem) (l : List CartItem) (h : findLoop ci l = some v) :
    findLoop ci (addLoop ci l).1 =
      some { v with Quantity := wrapInt (v.Quantity + ci.Quantity),
                    TotalPrice := v.TotalPrice + ci.TotalPrice } := by
  induction l with
  | nil => simp [findLoop] at h
  | cons w rest ih =>
    unfold findLoop at *
    by_cases hw : w.ItemID = ci.ItemID
    · rw [List.find?_cons_of_pos _ (by simpa using hw)] at h
      cases h
      simp only [addLoop, hw, if_true]
      rw [List.find?_cons_of_pos _ (by simp [hw])]
    · rw [List.find?_cons_of_neg _ (by simpa using hw)] at h
      simp only [addLoop, hw, if_false]
      rw [List.find?_cons_of_neg _ (by simpa using hw)]
      exact ih h

theorem addMutate_CartItems_of_line (ct : Cart) (ci v : CartItem)
    (h : findLoop ci ct.CartItems = some v) :
    (addMutate ct ci).CartItems = (addLoop ci ct.CartItems).1 := by
  have := addLoop_snd ci ct.CartItems
  rw [h] at this
  simp [addMutate, this]

/-- The cart stored for a user after a successful `RemoveFromCart`. -/
theorem RemoveFromCart_stored {env : Env} {db : DB} {userid : ObjectID} {cartItem : CartItem}
    {ct : Cart}
    (hok : (CartService.RemoveFromCart env db userid cartItem).1 = none)
    (hu : (db.carts.map (fun c => c.ID)).Nodup)
    (hc : findCart db.carts userid = some ct) :
    findCart (CartService.RemoveFromCart env db userid cartItem).2.carts userid =
      some (removeMutate ct cartItem) := by
  obtain ⟨ct', v, hc', _, _, _, hcarts⟩ := RemoveFromCart_ok hok
  rw [hc] at hc'
  cases hc'
  rw [hcarts, findCart_setCart _ _ _ _ _ hu hc]
  rfl

theorem findLoop_removeLoop_gt (ci v : CartItem) (l : List CartItem)
    (h : findLoop ci l = some v) (hq : v.Quantity > ci.Quantity) :
    findLoop ci (removeLoop ci l).1 =
      some { v with Quantity := wrapInt (v.Quantity - ci.Quantity),
                    TotalPrice := v.Price * (wrapInt (v.Quantity - ci.Quantity) : ℚ) } := by
  induction l with
  | nil => simp [findLoop] at h
  | cons w rest ih =>
    unfold findLoop at *
    by_cases hw : w.ItemID = ci.ItemID
    · rw [List.find?_cons_of_pos _ (by simpa using hw)] at h
      cases h
      simp only [removeLoop, hw, if_true, hq]
      rw [List.find?_cons_of_pos _ (by simp [hw])]
    · rw [List.find?_cons_of_neg _ (by simpa using hw)] at h
      simp only [removeLoop, hw, if_false]
      rw [List.find?_cons_of_neg _ (by simpa using hw)]
      exact ih h

theorem removeLoop_le (ci v : CartItem) (l : List CartItem)
    (h : findLoop ci l = some v) (hq : ¬ v.Quantity > ci.Quantity) :
    (removeLoop ci l).1.length + 1 = l.length ∧
    ((l.map (fun w => w.ItemID)).Nodup → ∀ w ∈ (removeLoop ci l).1, w.ItemID ≠ ci.ItemID) ∧
    (removeLoop ci l).1 = l.erase v := by
  induction l with
  | nil => simp [findLoop] at h
  | cons w rest ih =>
    unfold findLoop at *
    by_cases hw : w.ItemID = ci.ItemID
    · rw [List.find?_cons_of_pos _ (by simpa using hw)] at h
      cases h
      simp only [removeLoop, hw, if_true, hq, if_false, List.length_cons, true_and]
      refine ⟨?_, by simp⟩
      intro hnd u hu heq
      rw [List.map_cons, List.nodup_cons] at hnd
      apply hnd.1
      rw [hw, ← heq]
      exact List.mem_map_of_mem (fun w => w.ItemID) hu
    · rw [List.find?_cons_of_neg _ (by simpa using hw)] at h
      obtain ⟨ih1, ih2, ih3⟩ := ih h
      simp only [removeLoop, hw, if_false, List.length_cons]
      refine ⟨by omega, ?_, ?_⟩
      · intro hnd u hu
        rw [List.map_cons, List.nodup_cons] at hnd
        rcases List.mem_cons.1 hu with rfl | hu
        · exact hw
        · exact ih2 hnd.2 u hu
      · have hne : w ≠ v := by
          intro heq
          have := List.find?_some h
          simp at this
          exact hw (heq ▸ this)
        rw [ih3, List.erase_cons_tail]
        simpa using hne


theorem updateConcurrently_fst_cases (env : Env) (db : DB) (ct : Cart) (ci : CartItem)
    (act : action) :
    (CartService.updateConcurrently env db ct ci act).1 = none ∨
    (CartService.updateConcurrently env db ct ci act).1 = some ErrInternalServer := by
  rw [updateConcurrently_fst]
  split
  · exact Or.inr rfl
  · exact Or.inl rfl

/-- When the item is found and the stock suffices, `AddToCart` returns nil or the internal
server error. -/
theorem AddToCart_fst_of_enough {env : Env} {db : DB} {userid : ObjectID} {cartItem : CartItem}
    {it : Item}
    (h1 : ItemRepo.GetItem env.getItemFails db cartItem.ItemID = .ok it)
    (h2 : ¬ it.Quantity < cartItem.Quantity) :
    (CartService.AddToCart env db userid cartItem).1 = none ∨
    (CartService.AddToCart env db userid cartItem).1 = some ErrInternalServer := by
  rcases GetCart_cases env.getCartFails db userid with ⟨_, hg⟩ | ⟨_, _, hg⟩ | ⟨_, ct, _, hg⟩
  · rw [AddToCart_of_getCart_error h1 h2 hg]; exact Or.inr rfl
  · rw [AddToCart_of_noCart env h1 h2 hg]
    split
    · exact updateConcurrently_fst_cases _ _ _ _ _
    · exact Or.inr rfl
  · rw [AddToCart_of_cart env h1 h2 hg]
    exact updateConcurrently_fst_cases _ _ _ _ _

/-- C4: for an item found in the store, `AddToCart` returns the 400 validation error
"not enough quantity available in inventory" exactly when the requested quantity exceeds the
stored quantity of the item.  A request of at most the stored quantity (in particular of exactly
the stored quantity) is accepted: the call returns nil or, when a store call fails, the internal
server error, and it returns nil when every store call succeeds. -/
theorem AddToCart_not_enough_iff (env : Env) (db : DB) (userid : ObjectID) (cartItem : CartItem)
    (it : Item) (hfound : ItemRepo.GetItem env.getItemFails db cartItem.ItemID = .ok it) :
    ((CartService.AddToCart env db userid cartItem).1 =
        some (NewError "not enough quantity available in inventory" 400) ↔
      it.Quantity < cartItem.Quantity) ∧
    (cartItem.Quantity ≤ it.Quantity →
      ((CartService.AddToCart env db userid cartItem).1 = none ∨
       (CartService.AddToCart env db userid cartItem).1 = some ErrInternalServer) ∧
      ∀ (n : ObjectID) (b : Bool), (∀ c ∈ db.carts, c.ID ≠ n) →
        (CartService.AddToCart (Env.ok n b) db userid cartItem).1 = none) := by
  constructor
  · constructor
    · intro h
      by_contra hq
      rcases @AddToCart_fst_of_enough env db userid cartItem it hfound hq with h' | h'
      · rw [h'] at h; simp at h
      · rw [h'] at h
        simp [ErrInternalServer, NewError] at h
    · intro hq
      rw [AddToCart_of_short hfound hq]
  · intro hq
    refine ⟨AddToCart_fst_of_enough hfound (not_lt.2 hq), ?_⟩
    intro n b hfresh
    have hfound' : ItemRepo.GetItem false db cartItem.ItemID = .ok it := by
      rw [← GetItem_fails_false hfound]; exact hfound
    cases hc : findCart db.carts userid with
    | some ct => exact AddToCart_ok_of_cart n b cartItem hfound' (not_lt.2 hq) hc
    | none => exact AddToCart_ok_of_noCart n b cartItem hfound' (not_lt.2 hq) hc hfresh

theorem AddToCart_not_enough_iff_witness :
    ((CartService.AddToCart (Env.ok 9 true) (scenarioDB 1) 7 (request 1 11)).1 =
        some (NewError "not enough quantity available in inventory" 400) ↔
      (10 : Int) < (request 1 11).Quantity) ∧
    (CartService.AddToCart (Env.ok 9 true) (scenarioDB 1) 7 (request 1 10)).1 = none :=
  ⟨(AddToCart_not_enough_iff (Env.ok 9 true) (scenarioDB 1) 7 (request 1 11)
      { ID := 1, Price := 100, Discount := 0, Quantity := 10 } (by rfl)).1,
   ((AddToCart_not_enough_iff (Env.ok 9 true) (scenarioDB 1) 7 (request 1 10)
      { ID := 1, Price := 100, Discount := 0, Quantity := 10 } (by rfl)).2 (by decide)).2
      9 true (by simp [scenarioDB])⟩

/-- C5: when the lookup of the cart does not fail with a storage error, `RemoveFromCart` returns
a 404 error if the user has no cart or the cart has no line of the item, the 400 error if the
line exists and the requested quantity exceeds the quantity of the line, and otherwise neither:
nil, or the internal server error (status 500) when a write fails. -/
theorem RemoveFromCart_errors (env : Env) (db : DB) (userid : ObjectID) (cartItem : CartItem)
    (hget : env.getCartFails = false) :
    (findCart db.carts userid = none →
      CartService.RemoveFromCart env db userid cartItem =
        (some (NewError "cart not found or empty" 404), db)) ∧
    (∀ ct, findCart db.carts userid = some ct → findLoop cartItem ct.CartItems = none →
      CartService.RemoveFromCart env db userid cartItem =
        (some (NewError "item not found in cart" 404), db)) ∧
    (∀ ct v, findCart db.carts userid = some ct → findLoop cartItem ct.CartItems = some v →
      v.Quantity < cartItem.Quantity →
      CartService.RemoveFromCart env db userid cartItem =
        (some (NewError "cannot remove more items than what is in the cart cart" 400), db)) ∧
    (∀ ct v, findCart db.carts userid = some ct → findLoop cartItem ct.CartItems = some v →
      cartItem.Quantity ≤ v.Quantity →
      ((CartService.RemoveFromCart env db userid cartItem).1 = none ∨
       (CartService.RemoveFromCart env db userid cartItem).1 = some ErrInternalServer) ∧
      ∀ e, (CartService.RemoveFromCart env db userid cartItem).1 = some e →
        e.StatusCode ≠ 404 ∧ e.StatusCode ≠ 400) := by
  have hg : ∀ ct, findCart db.carts userid = some ct →
      CartRepo.GetCart env.getCartFails db userid = (ct, none) := by
    intro ct h; rw [hget]; exact GetCart_of_findCart h
  refine ⟨?_, ?_, ?_, ?_⟩
  · intro h
    have hg' : CartRepo.GetCart env.getCartFails db userid =
        (Cart.zero, some DBError.ErrNoDocuments) := by rw [hget, GetCart_eq, h]
    exact RemoveFromCart_of_noCart hg'
  · intro ct h hl
    exact RemoveFromCart_of_noLine (hg ct h) hl
  · intro ct v h hl hq
    exact RemoveFromCart_of_tooMany (hg ct h) hl hq
  · intro ct v h hl hq
    rw [RemoveFromCart_of_line (hg ct h) hl (not_lt.2 hq)]
    refine ⟨updateConcurrently_fst_cases _ _ _ _ _, ?_⟩
    intro e he
    rcases updateConcurrently_fst_cases env db (removeMutate ct cartItem) cartItem remove with h' | h'
    · rw [h'] at he; simp at he
    · rw [h'] at he
      cases he
      simp [ErrInternalServer, NewError]

theorem RemoveFromCart_errors_witness :
    CartService.RemoveFromCart (Env.ok 11 true) afterAdd3.2 7 (request 1 4) =
        (some (NewError "cannot remove more items than what is in the cart cart" 400),
          afterAdd3.2) ∧
    CartService.RemoveFromCart (Env.ok 11 true) afterAdd3.2 7 (request 2 1) =
        (some (NewError "item not found in cart" 404), afterAdd3.2) ∧
    CartService.RemoveFromCart (Env.ok 11 true) afterAdd3.2 8 (request 1 1) =
        (some (NewError "cart not found or empty" 404), afterAdd3.2) :=
  ⟨(RemoveFromCart_errors (Env.ok 11 true) afterAdd3.2 7 (request 1 4) rfl).2.2.1
      { ID := 9, UserID := 7,
        CartItems := [{ ItemID := 1, Quantity := 3, Price := 100, TotalPrice := 300 }],
        TotalPrice := 300 }
      { ItemID := 1, Quantity := 3, Price := 100, TotalPrice := 300 }
      (by with_unfolding_all decide) (by with_unfolding_all decide) (by decide),
   (RemoveFromCart_errors (Env.ok 11 true) afterAdd3.2 7 (request 2 1) rfl).2.1
      { ID := 9, UserID := 7,
        CartItems := [{ ItemID := 1, Quantity := 3, Price := 100, TotalPrice := 300 }],
        TotalPrice := 300 }
      (by with_unfolding_all decide) (by with_unfolding_all decide),
   (RemoveFromCart_errors (Env.ok 11 true) afterAdd3.2 8 (request 1 1) rfl).1
      (by with_unfolding_all decide)⟩


/-! ## Removing from the cart -/

/-- C6: in a reachable store, when the user's cart holds a line of the item with quantity `n`, a
successful `RemoveFromCart` of exactly `n` deletes that line: the stored cart then has no line of
the item and one line fewer than before (the other lines are kept). -/
theorem remove_full_quantity_deletes_line (env : Env) (db : DB) (userid : ObjectID)
    (cartItem : CartItem) (ct : Cart) (v : CartItem)
    (hr : Reachable db)
    (hc : findCart db.carts userid = some ct)
    (hl : findLoop cartItem ct.CartItems = some v)
    (hn : cartItem.Quantity = v.Quantity)
    (hok : (CartService.RemoveFromCart env db userid cartItem).1 = none) :
    ∃ c, CartRepo.GetCart false (CartService.RemoveFromCart env db userid cartItem).2 userid =
        (c, none) ∧
      (∀ l ∈ c.CartItems, l.ItemID ≠ cartItem.ItemID) ∧
      c.CartItems.length + 1 = ct.CartItems.length ∧
      c.CartItems = ct.CartItems.erase v := by
  refine ⟨_, GetCart_of_findCart (RemoveFromCart_stored hok (Reachable.ids_nodup hr) hc), ?_⟩
  have hq : ¬ v.Quantity > cartItem.Quantity := by rw [hn]; exact lt_irrefl _
  obtain ⟨h1, h2, h3⟩ := removeLoop_le cartItem v ct.CartItems hl hq
  exact ⟨h2 (Reachable.lines_nodup hr ct (findCart_mem hc)), h1, h3⟩

theorem remove_full_quantity_deletes_line_witness :
    ∃ c, CartRepo.GetCart false afterRemove5.2 7 = (c, none) ∧
      (∀ l ∈ c.CartItems, l.ItemID ≠ (request 1 5).ItemID) ∧
      c.CartItems.length + 1 =
        [({ ItemID := 1, Quantity := 5, Price := 100, TotalPrice := 480 } : CartItem)].length ∧
      c.CartItems =
        [({ ItemID := 1, Quantity := 5, Price := 100, TotalPrice := 480 } : CartItem)].erase
          { ItemID := 1, Quantity := 5, Price := 100, TotalPrice := 480 } :=
  remove_full_quantity_deletes_line (Env.ok 11 true) afterAdd2.2 7 (request 1 5)
    { ID := 9, UserID := 7,
      CartItems := [{ ItemID := 1, Quantity := 5, Price := 100, TotalPrice := 480 }],
      TotalPrice := 480 }
    { ItemID := 1, Quantity := 5, Price := 100, TotalPrice := 480 }
    reachable_afterAdd2
    (by set_option maxRecDepth 8000 in with_unfolding_all decide)
    (by with_unfolding_all decide) (by decide)
    (by set_option maxRecDepth 8000 in with_unfolding_all decide)

theorem removeLoop_length_gt (ci v : CartItem) (l : List CartItem)
    (h : findLoop ci l = some v) (hq : v.Quantity > ci.Quantity) :
    (removeLoop ci l).1.length = l.length := by
  induction l with
  | nil => rfl
  | cons w rest ih =>
    unfold findLoop at *
    by_cases hw : w.ItemID = ci.ItemID
    · rw [List.find?_cons_of_pos _ (by simpa using hw)] at h
      cases h
      simp [removeLoop, hw, hq]
    · rw [List.find?_cons_of_neg _ (by simpa using hw)] at h
      simp [removeLoop, hw, ih h]

/-- C7: in a reachable store, when the user's cart holds a line of the item with quantity `n`
and unit price `p`, a successful `RemoveFromCart` of `q` with `0 < q < n` leaves that line with
quantity `n - q`, unit price `p` and total `p * (n - q)`, whatever its total was before. -/
theorem remove_part_reduces_line (env : Env) (db : DB) (userid : ObjectID)
    (cartItem : CartItem) (ct : Cart) (v : CartItem)
    (hr : Reachable db)
    (hc : findCart db.carts userid = some ct)
    (hl : findLoop cartItem ct.CartItems = some v)
    (hq0 : 0 < cartItem.Quantity) (hq : cartItem.Quantity < v.Quantity)
    (hok : (CartService.RemoveFromCart env db userid cartItem).1 = none) :
    ∃ c, CartRepo.GetCart false (CartService.RemoveFromCart env db userid cartItem).2 userid =
        (c, none) ∧
      findLoop cartItem c.CartItems =
        some { ItemID := v.ItemID, Quantity := v.Quantity - cartItem.Quantity, Price := v.Price,
               TotalPrice := v.Price * ((v.Quantity - cartItem.Quantity : Int) : ℚ) } ∧
      c.CartItems.length = ct.CartItems.length := by
  have hint : IsInt v.Quantity :=
    Reachable.quantities_isInt hr ct (findCart_mem hc) v (List.mem_of_find?_eq_some hl)
  refine ⟨_, GetCart_of_findCart (RemoveFromCart_stored hok (Reachable.ids_nodup hr) hc), ?_, ?_⟩
  · have hw : wrapInt (v.Quantity - cartItem.Quantity) = v.Quantity - cartItem.Quantity := by
      apply wrapInt_of_isInt
      unfold IsInt minInt maxInt at *
      omega
    show findLoop cartItem (removeLoop cartItem ct.CartItems).1 = _
    rw [findLoop_removeLoop_gt _ _ _ hl hq, hw]
  · show (removeLoop cartItem ct.CartItems).1.length = _
    exact removeLoop_length_gt _ _ _ hl hq


theorem remove_part_reduces_line_witness :
    ∃ c, CartRepo.GetCart false
        (CartService.RemoveFromCart (Env.ok 11 false) afterAdd2.2 7 (request 1 2)).2 7 =
          (c, none) ∧
      findLoop (request 1 2) c.CartItems =
        some { ItemID := 1, Quantity := 5 - 2, Price := 100,
               TotalPrice := 100 * ((5 - 2 : Int) : ℚ) } ∧
      c.CartItems.length =
        [({ ItemID := 1, Quantity := 5, Price := 100, TotalPrice := 480 } : CartItem)].length :=
  remove_part_reduces_line (Env.ok 11 false) afterAdd2.2 7 (request 1 2)
    { ID := 9, UserID := 7,
      CartItems := [{ ItemID := 1, Quantity := 5, Price := 100, TotalPrice := 480 }],
      TotalPrice := 480 }
    { ItemID := 1, Quantity := 5, Price := 100, TotalPrice := 480 }
    reachable_afterAdd2
    (by set_option maxRecDepth 8000 in with_unfolding_all decide)
    (by with_unfolding_all decide) (by decide) (by decide)
    (by set_option maxRecDepth 8000 in with_unfolding_all decide)


/-! ## The end-to-end scenario -/

theorem result_eq_of_parts (r : Option AppError × DB) (carts : List Cart) (items : List Item)
    (h : r.1 = none ∧ r.2.carts = carts ∧ r.2.items = items) :
    ∃ ws, r = (none, { carts := carts, items := items, writes := ws }) := by
  obtain ⟨e, db⟩ := r
  obtain ⟨c, i, w⟩ := db
  obtain ⟨h1, h2, h3⟩ := h
  simp only at h1 h2 h3
  subst h1 h2 h3
  exact ⟨w, rfl⟩

theorem scenario_step1 (userid itemID n1 : ObjectID) (b1 : Bool) (hn1 : n1 ≠ 0) :
    ∃ ws, CartService.AddToCart (Env.ok n1 b1) (scenarioDB itemID) userid (request itemID 3) =
      (none, { carts := [{ ID := n1, UserID := userid,
                           CartItems := [{ ItemID := itemID, Quantity := 3, Price := 100,
                                           TotalPrice := 300 }],
                           TotalPrice := 300 }],
               items := [{ ID := itemID, Price := 100, Discount := 0, Quantity := 7 }],
               writes := ws }) := by
  have hn1' : ¬ (0 = n1) := fun h => hn1 h.symm
  apply result_eq_of_parts
  cases b1 <;>
  simp [CartService.AddToCart, scenarioDB, request, Env.ok, ItemRepo.GetItem, CartRepo.GetCart,
    findCart, CartRepo.CreateCart, assignID, firstCart, priceLine, unitPrice,
    CartService.updateConcurrently, cartBranch, itemBranch, CartRepo.UpdateCart,
    CartService.updateItemQuantity, CartService.processItemUpdates, ItemRepo.UpdateItem,
    quantityChangeFor, add, remove, drain, setCart, incQuantity, Cart.zero,
    hn1, hn1', wrapInt] <;> norm_num

theorem scenario_step2 (userid itemID n1 n2 : ObjectID) (b2 : Bool) (huid : userid ≠ 0)
    (ws : List Write) :
    ∃ ws2, CartService.AddToCart (Env.ok n2 b2)
        (setDiscount itemID 10
          { carts := [{ ID := n1, UserID := userid,
                        CartItems := [{ ItemID := itemID, Quantity := 3, Price := 100,
                                        TotalPrice := 300 }],
                        TotalPrice := 300 }],
            items := [{ ID := itemID, Price := 100, Discount := 0, Quantity := 7 }],
            writes := ws }) userid (request itemID 2) =
      (none, { carts := [{ ID := n1, UserID := userid,
                           CartItems := [{ ItemID := itemID, Quantity := 5, Price := 100,
                                           TotalPrice := 480 }],
                           TotalPrice := 480 }],
               items := [{ ID := itemID, Price := 100, Discount := 10, Quantity := 5 }],
               writes := ws2 }) := by
  apply result_eq_of_parts
  cases b2 <;>
  simp [CartService.AddToCart, setDiscount, request, Env.ok, ItemRepo.GetItem, CartRepo.GetCart,
    findCart, priceLine, unitPrice, addMutate, addLoop, sumTotalPrice,
    CartService.updateConcurrently, cartBranch, itemBranch, CartRepo.UpdateCart,
    CartService.updateItemQuantity, CartService.processItemUpdates, ItemRepo.UpdateItem,
    quantityChangeFor, add, remove, drain, setCart, incQuantity, huid, wrapInt] <;>
  norm_num

theorem scenario_step3 (userid itemID n1 n3 : ObjectID) (b3 : Bool) (huid : userid ≠ 0)
    (ws : List Write) :
    ∃ ws3, CartService.RemoveFromCart (Env.ok n3 b3)
          { carts := [{ ID := n1, UserID := userid,
                        CartItems := [{ ItemID := itemID, Quantity := 5, Price := 100,
                                        TotalPrice := 480 }],
                        TotalPrice := 480 }],
            items := [{ ID := itemID, Price := 100, Discount := 10, Quantity := 5 }],
            writes := ws } userid (request itemID 5) =
      (none, { carts := [{ ID := n1, UserID := userid, CartItems := [], TotalPrice := 0 }],
               items := [{ ID := itemID, Price := 100, Discount := 10, Quantity := 10 }],
               writes := ws3 }) := by
  apply result_eq_of_parts
  cases b3 <;>
  simp [CartService.RemoveFromCart, request, Env.ok, CartRepo.GetCart,
    findCart, findLoop, removeMutate, removeLoop, sumTotalPrice,
    CartService.updateConcurrently, cartBranch, itemBranch, CartRepo.UpdateCart,
    CartService.updateItemQuantity, CartService.processItemUpdates, ItemRepo.UpdateItem,
    quantityChangeFor, add, remove, drain, setCart, incQuantity, huid]

/-- C8: the end-to-end scenario.  An item with quantity 10, price 100 and no discount, a user
without a cart, every store call succeeding: `AddToCart` of 3, then `AddToCart` of 2 at discount
10, then `RemoveFromCart` of 5 all return nil; the stored quantity of the item is 7, then 5,
then 10; and the final cart has no line of the item and total price 0. -/
theorem end_to_end_scenario (userid itemID n1 n2 n3 : ObjectID) (b1 b2 b3 : Bool)
    (huid : userid ≠ 0) (hn1 : n1 ≠ 0) :
    (scenarioAdd3 userid itemID n1 b1).1 = none ∧
    storedQuantity (scenarioAdd3 userid itemID n1 b1).2 itemID = some 7 ∧
    (scenarioAdd2 userid itemID n1 n2 b1 b2).1 = none ∧
    storedQuantity (scenarioAdd2 userid itemID n1 n2 b1 b2).2 itemID = some 5 ∧
    (scenarioRemove5 userid itemID n1 n2 n3 b1 b2 b3).1 = none ∧
    storedQuantity (scenarioRemove5 userid itemID n1 n2 n3 b1 b2 b3).2 itemID = some 10 ∧
    ∃ c, CartRepo.GetCart false (scenarioRemove5 userid itemID n1 n2 n3 b1 b2 b3).2 userid =
        (c, none) ∧
      (∀ l ∈ c.CartItems, l.ItemID ≠ itemID) ∧ c.TotalPrice = 0 := by
  obtain ⟨ws1, h1⟩ := scenario_step1 userid itemID n1 b1 hn1
  obtain ⟨ws2, h2⟩ := scenario_step2 userid itemID n1 n2 b2 huid ws1
  obtain ⟨ws3, h3⟩ := scenario_step3 userid itemID n1 n3 b3 huid ws2
  simp only [scenarioRemove5, scenarioAdd2, scenarioAdd3, h1, h2, h3]
  simp [storedQuantity, CartRepo.GetCart, findCart, huid]

theorem end_to_end_scenario_witness :
    afterAdd3.1 = none ∧ storedQuantity afterAdd3.2 1 = some 7 ∧
    afterAdd2.1 = none ∧ storedQuantity afterAdd2.2 1 = some 5 ∧
    afterRemove5.1 = none ∧ storedQuantity afterRemove5.2 1 = some 10 ∧
    ∃ c, CartRepo.GetCart false afterRemove5.2 7 = (c, none) ∧
      (∀ l ∈ c.CartItems, l.ItemID ≠ 1) ∧ c.TotalPrice = 0 :=
  end_to_end_scenario 7 1 9 10 11 true true true (by decide) (by decide)


/-! ## The coordinator -/

theorem updateConcurrently_itemUpdates (env : Env) (db : DB) (ct : Cart) (ci : CartItem)
    (act : action) :
    itemUpdates (newWrites db (CartService.updateConcurrently env db ct ci act).2) =
      [(ci.ItemID, quantityChangeFor ci act)] := by
  unfold newWrites
  rw [updateConcurrently_writes]
  split <;> simp [itemUpdates]

/-- C9: the inventory request of the coordinator carries the inverted change.  For a quantity `q`
(a Go `int` other than the smallest one), `updateConcurrently` with action `add` issues exactly
one inventory request, for the item and with quantity change `-q`; with action `remove` it issues
exactly one, with quantity change `q`. -/
theorem updateConcurrently_inverted_delta (env : Env) (db : DB) (ct : Cart) (cartItem : CartItem)
    (hq : IsInt cartItem.Quantity) (hmin : cartItem.Quantity ≠ minInt) :
    itemUpdates (newWrites db (CartService.updateConcurrently env db ct cartItem add).2) =
      [(cartItem.ItemID, -cartItem.Quantity)] ∧
    itemUpdates (newWrites db (CartService.updateConcurrently env db ct cartItem remove).2) =
      [(cartItem.ItemID, cartItem.Quantity)] := by
  rw [updateConcurrently_itemUpdates, updateConcurrently_itemUpdates, quantityChangeFor_add,
    quantityChangeFor_remove]
  have hw : wrapInt (-1 * cartItem.Quantity) = -cartItem.Quantity := by
    have : IsInt (-1 * cartItem.Quantity) := by
      unfold IsInt minInt maxInt at *
      omega
    rw [wrapInt_of_isInt this]
    ring
  rw [hw]
  exact ⟨rfl, rfl⟩

theorem updateConcurrently_inverted_delta_witness :
    itemUpdates (newWrites (scenarioDB 1)
      (CartService.updateConcurrently (Env.ok 9 false) (scenarioDB 1) Cart.zero (request 1 3)
        add).2) = [((request 1 3).ItemID, -(request 1 3).Quantity)] ∧
    itemUpdates (newWrites (scenarioDB 1)
      (CartService.updateConcurrently (Env.ok 9 false) (scenarioDB 1) Cart.zero (request 1 3)
        remove).2) = [((request 1 3).ItemID, (request 1 3).Quantity)] :=
  updateConcurrently_inverted_delta (Env.ok 9 false) (scenarioDB 1) Cart.zero (request 1 3)
    (by decide) (by decide)

/-- C10: `updateConcurrently` returns nil exactly when both the cart write and the inventory
adjustment succeed; when either fails it returns the internal server error, whose status is
500. -/
theorem updateConcurrently_nil_iff (env : Env) (db : DB) (ct : Cart) (cartItem : CartItem)
    (act : action) :
    ((CartService.updateConcurrently env db ct cartItem act).1 = none ↔
      (CartRepo.UpdateCart env.updateCartFails db ct.ID ct.CartItems ct.TotalPrice).1 = none ∧
      (CartService.updateItemQuantity env db cartItem.ItemID
        (quantityChangeFor cartItem act)).1 = none) ∧
    ((CartService.updateConcurrently env db ct cartItem act).1 ≠ none →
      (CartService.updateConcurrently env db ct cartItem act).1 = some ErrInternalServer) ∧
    ErrInternalServer.StatusCode = 500 := by
  rw [updateConcurrently_fst]
  unfold CartRepo.UpdateCart CartService.updateItemQuantity CartService.processItemUpdates
    ItemRepo.UpdateItem
  cases env.updateCartFails <;> cases env.updateItemFails <;>
    simp [ErrInternalServer, NewError]


/-- The cart collection after `AddToCart` together with what the call has read. -/
theorem AddToCart_cases_full (env : Env) (db : DB) (userid : ObjectID) (cartItem : CartItem) :
    (CartService.AddToCart env db userid cartItem).2.carts = db.carts ∨
    (∃ it ct, ItemRepo.GetItem false db cartItem.ItemID = .ok it ∧
      findCart db.carts userid = some ct ∧
      (CartService.AddToCart env db userid cartItem).2.carts =
        setCart ct.ID (addMutate ct (priceLine it cartItem)).CartItems
          (addMutate ct (priceLine it cartItem)).TotalPrice db.carts) ∨
    (∃ it, ItemRepo.GetItem false db cartItem.ItemID = .ok it ∧
      findCart db.carts userid = none ∧
      ((CartService.AddToCart env db userid cartItem).2.carts =
          db.carts ++ [assignID env.newID (firstCart userid (priceLine it cartItem))] ∨
       (CartService.AddToCart env db userid cartItem).2.carts =
          setCart 0 [] 0
            (db.carts ++ [assignID env.newID (firstCart userid (priceLine it cartItem))]))) := by
  cases hgi : ItemRepo.GetItem env.getItemFails db cartItem.ItemID with
  | error e => rw [AddToCart_of_getItem_error hgi]; exact Or.inl rfl
  | ok it =>
    have hgi' : ItemRepo.GetItem false db cartItem.ItemID = .ok it := by
      rw [← GetItem_fails_false hgi]; exact hgi
    by_cases hq : it.Quantity < cartItem.Quantity
    · rw [AddToCart_of_short hgi hq]; exact Or.inl rfl
    · rcases GetCart_cases env.getCartFails db userid with
        ⟨_, hg⟩ | ⟨_, hnone, hg⟩ | ⟨_, ct, hsome, hg⟩
      · rw [AddToCart_of_getCart_error hgi hq hg]; exact Or.inl rfl
      · rw [AddToCart_of_noCart env hgi hq hg]
        by_cases hcr : (CartRepo.CreateCart env.createCartFails env.newID db
            (firstCart userid (priceLine it cartItem))).1 = none
        · rw [if_pos hcr]
          obtain ⟨_, _, hcarts⟩ := CreateCart_ok hcr
          rw [updateConcurrently_carts, hcarts]
          refine Or.inr (Or.inr ⟨it, hgi', hnone, ?_⟩)
          split
          · exact Or.inl rfl
          · exact Or.inr rfl
        · rw [if_neg hcr]
          have := CreateCart_carts env.createCartFails env.newID db
            (firstCart userid (priceLine it cartItem))
          rw [if_neg hcr] at this
          exact Or.inl this
      · rw [AddToCart_of_cart env hgi hq hg, updateConcurrently_carts]
        split
        · exact Or.inl rfl
        · exact Or.inr (Or.inl ⟨it, ct, hgi', hsome, by simp [addMutate]⟩)

/-- The cart found for a user after `$set` is the one found before, with its contents as they
were or as set. -/
theorem findCart_setCart_cases (userid id : ObjectID) (cartItems : List CartItem)
    (totalPrice : ℚ) (l : List Cart) (c' : Cart)
    (h : findCart (setCart id cartItems totalPrice l) userid = some c') :
    ∃ c, findCart l userid = some c ∧
      (c' = c ∨ c' = { c with CartItems := cartItems, TotalPrice := totalPrice }) := by
  induction l with
  | nil => simp [setCart, findCart] at h
  | cons d rest ih =>
    unfold findCart at h ih ⊢
    by_cases hp : d.UserID ≠ 0 ∧ d.UserID = userid
    · by_cases hd : d.ID = id
      · subst hd
        simp only [setCart, if_true] at h
        rw [List.find?_cons_of_pos _ (by simpa using hp)] at h
        rw [List.find?_cons_of_pos _ (by simpa using hp)]
        exact ⟨d, rfl, Or.inr (Option.some.inj h).symm⟩
      · simp only [setCart, hd, if_false] at h
        rw [List.find?_cons_of_pos _ (by simpa using hp)] at h
        rw [List.find?_cons_of_pos _ (by simpa using hp)]
        exact ⟨d, rfl, Or.inl (Option.some.inj h).symm⟩
    · rw [List.find?_cons_of_neg _ (by simpa using hp)]
      by_cases hd : d.ID = id
      · simp only [setCart, hd, if_true] at h
        rw [List.find?_cons_of_neg _ (by simpa using hp)] at h
        exact ⟨c', h, Or.inl rfl⟩
      · simp only [setCart, hd, if_false] at h
        rw [List.find?_cons_of_neg _ (by simpa using hp)] at h
        exact ih h

theorem findCart_append_cases (l : List Cart) (c c' : Cart) (userid : ObjectID)
    (h : findCart (l ++ [c]) userid = some c') :
    findCart l userid = some c' ∨ (findCart l userid = none ∧ c' = c) := by
  unfold findCart at *
  rw [List.find?_append] at h
  cases hl : List.find? (fun c => decide (c.UserID ≠ 0 ∧ c.UserID = userid)) l with
  | some x => rw [hl] at h; simp at h; exact Or.inl (by rw [h])
  | none =>
    rw [hl] at h
    simp only [Option.none_or] at h
    have := List.mem_of_find?_eq_some h
    simp at this
    exact Or.inr ⟨rfl, this⟩


theorem addMutate_map_ItemID_of_line (ct : Cart) (ci v : CartItem)
    (h : findLoop ci ct.CartItems = some v) :
    (addMutate ct ci).CartItems.map (fun l => l.ItemID) = ct.CartItems.map (fun l => l.ItemID) := by
  rw [addMutate_CartItems_of_line _ _ _ h, addLoop_map_ItemID]

/-- C11: a cart holds at most one line per item.  If the cart stored for the user (if any) has
no two lines with the same `ItemID`, then the cart stored for the user after `AddToCart` and
after `RemoveFromCart`, whatever they return, has no two lines with the same `ItemID`; and when
the cart already holds a line of the item, `AddToCart` leaves the list of line items' identities
as it was (the add is merged, no line is appended). -/
theorem one_line_per_item_kept (env : Env) (db : DB) (userid : ObjectID) (cartItem : CartItem)
    (h : ∀ ct, findCart db.carts userid = some ct →
      (ct.CartItems.map (fun l => l.ItemID)).Nodup) :
    (∀ ct', findCart (CartService.AddToCart env db userid cartItem).2.carts userid = some ct' →
      (ct'.CartItems.map (fun l => l.ItemID)).Nodup) ∧
    (∀ ct', findCart (CartService.RemoveFromCart env db userid cartItem).2.carts userid =
        some ct' → (ct'.CartItems.map (fun l => l.ItemID)).Nodup) ∧
    (∀ ct v ct', findCart db.carts userid = some ct →
      findLoop cartItem ct.CartItems = some v →
      findCart (CartService.AddToCart env db userid cartItem).2.carts userid = some ct' →
      ct'.CartItems.map (fun l => l.ItemID) = ct.CartItems.map (fun l => l.ItemID)) := by
  refine ⟨?_, ?_, ?_⟩
  · intro ct' hct'
    rcases AddToCart_cases_full env db userid cartItem with hc | ⟨it, ct, _, hf, hc⟩ |
      ⟨it, _, hnone, hc | hc⟩
    · rw [hc] at hct'; exact h ct' hct'
    · rw [hc] at hct'
      obtain ⟨c, hfc, rfl | rfl⟩ := findCart_setCart_cases _ _ _ _ _ _ hct'
      · exact h _ hfc
      · exact addMutate_lines_nodup ct _ (h ct hf)
    · rw [hc] at hct'
      rcases findCart_append_cases _ _ _ _ hct' with h1 | ⟨_, rfl⟩
      · exact h ct' h1
      · simp [assignID, firstCart]
    · rw [hc] at hct'
      obtain ⟨c, hfc, hcc⟩ := findCart_setCart_cases _ _ _ _ _ _ hct'
      have hcn : (c.CartItems.map (fun l => l.ItemID)).Nodup := by
        rcases findCart_append_cases _ _ _ _ hfc with h1 | ⟨_, rfl⟩
        · exact h c h1
        · simp [assignID, firstCart]
      rcases hcc with rfl | rfl
      · exact hcn
      · simp
  · intro ct' hct'
    rcases RemoveFromCart_carts_cases env db userid cartItem with hc | ⟨ct, hf, hc⟩
    · rw [hc] at hct'; exact h ct' hct'
    · rw [hc] at hct'
      obtain ⟨c, hfc, rfl | rfl⟩ := findCart_setCart_cases _ _ _ _ _ _ hct'
      · exact h _ hfc
      · exact removeMutate_lines_nodup ct _ (h ct hf)
  · intro ct v ct' hf hl hct'
    rcases AddToCart_cases_full env db userid cartItem with hc | ⟨it, ct0, _, hf0, hc⟩ |
      ⟨it, _, hnone, _⟩
    · rw [hc, hf] at hct'; cases hct'; rfl
    · rw [hf] at hf0
      cases hf0
      rw [hc] at hct'
      obtain ⟨c, hfc, hcc⟩ := findCart_setCart_cases _ _ _ _ _ _ hct'
      rw [hf] at hfc
      cases hfc
      rcases hcc with rfl | rfl
      · rfl
      · have hl' : findLoop (priceLine it cartItem) ct.CartItems = some v := by
          rw [← hl]; exact findLoop_congr _ _ rfl _
        exact addMutate_map_ItemID_of_line ct _ v hl'
    · rw [hf] at hnone; cases hnone

theorem one_line_per_item_kept_witness :
    (∀ ct', findCart afterAdd2.2.carts 7 = some ct' →
      (ct'.CartItems.map (fun l => l.ItemID)).Nodup) ∧
    (∀ ct', findCart (CartService.RemoveFromCart (Env.ok 11 true)
        (setDiscount 1 10 afterAdd3.2) 7 (request 1 2)).2.carts 7 = some ct' →
      (ct'.CartItems.map (fun l => l.ItemID)).Nodup) ∧
    (∀ ct v ct', findCart (setDiscount 1 10 afterAdd3.2).carts 7 = some ct →
      findLoop (request 1 2) ct.CartItems = some v →
      findCart afterAdd2.2.carts 7 = some ct' →
      ct'.CartItems.map (fun l => l.ItemID) = ct.CartItems.map (fun l => l.ItemID)) :=
  one_line_per_item_kept (Env.ok 10 true) (setDiscount 1 10 afterAdd3.2) 7 (request 1 2)
    (fun ct hct => Reachable.lines_nodup reachable_afterAdd3_discount ct (findCart_mem hct))


theorem mem_addLoop (ci : CartItem) (L : List CartItem) (l : CartItem)
    (h : l ∈ (addLoop ci L).1) :
    l ∈ L ∨ ∃ v, findLoop ci L = some v ∧
      l = { v with Quantity := wrapInt (v.Quantity + ci.Quantity),
                   TotalPrice := v.TotalPrice + ci.TotalPrice } := by
  induction L with
  | nil => simp [addLoop] at h
  | cons w rest ih =>
    unfold findLoop at *
    by_cases hw : w.ItemID = ci.ItemID
    · simp only [addLoop] at h
      rw [if_pos hw] at h
      rw [List.find?_cons_of_pos _ (by simpa using hw)]
      rcases List.mem_cons.1 h with rfl | h
      · exact Or.inr ⟨w, rfl, rfl⟩
      · exact Or.inl (List.mem_cons_of_mem _ h)
    · simp only [addLoop, hw, if_false] at h
      rw [List.find?_cons_of_neg _ (by simpa using hw)]
      rcases List.mem_cons.1 h with rfl | h
      · exact Or.inl (List.mem_cons_self _ _)
      · rcases ih h with h' | h'
        · exact Or.inl (List.mem_cons_of_mem _ h')
        · exact Or.inr h'

theorem mem_removeLoop (ci : CartItem) (L : List CartItem) (l : CartItem)
    (h : l ∈ (removeLoop ci L).1) :
    l ∈ L ∨ ∃ v, findLoop ci L = some v ∧
      l = { v with Quantity := wrapInt (v.Quantity - ci.Quantity),
                   TotalPrice := v.Price * (wrapInt (v.Quantity - ci.Quantity) : ℚ) } := by
  induction L with
  | nil => simp [removeLoop] at h
  | cons w rest ih =>
    unfold findLoop at *
    by_cases hw : w.ItemID = ci.ItemID
    · rw [List.find?_cons_of_pos _ (by simpa using hw)]
      by_cases hq : w.Quantity > ci.Quantity
      · simp only [removeLoop] at h
        rw [if_pos hw, if_pos hq] at h
        rcases List.mem_cons.1 h with rfl | h
        · exact Or.inr ⟨w, rfl, rfl⟩
        · exact Or.inl (List.mem_cons_of_mem _ h)
      · simp only [removeLoop, hw, hq, if_true, if_false] at h
        exact Or.inl (List.mem_cons_of_mem _ h)
    · simp only [removeLoop, hw, if_false] at h
      rw [List.find?_cons_of_neg _ (by simpa using hw)]
      rcases List.mem_cons.1 h with rfl | h
      · exact Or.inl (List.mem_cons_self _ _)
      · rcases ih h with h' | h'
        · exact Or.inl (List.mem_cons_of_mem _ h')
        · exact Or.inr h'

/-- The line `AddToCart` builds (line 72) has its total at unit price times quantity. -/
theorem priceLine_lineTotalOK (it : Item) (ci : CartItem) : LineTotalOK (priceLine it ci) := rfl

/-- `RemoveFromCart` keeps the totals of the lines at unit price times quantity: the line it
reduces gets its total recomputed (line 152). -/
theorem removeMutate_lineTotalOK (ct : Cart) (ci : CartItem)
    (hct : ∀ l ∈ ct.CartItems, LineTotalOK l) :
    ∀ l ∈ (removeMutate ct ci).CartItems, LineTotalOK l := by
  intro l hl
  rcases mem_removeLoop _ _ _ hl with h | ⟨v, _, rfl⟩
  · exact hct l h
  · rfl

/-- C12 (the code differs): the merge of `AddToCart` does not keep the total of a line at unit
price times quantity, which the new line (line 72) and the reduced line (line 152) have.  The
store after `AddToCart` of 3 at price 100 and `AddToCart` of 2 at discount 10 is reached by
successful calls, and its line has quantity 5, unit price 100 and total 480, which is not
100 * 5.  At an unchanged price the same happens through rounding: for the price 0.1, a line of
quantity 1 and total 0.1 merged with 5 more has quantity 6 and total 0.6
(5404319552844595 * 2^-53), while `Price * float64(6)` is 0.6000000000000001
(1351079888211149 * 2^-51). -/
theorem line_total_breaks_on_merge :
    afterAdd3.1 = none ∧ afterAdd2.1 = none ∧ Reachable afterAdd2.2 ∧
    (∃ c ∈ afterAdd2.2.carts, ∃ l ∈ c.CartItems,
      l = { ItemID := 1, Quantity := 5, Price := 100, TotalPrice := 480 } ∧
      l.TotalPrice ≠ l.Price * (l.Quantity : ℚ)) ∧
    float64.round 1 10 = some { significand := 3602879701896397, exponent := -55 } ∧
    lineTotalFloat64 { significand := 3602879701896397, exponent := -55 } 1 =
      some { significand := 3602879701896397, exponent := -55 } ∧
    wrapInt (1 + 5) = 6 ∧
    mergedTotalFloat64 { significand := 3602879701896397, exponent := -55 }
        { significand := 3602879701896397, exponent := -55 } 5 =
      some { significand := 5404319552844595, exponent := -53 } ∧
    lineTotalFloat64 { significand := 3602879701896397, exponent := -55 } 6 =
      some { significand := 1351079888211149, exponent := -51 } := by
  refine ⟨by with_unfolding_all decide, by with_unfolding_all decide, reachable_afterAdd2,
    ⟨{ ID := 9, UserID := 7,
       CartItems := [{ ItemID := 1, Quantity := 5, Price := 100, TotalPrice := 480 }],
       TotalPrice := 480 }, ?_,
     { ItemID := 1, Quantity := 5, Price := 100, TotalPrice := 480 }, ?_, rfl, ?_⟩,
    by decide, by decide, by decide, by decide, by decide⟩
  · set_option maxRecDepth 8000 in with_unfolding_all decide
  · simp
  · norm_num


/-- C13: in a reachable store, for a (non-zero) user with no stored cart, after a successful
`AddToCart` the cart stored for that user has exactly one line item, of the requested item and
with the requested quantity, and the total price of the cart is the total of that line. -/
theorem first_add_creates_single_line_cart (env : Env) (db : DB) (userid : ObjectID)
    (cartItem : CartItem) (hr : Reachable db) (huid : userid ≠ 0) (hn : env.newID ≠ 0)
    (hnone : findCart db.carts userid = none)
    (hok : (CartService.AddToCart env db userid cartItem).1 = none) :
    ∃ c line, CartRepo.GetCart false (CartService.AddToCart env db userid cartItem).2 userid =
        (c, none) ∧
      c.UserID = userid ∧ c.CartItems = [line] ∧ line.ItemID = cartItem.ItemID ∧
      line.Quantity = cartItem.Quantity ∧ c.TotalPrice = line.TotalPrice := by
  obtain ⟨it, hi, _, _, _⟩ := AddToCart_ok hok
  exact ⟨_, priceLine it cartItem,
    GetCart_of_findCart
      (AddToCart_stored_of_noCart hok (Reachable.ids_ne_zero hr) hn huid hi hnone),
    rfl, rfl, rfl, rfl, rfl⟩

theorem first_add_creates_single_line_cart_witness :
    ∃ c line, CartRepo.GetCart false afterAdd3.2 7 = (c, none) ∧
      c.UserID = 7 ∧ c.CartItems = [line] ∧ line.ItemID = (request 1 3).ItemID ∧
      line.Quantity = (request 1 3).Quantity ∧ c.TotalPrice = line.TotalPrice :=
  first_add_creates_single_line_cart (Env.ok 9 true) (scenarioDB 1) 7 (request 1 3)
    (Reachable.init _) (by decide) (by decide) (by simp [scenarioDB, findCart])
    (by with_unfolding_all decide)

theorem addMutate_CartItems_of_no_line (ct : Cart) (ci : CartItem)
    (h : findLoop ci ct.CartItems = none) :
    (addMutate ct ci).CartItems = ct.CartItems ++ [ci] := by
  simp [addMutate, addLoop_of_none _ _ h]

/-- C14: in a reachable store, a successful `AddToCart` for a (non-zero) user whose cart holds no
line of the item (or who has no cart) appends one line to the lines stored for the user: its unit
price is `item.Price - item.Price * item.Discount / 100` when `item.Discount > 0` and
`item.Price` otherwise, and its total is that unit price times the requested quantity. -/
theorem new_line_price_and_total (env : Env) (db : DB) (userid : ObjectID)
    (cartItem : CartItem) (it : Item) (hr : Reachable db) (huid : userid ≠ 0)
    (hn : env.newID ≠ 0)
    (hi : ItemRepo.GetItem false db cartItem.ItemID = .ok it)
    (hno : ∀ ct, findCart db.carts userid = some ct → findLoop cartItem ct.CartItems = none)
    (hok : (CartService.AddToCart env db userid cartItem).1 = none) :
    ∃ c, CartRepo.GetCart false (CartService.AddToCart env db userid cartItem).2 userid =
        (c, none) ∧
      c.CartItems =
        (match findCart db.carts userid with
          | some ct => ct.CartItems
          | none => []) ++
        [{ ItemID := cartItem.ItemID, Quantity := cartItem.Quantity,
           Price := if it.Discount > 0 then it.Price - it.Price * it.Discount / 100
                    else it.Price,
           TotalPrice := (if it.Discount > 0 then it.Price - it.Price * it.Discount / 100
                          else it.Price) * (cartItem.Quantity : ℚ) }] := by
  cases hc : findCart db.carts userid with
  | none =>
    exact ⟨_, GetCart_of_findCart
      (AddToCart_stored_of_noCart hok (Reachable.ids_ne_zero hr) hn huid hi hc), rfl⟩
  | some ct =>
    refine ⟨_, GetCart_of_findCart
      (AddToCart_stored_of_cart hok (Reachable.ids_nodup hr) hi hc), ?_⟩
    have hnone : findLoop (priceLine it cartItem) ct.CartItems = none := by
      rw [← hno ct hc]; exact findLoop_congr _ _ rfl _
    rw [addMutate_CartItems_of_no_line _ _ hnone]
    rfl

theorem new_line_price_and_total_witness :
    ∃ c, CartRepo.GetCart false
        (CartService.AddToCart (Env.ok 9 true) (setDiscount 1 10 (scenarioDB 1)) 7
          (request 1 3)).2 7 = (c, none) ∧
      c.CartItems =
        (match findCart (setDiscount 1 10 (scenarioDB 1)).carts 7 with
          | some ct => ct.CartItems
          | none => []) ++
        [{ ItemID := 1, Quantity := 3,
           Price := if (10 : ℚ) > 0 then (100 : ℚ) - 100 * 10 / 100 else 100,
           TotalPrice := (if (10 : ℚ) > 0 then (100 : ℚ) - 100 * 10 / 100 else 100) *
             ((3 : Int) : ℚ) }] :=
  new_line_price_and_total (Env.ok 9 true) (setDiscount 1 10 (scenarioDB 1)) 7 (request 1 3)
    { ID := 1, Price := 100, Discount := 10, Quantity := 10 }
    (Reachable.catalog _ (Reachable.init _)) (by decide) (by decide)
    (by with_unfolding_all rfl) (by simp [setDiscount, scenarioDB, findCart])
    (by with_unfolding_all decide)


theorem find?_incQuantity_same (id : ObjectID) (d : Int) (items : List Item) :
    (incQuantity id d items).find? (fun it => decide (it.ID = id)) =
      (items.find? (fun it => decide (it.ID = id))).map
        (fun it => { it with Quantity := it.Quantity + d }) := by
  induction items with
  | nil => rfl
  | cons w rest ih =>
    by_cases hw : w.ID = id
    · simp only [incQuantity]
      rw [if_pos hw, List.find?_cons_of_pos _ (by simpa using hw),
        List.find?_cons_of_pos _ (by simpa using hw)]
      rfl
    · simp only [incQuantity]
      rw [if_neg hw, List.find?_cons_of_neg _ (by simpa using hw),
        List.find?_cons_of_neg _ (by simpa using hw)]
      exact ih

theorem find?_incQuantity_other (id id' : ObjectID) (hne : id' ≠ id) (d : Int)
    (items : List Item) :
    (incQuantity id d items).find? (fun it => decide (it.ID = id')) =
      items.find? (fun it => decide (it.ID = id')) := by
  induction items with
  | nil => rfl
  | cons w rest ih =>
    by_cases hw : w.ID = id
    · have hw' : ¬ w.ID = id' := fun h => hne (h.symm.trans hw)
      simp only [incQuantity]
      rw [if_pos hw, List.find?_cons_of_neg _ (by simpa using hw'),
        List.find?_cons_of_neg _ (by simpa using hw')]
    · simp only [incQuantity]
      rw [if_neg hw]
      by_cases hw' : w.ID = id'
      · rw [List.find?_cons_of_pos _ (by simpa using hw'),
          List.find?_cons_of_pos _ (by simpa using hw')]
      · rw [List.find?_cons_of_neg _ (by simpa using hw'),
          List.find?_cons_of_neg _ (by simpa using hw'), ih]

theorem filter_incQuantity (id : ObjectID) (d : Int) (items : List Item) :
    (incQuantity id d items).filter (fun it => decide (it.ID ≠ id)) =
      items.filter (fun it => decide (it.ID ≠ id)) := by
  induction items with
  | nil => rfl
  | cons w rest ih =>
    by_cases hw : w.ID = id
    · simp only [incQuantity]
      rw [if_pos hw, List.filter_cons_of_neg (by simpa using hw),
        List.filter_cons_of_neg (by simpa using hw)]
    · simp only [incQuantity]
      rw [if_neg hw, List.filter_cons_of_pos (by simpa using hw),
        List.filter_cons_of_pos (by simpa using hw), ih]

theorem length_incQuantity (id : ObjectID) (d : Int) (items : List Item) :
    (incQuantity id d items).length = items.length := by
  induction items with
  | nil => rfl
  | cons w rest ih =>
    by_cases hw : w.ID = id
    · simp [incQuantity, hw]
    · simp [incQuantity, hw, ih]

theorem GetItem_incQuantity_same (db : DB) (id : ObjectID) (d : Int) (it : Item)
    (h : ItemRepo.GetItem false db id = .ok it) :
    ItemRepo.GetItem false { db with items := incQuantity id d db.items } id =
      .ok { it with Quantity := it.Quantity + d } := by
  simp only [ItemRepo.GetItem, Bool.false_eq_true, if_false] at h ⊢
  rw [find?_incQuantity_same]
  cases hf : db.items.find? (fun it => decide (it.ID = id)) with
  | none => rw [hf] at h; simp at h
  | some x =>
    rw [hf] at h
    simp only at h
    cases h
    rfl

theorem GetItem_congr_items (db db' : DB) (id : ObjectID) (h : db'.items = db.items) :
    ItemRepo.GetItem false db' id = ItemRepo.GetItem false db id := by
  simp [ItemRepo.GetItem, h]


theorem processItemUpdates_items (db : DB) (req : itemUpdateRequest) :
    (CartService.processItemUpdates false db req).2.items =
      incQuantity req.itemID req.quantityChange db.items := by
  simp [CartService.processItemUpdates, ItemRepo.UpdateItem]

theorem GetItem_of_items_incQuantity (db db' : DB) (id : ObjectID) (d : Int) (it : Item)
    (h' : db'.items = incQuantity id d db.items)
    (h : ItemRepo.GetItem false db id = .ok it) :
    ItemRepo.GetItem false db' id = .ok { it with Quantity := it.Quantity + d } := by
  rw [← GetItem_incQuantity_same db id d it h]
  exact GetItem_congr_items _ _ _ h'

theorem GetItem_of_items_incQuantity_other (db db' : DB) (id id' : ObjectID) (d : Int)
    (hne : id' ≠ id) (h' : db'.items = incQuantity id d db.items) :
    ItemRepo.GetItem false db' id' = ItemRepo.GetItem false db id' := by
  simp only [ItemRepo.GetItem, Bool.false_eq_true, if_false, h']
  rw [find?_incQuantity_other id id' hne]

/-- C19: for every request the worker receives, one iteration of its loop issues exactly one
store update, the increment of the quantity of the item of the request by the quantity change of
the request; it leaves the carts, the number of items and every item of another identity as they
were, and when the update succeeds the item of the request has its old quantity plus the change
and its other fields as before. -/
theorem worker_applies_one_increment (fails : Bool) (db : DB) (req : itemUpdateRequest) :
    newWrites db (CartService.processItemUpdates fails db req).2 =
      [Write.UpdateItem req.itemID req.quantityChange] ∧
    (CartService.processItemUpdates fails db req).2.carts = db.carts ∧
    (CartService.processItemUpdates fails db req).2.items.length = db.items.length ∧
    (CartService.processItemUpdates fails db req).2.items.filter
        (fun it => decide (it.ID ≠ req.itemID)) =
      db.items.filter (fun it => decide (it.ID ≠ req.itemID)) ∧
    (∀ id', id' ≠ req.itemID →
      ItemRepo.GetItem false (CartService.processItemUpdates fails db req).2 id' =
        ItemRepo.GetItem false db id') ∧
    (fails = false →
      (CartService.processItemUpdates fails db req).1 = none ∧
      ∀ it, ItemRepo.GetItem false db req.itemID = .ok it →
        ItemRepo.GetItem false (CartService.processItemUpdates fails db req).2 req.itemID =
          .ok { ID := it.ID, Price := it.Price, Discount := it.Discount,
                Quantity := it.Quantity + req.quantityChange }) := by
  cases fails
  · have hitems := processItemUpdates_items db req
    refine ⟨by simp [newWrites, CartService.processItemUpdates, ItemRepo.UpdateItem], rfl, ?_, ?_,
      ?_, ?_⟩
    · rw [hitems, length_incQuantity]
    · rw [hitems, filter_incQuantity]
    · intro id' hne
      exact GetItem_of_items_incQuantity_other _ _ _ _ _ hne hitems
    · intro _
      exact ⟨rfl, fun it hit => GetItem_of_items_incQuantity _ _ _ _ _ hitems hit⟩
  · refine ⟨by simp [newWrites, CartService.processItemUpdates, ItemRepo.UpdateItem], rfl, rfl,
      rfl, fun _ _ => rfl, ?_⟩
    intro h; cases h

theorem worker_applies_one_increment_witness :
    ItemRepo.GetItem false
        (CartService.processItemUpdates false (scenarioDB 1)
          { itemID := 1, quantityChange := -3 }).2 1 =
      .ok { ID := 1, Price := 100, Discount := 0, Quantity := 10 + (-3) } :=
  ((worker_applies_one_increment false (scenarioDB 1)
      { itemID := 1, quantityChange := -3 }).2.2.2.2.2 rfl).2
    { ID := 1, Price := 100, Discount := 0, Quantity := 10 } (by rfl)

theorem processItemUpdatesLoop_getItem (id : ObjectID) (reqs : List itemUpdateRequest) :
    ∀ (db : DB) (it : Item), ItemRepo.GetItem false db id = .ok it →
      ItemRepo.GetItem false
          (CartService.processItemUpdatesLoop (reqs.map (fun r => (r, false))) db).2 id =
        .ok { it with Quantity := it.Quantity +
          ((reqs.filter (fun r => decide (r.itemID = id))).map
            (fun r => r.quantityChange)).sum } := by
  induction reqs with
  | nil => intro db it h; simpa [CartService.processItemUpdatesLoop] using h
  | cons req rest ih =>
    intro db it h
    simp only [List.map_cons, CartService.processItemUpdatesLoop]
    have hitems := processItemUpdates_items db req
    by_cases hr : req.itemID = id
    · have h1 := GetItem_of_items_incQuantity db _ id req.quantityChange it (hr ▸ hitems) h
      rw [ih _ _ h1, List.filter_cons_of_pos (by simpa using hr)]
      simp [add_assoc]
    · have h1 : ItemRepo.GetItem false (CartService.processItemUpdates false db req).2 id =
          .ok it := by
        rw [GetItem_of_items_incQuantity_other db _ req.itemID id req.quantityChange
          (fun h => hr h.symm) hitems, h]
      rw [ih _ _ h1, List.filter_cons_of_neg (by simpa using hr)]

theorem processItemUpdatesLoop_answers (reqs : List itemUpdateRequest) :
    ∀ db : DB, (CartService.processItemUpdatesLoop (reqs.map (fun r => (r, false))) db).1 =
      List.replicate reqs.length none := by
  induction reqs with
  | nil => intro db; rfl
  | cons req rest ih =>
    intro db
    simp only [List.map_cons, CartService.processItemUpdatesLoop, List.length_cons,
      List.replicate_succ, ih]
    rfl

/-- C20: for every stored item and every list of deltas submitted for it, when the worker
receives the requests in any order (any permutation of the list) and every store update
succeeds, every request is answered with nil and the stored quantity of the item ends as the
initial quantity plus the sum of the deltas. -/
theorem deltas_sum_in_any_order (db : DB) (itemID : ObjectID) (it : Item) (ds ds' : List Int)
    (hperm : ds'.Perm ds) (hit : ItemRepo.GetItem false db itemID = .ok it) :
    (CartService.processItemUpdatesLoop
        (ds'.map (fun d => ({ itemID := itemID, quantityChange := d }, false))) db).1 =
      List.replicate ds.length none ∧
    ItemRepo.GetItem false
        (CartService.processItemUpdatesLoop
          (ds'.map (fun d => ({ itemID := itemID, quantityChange := d }, false))) db).2 itemID =
      .ok { ID := it.ID, Price := it.Price, Discount := it.Discount,
            Quantity := it.Quantity + ds.sum } := by
  have hmap : ds'.map (fun d => (({ itemID := itemID, quantityChange := d } : itemUpdateRequest),
        false)) =
      (ds'.map (fun d => ({ itemID := itemID, quantityChange := d } : itemUpdateRequest))).map
        (fun r => (r, false)) := by
    simp
  rw [hmap]
  constructor
  · rw [processItemUpdatesLoop_answers, List.length_map, hperm.length_eq]
  · rw [processItemUpdatesLoop_getItem itemID _ db it hit]
    have hsum : ((List.filter (fun r => decide (r.itemID = itemID))
        (ds'.map (fun d => ({ itemID := itemID, quantityChange := d } : itemUpdateRequest)))).map
          (fun r => r.quantityChange)).sum = ds.sum := by
      rw [List.filter_eq_self.2 (by simp), List.map_map]
      have : ((fun r : itemUpdateRequest => r.quantityChange) ∘
          fun d => ({ itemID := itemID, quantityChange := d } : itemUpdateRequest)) =
          fun d => d := rfl
      rw [this, List.map_id']
      exact hperm.sum_eq
    rw [hsum]

theorem deltas_sum_in_any_order_witness :
    (CartService.processItemUpdatesLoop
        ([5, -3, -2].map (fun d => ({ itemID := 1, quantityChange := d }, false)))
        (scenarioDB 1)).1 = List.replicate [-3, -2, 5].length none ∧
    ItemRepo.GetItem false
        (CartService.processItemUpdatesLoop
          ([5, -3, -2].map (fun d => ({ itemID := 1, quantityChange := d }, false)))
          (scenarioDB 1)).2 1 =
      .ok { ID := 1, Price := 100, Discount := 0, Quantity := 10 + [-3, -2, 5].sum } :=
  deltas_sum_in_any_order (scenarioDB 1) 1 { ID := 1, Price := 100, Discount := 0, Quantity := 10 }
    [-3, -2, 5] [5, -3, -2] (by decide) (by rfl)


/-! ## The worker and the coordinator under failures -/

theorem processItemUpdates_fst (fails : Bool) (db : DB) (req : itemUpdateRequest) :
    (CartService.processItemUpdates fails db req).1 =
      if fails then some DBError.other else none := by
  cases fails <;> rfl

theorem processItemUpdates_items_of_fails (db : DB) (req : itemUpdateRequest) :
    (CartService.processItemUpdates true db req).2.items = db.items := rfl

theorem processItemUpdatesLoop_fst (reqs : List (itemUpdateRequest × Bool)) :
    ∀ db : DB, (CartService.processItemUpdatesLoop reqs db).1 =
      reqs.map (fun p => if p.2 then some DBError.other else none) := by
  induction reqs with
  | nil => intro db; rfl
  | cons p rest ih =>
    intro db
    obtain ⟨req, fails⟩ := p
    simp only [CartService.processItemUpdatesLoop, List.map_cons, ih, processItemUpdates_fst]

theorem processItemUpdatesLoop_append (a b : List (itemUpdateRequest × Bool)) :
    ∀ db : DB, (CartService.processItemUpdatesLoop (a ++ b) db).2 =
      (CartService.processItemUpdatesLoop b (CartService.processItemUpdatesLoop a db).2).2 := by
  induction a with
  | nil => intro db; rfl
  | cons p rest ih =>
    intro db
    obtain ⟨req, fails⟩ := p
    exact ih (CartService.processItemUpdates fails db req).2

theorem processItemUpdatesLoop_items_of_fails (pre : List (itemUpdateRequest × Bool))
    (h : ∀ p ∈ pre, p.2 = true) :
    ∀ db : DB, (CartService.processItemUpdatesLoop pre db).2.items = db.items := by
  induction pre with
  | nil => intro db; rfl
  | cons p rest ih =>
    intro db
    obtain ⟨req, fails⟩ := p
    have hf : fails = true := h (req, fails) (List.mem_cons_self _ _)
    subst hf
    simp only [CartService.processItemUpdatesLoop]
    rw [ih (fun p hp => h p (List.mem_cons_of_mem _ hp))]
    rfl

/-- C21: `updateItemQuantity` returns the internal server error (status 500) exactly when the
store increment of its own request fails, and nil otherwise.  The worker goes on after a failed
request: it answers every request it receives, each with the result of its own increment, and a
request that follows any number of failed ones and whose increment succeeds is answered with nil
and leaves the quantity of its item raised by its quantity change; so a call of
`updateItemQuantity` made after a failed one returns nil and is applied. -/
theorem updateItemQuantity_error_iff_and_worker_goes_on (db : DB) :
    (∀ (env : Env) (itemID : ObjectID) (quantityChange : Int),
      ((CartService.updateItemQuantity env db itemID quantityChange).1 = some ErrInternalServer ↔
        (ItemRepo.UpdateItem env.updateItemFails db itemID quantityChange).1 ≠ none) ∧
      ((CartService.updateItemQuantity env db itemID quantityChange).1 = none ↔
        (ItemRepo.UpdateItem env.updateItemFails db itemID quantityChange).1 = none)) ∧
    ErrInternalServer.StatusCode = 500 ∧
    (∀ reqs : List (itemUpdateRequest × Bool),
      (CartService.processItemUpdatesLoop reqs db).1 =
        reqs.map (fun p => if p.2 then some DBError.other else none)) ∧
    (∀ (pre : List (itemUpdateRequest × Bool)) (req : itemUpdateRequest) (it : Item),
      (∀ p ∈ pre, p.2 = true) → ItemRepo.GetItem false db req.itemID = .ok it →
      (CartService.processItemUpdatesLoop (pre ++ [(req, false)]) db).1 =
        pre.map (fun _ => some DBError.other) ++ [none] ∧
      ItemRepo.GetItem false
          (CartService.processItemUpdatesLoop (pre ++ [(req, false)]) db).2 req.itemID =
        .ok { it with Quantity := it.Quantity + req.quantityChange }) ∧
    (∀ (env1 env2 : Env) (id1 id2 : ObjectID) (d1 d2 : Int) (it : Item),
      env1.updateItemFails = true → env2.updateItemFails = false →
      ItemRepo.GetItem false db id2 = .ok it →
      (CartService.updateItemQuantity env1 db id1 d1).1 = some ErrInternalServer ∧
      (CartService.updateItemQuantity env2
        (CartService.updateItemQuantity env1 db id1 d1).2 id2 d2).1 = none ∧
      ItemRepo.GetItem false
          (CartService.updateItemQuantity env2
            (CartService.updateItemQuantity env1 db id1 d1).2 id2 d2).2 id2 =
        .ok { it with Quantity := it.Quantity + d2 }) := by
  refine ⟨?_, rfl, fun reqs => processItemUpdatesLoop_fst reqs db, ?_, ?_⟩
  · intro env itemID quantityChange
    unfold CartService.updateItemQuantity CartService.processItemUpdates ItemRepo.UpdateItem
    cases env.updateItemFails <;> simp
  · intro pre req it hpre hit
    constructor
    · rw [processItemUpdatesLoop_fst, List.map_append]
      congr 1
      exact List.map_congr_left (fun p hp => by rw [hpre p hp]; rfl)
    · rw [processItemUpdatesLoop_append]
      have hitems := processItemUpdatesLoop_items_of_fails pre hpre db
      have hit' : ItemRepo.GetItem false (CartService.processItemUpdatesLoop pre db).2
          req.itemID = .ok it := by
        rw [GetItem_congr_items _ _ _ hitems, hit]
      exact GetItem_of_items_incQuantity _ _ _ _ _ (processItemUpdates_items _ req) hit'
  · intro env1 env2 id1 id2 d1 d2 it h1 h2 hit
    unfold CartService.updateItemQuantity
    rw [h1, h2]
    refine ⟨rfl, rfl, ?_⟩
    have hit' : ItemRepo.GetItem false
        (CartService.processItemUpdates true db { itemID := id1, quantityChange := d1 }).2
        id2 = .ok it := by
      rw [GetItem_congr_items _ _ _ (processItemUpdates_items_of_fails db _), hit]
    exact GetItem_of_items_incQuantity _ _ _ _ _
      (processItemUpdates_items _ { itemID := id2, quantityChange := d2 }) hit'

theorem updateItemQuantity_error_iff_and_worker_goes_on_witness :
    (CartService.processItemUpdatesLoop
        ([(({ itemID := 1, quantityChange := -3 } : itemUpdateRequest), true)] ++
          [(({ itemID := 1, quantityChange := -2 } : itemUpdateRequest), false)])
        (scenarioDB 1)).1 =
      [(({ itemID := 1, quantityChange := -3 } : itemUpdateRequest), true)].map
        (fun _ => some DBError.other) ++ [none] ∧
    ItemRepo.GetItem false
        (CartService.processItemUpdatesLoop
          ([(({ itemID := 1, quantityChange := -3 } : itemUpdateRequest), true)] ++
            [(({ itemID := 1, quantityChange := -2 } : itemUpdateRequest), false)])
          (scenarioDB 1)).2 1 =
      .ok { ID := 1, Price := 100, Discount := 0, Quantity := 10 + (-2) } :=
  (updateItemQuantity_error_iff_and_worker_goes_on (scenarioDB 1)).2.2.2.1
    [(({ itemID := 1, quantityChange := -3 } : itemUpdateRequest), true)]
    { itemID := 1, quantityChange := -2 }
    { ID := 1, Price := 100, Discount := 0, Quantity := 10 } (by decide) (by rfl)

/-- C23: the coordinator runs both branches and does not compensate.  Every call of
`updateConcurrently` issues both writes, the cart write and the inventory request (in either
order).  When the cart write fails and the inventory adjustment succeeds, the call returns the
internal server error (status 500), the carts are as before, and the quantity of the item
stays changed by the submitted change: no further write undoes it. -/
theorem updateConcurrently_no_compensation (env : Env) (db : DB) (ct : Cart)
    (cartItem : CartItem) (act : action)
    (hcart : (CartRepo.UpdateCart env.updateCartFails db ct.ID ct.CartItems ct.TotalPrice).1 ≠
      none)
    (hitem : (ItemRepo.UpdateItem env.updateItemFails db cartItem.ItemID
      (quantityChangeFor cartItem act)).1 = none) :
    (CartService.updateConcurrently env db ct cartItem act).1 = some ErrInternalServer ∧
    ErrInternalServer.StatusCode = 500 ∧
    (newWrites db (CartService.updateConcurrently env db ct cartItem act).2).Perm
      [Write.UpdateCart ct.ID ct.CartItems ct.TotalPrice,
       Write.UpdateItem cartItem.ItemID (quantityChangeFor cartItem act)] ∧
    (CartService.updateConcurrently env db ct cartItem act).2.carts = db.carts ∧
    (CartService.updateConcurrently env db ct cartItem act).2.items =
      incQuantity cartItem.ItemID (quantityChangeFor cartItem act) db.items ∧
    ∀ it, ItemRepo.GetItem false db cartItem.ItemID = .ok it →
      ItemRepo.GetItem false (CartService.updateConcurrently env db ct cartItem act).2
          cartItem.ItemID =
        .ok { it with Quantity := it.Quantity + quantityChangeFor cartItem act } := by
  have hc : env.updateCartFails = true := by
    cases h : env.updateCartFails
    · rw [h] at hcart; simp [CartRepo.UpdateCart] at hcart
    · rfl
  have hi : env.updateItemFails = false := by
    cases h : env.updateItemFails
    · rfl
    · rw [h] at hitem; simp [ItemRepo.UpdateItem] at hitem
  have hitems : (CartService.updateConcurrently env db ct cartItem act).2.items =
      incQuantity cartItem.ItemID (quantityChangeFor cartItem act) db.items := by
    rw [updateConcurrently_items, hi]; rfl
  refine ⟨?_, rfl, ?_, ?_, hitems, ?_⟩
  · rw [updateConcurrently_fst, hc]; rfl
  · unfold newWrites
    rw [updateConcurrently_writes]
    split
    · simp
    · simp only [List.drop_left]
      exact List.Perm.swap _ _ _
  · rw [updateConcurrently_carts, hc]; rfl
  · intro it hit
    exact GetItem_of_items_incQuantity _ _ _ _ _ hitems hit

theorem updateConcurrently_no_compensation_witness :
    (CartService.updateConcurrently { Env.ok 9 true with updateCartFails := true }
        (scenarioDB 1) Cart.zero (request 1 3) add).1 = some ErrInternalServer ∧
    ItemRepo.GetItem false
        (CartService.updateConcurrently { Env.ok 9 true with updateCartFails := true }
          (scenarioDB 1) Cart.zero (request 1 3) add).2 1 =
      .ok { ID := 1, Price := 100, Discount := 0,
            Quantity := 10 + quantityChangeFor (request 1 3) add } :=
  have h := updateConcurrently_no_compensation { Env.ok 9 true with updateCartFails := true }
    (scenarioDB 1) Cart.zero (request 1 3) add (by simp [CartRepo.UpdateCart, Env.ok])
    (by simp [ItemRepo.UpdateItem, Env.ok])
  ⟨h.1, h.2.2.2.2.2 { ID := 1, Price := 100, Discount := 0, Quantity := 10 } (by rfl)⟩

/-! ## Rejections -/

/-- C28: a rejection is atomic.  Whenever `AddToCart` or `RemoveFromCart` returns an error with
status 404 or 400, the store is exactly as it was before the call: no write has been issued (no
`CreateCart`, no `UpdateCart`, no inventory request), and the carts and the items are
unchanged. -/
theorem rejection_is_atomic (env : Env) (db : DB) (userid : ObjectID) (cartItem : CartItem)
    (e : AppError) (hstatus : e.StatusCode = 404 ∨ e.StatusCode = 400) :
    ((CartService.AddToCart env db userid cartItem).1 = some e →
      (CartService.AddToCart env db userid cartItem).2 = db ∧
      newWrites db (CartService.AddToCart env db userid cartItem).2 = []) ∧
    ((CartService.RemoveFromCart env db userid cartItem).1 = some e →
      (CartService.RemoveFromCart env db userid cartItem).2 = db ∧
      newWrites db (CartService.RemoveFromCart env db userid cartItem).2 = []) := by
  have h500 : e ≠ ErrInternalServer := by
    intro h
    subst h
    rcases hstatus with h | h <;> simp [ErrInternalServer, NewError] at h
  have hnw : newWrites db db = [] := by simp [newWrites]
  have huc : ∀ (d : DB) (ct : Cart) (ci : CartItem) (act : action),
      (CartService.updateConcurrently env d ct ci act).1 ≠ some e := by
    intro d ct ci act h
    rcases updateConcurrently_fst_cases env d ct ci act with h' | h'
    · rw [h'] at h; cases h
    · rw [h'] at h; exact h500 (Option.some.inj h).symm
  constructor
  · intro h
    cases hgi : ItemRepo.GetItem env.getItemFails db cartItem.ItemID with
    | error err => rw [AddToCart_of_getItem_error hgi]; exact ⟨rfl, hnw⟩
    | ok it =>
      by_cases hq : it.Quantity < cartItem.Quantity
      · rw [AddToCart_of_short hgi hq]; exact ⟨rfl, hnw⟩
      · rcases GetCart_cases env.getCartFails db userid with
          ⟨_, hg⟩ | ⟨_, _, hg⟩ | ⟨_, ct, _, hg⟩
        · rw [AddToCart_of_getCart_error hgi hq hg]; exact ⟨rfl, hnw⟩
        · rw [AddToCart_of_noCart env hgi hq hg] at h
          split at h
          · exact absurd h (huc _ _ _ _)
          · exact absurd (Option.some.inj h).symm h500
        · rw [AddToCart_of_cart env hgi hq hg] at h
          exact absurd h (huc _ _ _ _)
  · intro h
    rcases GetCart_cases env.getCartFails db userid with
      ⟨_, hg⟩ | ⟨_, _, hg⟩ | ⟨_, ct, _, hg⟩
    · rw [RemoveFromCart_of_getCart_error hg]; exact ⟨rfl, hnw⟩
    · rw [RemoveFromCart_of_noCart hg]; exact ⟨rfl, hnw⟩
    · cases hl : findLoop cartItem ct.CartItems with
      | none => rw [RemoveFromCart_of_noLine hg hl]; exact ⟨rfl, hnw⟩
      | some v =>
        by_cases hq : v.Quantity < cartItem.Quantity
        · rw [RemoveFromCart_of_tooMany hg hl hq]; exact ⟨rfl, hnw⟩
        · rw [RemoveFromCart_of_line hg hl hq] at h
          exact absurd h (huc _ _ _ _)

theorem rejection_is_atomic_witness :
    (CartService.AddToCart (Env.ok 9 true) (scenarioDB 1) 7 (request 1 11)).2 = scenarioDB 1 ∧
    newWrites (scenarioDB 1)
      (CartService.AddToCart (Env.ok 9 true) (scenarioDB 1) 7 (request 1 11)).2 = [] :=
  (rejection_is_atomic (Env.ok 9 true) (scenarioDB 1) 7 (request 1 11)
    (NewError "not enough quantity available in inventory" 400) (Or.inr rfl)).1
    (by with_unfolding_all decide)


/-! ## The inventory under sequences of calls -/

/-- The item collection after `AddToCart`: as before, or with the quantity of the item, found
with enough stock, lowered by the requested quantity. -/
theorem AddToCart_items_cases (env : Env) (db : DB) (userid : ObjectID) (cartItem : CartItem) :
    (CartService.AddToCart env db userid cartItem).2.items = db.items ∨
    ∃ it, ItemRepo.GetItem false db cartItem.ItemID = .ok it ∧
      ¬ it.Quantity < cartItem.Quantity ∧
      (CartService.AddToCart env db userid cartItem).2.items =
        incQuantity cartItem.ItemID (wrapInt (-1 * cartItem.Quantity)) db.items := by
  cases hgi : ItemRepo.GetItem env.getItemFails db cartItem.ItemID with
  | error e => rw [AddToCart_of_getItem_error hgi]; exact Or.inl rfl
  | ok it =>
    have hgi' : ItemRepo.GetItem false db cartItem.ItemID = .ok it := by
      rw [← GetItem_fails_false hgi]; exact hgi
    by_cases hq : it.Quantity < cartItem.Quantity
    · rw [AddToCart_of_short hgi hq]; exact Or.inl rfl
    · have huc : ∀ (d : DB) (ct : Cart), d.items = db.items →
          (CartService.updateConcurrently env d ct (priceLine it cartItem) add).2.items =
            db.items ∨
          (CartService.updateConcurrently env d ct (priceLine it cartItem) add).2.items =
            incQuantity cartItem.ItemID (wrapInt (-1 * cartItem.Quantity)) db.items := by
        intro d ct hd
        rw [updateConcurrently_items, hd, quantityChangeFor_add]
        split
        · exact Or.inl rfl
        · exact Or.inr rfl
      rcases GetCart_cases env.getCartFails db userid with
        ⟨_, hg⟩ | ⟨_, _, hg⟩ | ⟨_, ct, _, hg⟩
      · rw [AddToCart_of_getCart_error hgi hq hg]; exact Or.inl rfl
      · rw [AddToCart_of_noCart env hgi hq hg]
        split
        · rcases huc _ Cart.zero (CreateCart_items _ _ _ _) with h | h
          · exact Or.inl h
          · exact Or.inr ⟨it, hgi', hq, h⟩
        · exact Or.inl (CreateCart_items _ _ _ _)
      · rw [AddToCart_of_cart env hgi hq hg]
        rcases huc db (addMutate ct (priceLine it cartItem)) rfl with h | h
        · exact Or.inl h
        · exact Or.inr ⟨it, hgi', hq, h⟩

/-- The item collection after `RemoveFromCart`: as before, or with the quantity of the item
raised by the requested quantity. -/
theorem RemoveFromCart_items_cases (env : Env) (db : DB) (userid : ObjectID)
    (cartItem : CartItem) :
    (CartService.RemoveFromCart env db userid cartItem).2.items = db.items ∨
    (CartService.RemoveFromCart env db userid cartItem).2.items =
      incQuantity cartItem.ItemID cartItem.Quantity db.items := by
  rcases GetCart_cases env.getCartFails db userid with
    ⟨_, hg⟩ | ⟨_, _, hg⟩ | ⟨_, ct, _, hg⟩
  · rw [RemoveFromCart_of_getCart_error hg]; exact Or.inl rfl
  · rw [RemoveFromCart_of_noCart hg]; exact Or.inl rfl
  · cases hl : findLoop cartItem ct.CartItems with
    | none => rw [RemoveFromCart_of_noLine hg hl]; exact Or.inl rfl
    | some v =>
      by_cases hq : v.Quantity < cartItem.Quantity
      · rw [RemoveFromCart_of_tooMany hg hl hq]; exact Or.inl rfl
      · rw [RemoveFromCart_of_line hg hl hq, updateConcurrently_items, quantityChangeFor_remove]
        split
        · exact Or.inl rfl
        · exact Or.inr rfl

theorem wrapInt_neg_of_pos {q : Int} (h0 : 0 < q) (h1 : q ≤ maxInt) :
    wrapInt (-1 * q) = -q := by
  have : IsInt (-1 * q) := by
    unfold IsInt minInt maxInt at *
    omega
  rw [wrapInt_of_isInt this]
  ring

/-- One call with a positive quantity keeps the stored quantity of every item non-negative. -/
theorem Call.run_quantity_nonneg (c : Call) (db : DB) (id : ObjectID) (it : Item)
    (hpos : 0 < c.cartItem.Quantity ∧ c.cartItem.Quantity ≤ maxInt)
    (hit : ItemRepo.GetItem false db id = .ok it) (h0 : 0 ≤ it.Quantity) :
    ∃ it', ItemRepo.GetItem false (c.run db).2 id = .ok it' ∧ 0 ≤ it'.Quantity := by
  have same : ∀ db' : DB, db'.items = db.items →
      ∃ it', ItemRepo.GetItem false db' id = .ok it' ∧ 0 ≤ it'.Quantity := by
    intro db' h
    exact ⟨it, by rw [GetItem_congr_items _ _ _ h, hit], h0⟩
  have other : ∀ (db' : DB) (id' : ObjectID) (d : Int), id ≠ id' →
      db'.items = incQuantity id' d db.items →
      ∃ it', ItemRepo.GetItem false db' id = .ok it' ∧ 0 ≤ it'.Quantity := by
    intro db' id' d hne h
    exact ⟨it, by rw [GetItem_of_items_incQuantity_other db db' id' id d hne h, hit], h0⟩
  cases c with
  | addToCart env userid cartItem =>
    simp only [Call.cartItem] at hpos
    rcases AddToCart_items_cases env db userid cartItem with h | ⟨it2, hit2, hq, h⟩
    · exact same _ h
    · by_cases hid : id = cartItem.ItemID
      · subst hid
        rw [hit] at hit2
        cases hit2
        refine ⟨_, GetItem_of_items_incQuantity db _ _ _ it h hit, ?_⟩
        rw [wrapInt_neg_of_pos hpos.1 hpos.2]
        show 0 ≤ it.Quantity + -cartItem.Quantity
        omega
      · exact other _ _ _ hid h
  | removeFromCart env userid cartItem =>
    simp only [Call.cartItem] at hpos
    rcases RemoveFromCart_items_cases env db userid cartItem with h | h
    · exact same _ h
    · by_cases hid : id = cartItem.ItemID
      · subst hid
        refine ⟨_, GetItem_of_items_incQuantity db _ _ _ it h hit, ?_⟩
        show 0 ≤ it.Quantity + cartItem.Quantity
        omega
      · exact other _ _ _ hid h

/-- C22: the available quantity never goes negative through the core.  For an item stored with
a quantity of at least 0, after any sequence of calls of `AddToCart` and `RemoveFromCart`, by
any users and for any items, executed one at a time, each with a positive quantity (a Go `int`)
and whatever the calls return and whichever store calls fail, the item is still stored and its
quantity is still at least 0. -/
theorem stored_quantity_never_negative (calls : List Call) (db : DB) (id : ObjectID) (it : Item)
    (hpos : ∀ c ∈ calls, 0 < c.cartItem.Quantity ∧ c.cartItem.Quantity ≤ maxInt)
    (hit : ItemRepo.GetItem false db id = .ok it) (h0 : 0 ≤ it.Quantity) :
    ∃ it', ItemRepo.GetItem false (runCalls calls db) id = .ok it' ∧ 0 ≤ it'.Quantity := by
  induction calls generalizing db it with
  | nil => exact ⟨it, hit, h0⟩
  | cons c rest ih =>
    obtain ⟨it1, hit1, h1⟩ :=
      Call.run_quantity_nonneg c db id it (hpos c (List.mem_cons_self _ _)) hit h0
    exact ih (c.run db).2 it1 (fun c' hc' => hpos c' (List.mem_cons_of_mem _ hc')) hit1 h1

theorem stored_quantity_never_negative_witness :
    ∃ it', ItemRepo.GetItem false
        (runCalls [Call.addToCart (Env.ok 9 true) 7 (request 1 3),
                   Call.addToCart (Env.ok 10 true) 7 (request 1 7),
                   Call.addToCart (Env.ok 11 true) 8 (request 1 1),
                   Call.removeFromCart (Env.ok 12 false) 7 (request 1 5)] (scenarioDB 1)) 1 =
        .ok it' ∧ 0 ≤ it'.Quantity :=
  stored_quantity_never_negative
    [Call.addToCart (Env.ok 9 true) 7 (request 1 3),
     Call.addToCart (Env.ok 10 true) 7 (request 1 7),
     Call.addToCart (Env.ok 11 true) 8 (request 1 1),
     Call.removeFromCart (Env.ok 12 false) 7 (request 1 5)] (scenarioDB 1) 1
    { ID := 1, Price := 100, Discount := 0, Quantity := 10 }
    (by simp [Call.cartItem, request, maxInt]) (by rfl) (by decide)


/-! ## The lines of the other items -/

theorem addLoop_filter_ne (ci : CartItem) (L : List CartItem) :
    (addLoop ci L).1.filter (fun l => decide (l.ItemID ≠ ci.ItemID)) =
      L.filter (fun l => decide (l.ItemID ≠ ci.ItemID)) := by
  induction L with
  | nil => rfl
  | cons w rest ih =>
    by_cases hw : w.ItemID = ci.ItemID
    · simp only [addLoop]
      rw [if_pos hw, List.filter_cons_of_neg (by simpa using hw),
        List.filter_cons_of_neg (by simpa using hw)]
    · simp only [addLoop]
      rw [if_neg hw, List.filter_cons_of_pos (by simpa using hw),
        List.filter_cons_of_pos (by simpa using hw), ih]

theorem removeLoop_filter_ne (ci : CartItem) (L : List CartItem) :
    (removeLoop ci L).1.filter (fun l => decide (l.ItemID ≠ ci.ItemID)) =
      L.filter (fun l => decide (l.ItemID ≠ ci.ItemID)) := by
  induction L with
  | nil => rfl
  | cons w rest ih =>
    by_cases hw : w.ItemID = ci.ItemID
    · simp only [removeLoop]
      rw [if_pos hw]
      by_cases hq : w.Quantity > ci.Quantity
      · rw [if_pos hq, List.filter_cons_of_neg (by simpa using hw),
          List.filter_cons_of_neg (by simpa using hw)]
      · rw [if_neg hq, List.filter_cons_of_neg (by simpa using hw)]
    · simp only [removeLoop]
      rw [if_neg hw, List.filter_cons_of_pos (by simpa using hw),
        List.filter_cons_of_pos (by simpa using hw), ih]

theorem addMutate_filter_ne (ct : Cart) (it : Item) (ci : CartItem) :
    (addMutate ct (priceLine it ci)).CartItems.filter (fun l => decide (l.ItemID ≠ ci.ItemID)) =
      ct.CartItems.filter (fun l => decide (l.ItemID ≠ ci.ItemID)) := by
  have h := addLoop_filter_ne (priceLine it ci) ct.CartItems
  rw [priceLine_ItemID] at h
  show List.filter _ (if (addLoop (priceLine it ci) ct.CartItems).2 = true
    then (addLoop (priceLine it ci) ct.CartItems).1
    else (addLoop (priceLine it ci) ct.CartItems).1 ++ [priceLine it ci]) = _
  split
  · exact h
  · rw [List.filter_append, h]
    simp [priceLine_ItemID]

theorem removeMutate_filter_ne (ct : Cart) (ci : CartItem) :
    (removeMutate ct ci).CartItems.filter (fun l => decide (l.ItemID ≠ ci.ItemID)) =
      ct.CartItems.filter (fun l => decide (l.ItemID ≠ ci.ItemID)) :=
  removeLoop_filter_ne ci ct.CartItems

/-- C26: `AddToCart` and `RemoveFromCart` change only the line of the requested item.  For a user
with a stored cart, whatever the call returns, the lines of the other items in the cart stored
afterwards are the lines of the other items stored before: the same lines (quantity, unit price
and total), in the same order.  After a successful `AddToCart` the stored cart is, when it held
no line of the item, the old lines followed by the new line, and otherwise a cart with the same
items at the same positions; after a successful `RemoveFromCart` the lines left are in the order
they had. -/
theorem only_requested_line_changes (env : Env) (db : DB) (userid : ObjectID)
    (cartItem : CartItem) (ct : Cart)
    (hu : (db.carts.map (fun c => c.ID)).Nodup)
    (hc : findCart db.carts userid = some ct) :
    (∀ ct', findCart (CartService.AddToCart env db userid cartItem).2.carts userid = some ct' →
      ct'.CartItems.filter (fun l => decide (l.ItemID ≠ cartItem.ItemID)) =
        ct.CartItems.filter (fun l => decide (l.ItemID ≠ cartItem.ItemID))) ∧
    (∀ ct', findCart (CartService.RemoveFromCart env db userid cartItem).2.carts userid =
        some ct' →
      ct'.CartItems.filter (fun l => decide (l.ItemID ≠ cartItem.ItemID)) =
        ct.CartItems.filter (fun l => decide (l.ItemID ≠ cartItem.ItemID))) ∧
    ((CartService.AddToCart env db userid cartItem).1 = none →
      ∃ ct' it, findCart (CartService.AddToCart env db userid cartItem).2.carts userid =
          some ct' ∧
        ItemRepo.GetItem false db cartItem.ItemID = .ok it ∧
        (findLoop cartItem ct.CartItems = none →
          ct'.CartItems = ct.CartItems ++ [priceLine it cartItem]) ∧
        (findLoop cartItem ct.CartItems ≠ none →
          ct'.CartItems.map (fun l => l.ItemID) = ct.CartItems.map (fun l => l.ItemID))) ∧
    ((CartService.RemoveFromCart env db userid cartItem).1 = none →
      ∃ ct', findCart (CartService.RemoveFromCart env db userid cartItem).2.carts userid =
          some ct' ∧
        (ct'.CartItems.map (fun l => l.ItemID)).Sublist
          (ct.CartItems.map (fun l => l.ItemID))) := by
  refine ⟨?_, ?_, ?_, ?_⟩
  · intro ct' hct'
    rcases AddToCart_cases_full env db userid cartItem with hcs | ⟨it, ct0, _, hf0, hcs⟩ |
      ⟨it, _, hnone, _⟩
    · rw [hcs, hc] at hct'; cases hct'; rfl
    · rw [hc] at hf0
      cases hf0
      rw [hcs] at hct'
      obtain ⟨c, hfc, hcc⟩ := findCart_setCart_cases _ _ _ _ _ _ hct'
      rw [hc] at hfc
      cases hfc
      rcases hcc with rfl | rfl
      · rfl
      · exact addMutate_filter_ne ct it cartItem
    · rw [hc] at hnone; cases hnone
  · intro ct' hct'
    rcases RemoveFromCart_carts_cases env db userid cartItem with hcs | ⟨ct0, hf0, hcs⟩
    · rw [hcs, hc] at hct'; cases hct'; rfl
    · rw [hc] at hf0
      cases hf0
      rw [hcs] at hct'
      obtain ⟨c, hfc, hcc⟩ := findCart_setCart_cases _ _ _ _ _ _ hct'
      rw [hc] at hfc
      cases hfc
      rcases hcc with rfl | rfl
      · rfl
      · exact removeMutate_filter_ne ct cartItem
  · intro hok
    obtain ⟨it, hit, _, _, _⟩ := AddToCart_ok hok
    refine ⟨_, it, AddToCart_stored_of_cart hok hu hit hc, hit, ?_, ?_⟩
    · intro hl
      have hl' : findLoop (priceLine it cartItem) ct.CartItems = none := by
        rw [← hl]; exact findLoop_congr _ _ rfl _
      exact addMutate_CartItems_of_no_line ct _ hl'
    · intro hl
      cases hv : findLoop cartItem ct.CartItems with
      | none => exact absurd hv hl
      | some v =>
        have hl' : findLoop (priceLine it cartItem) ct.CartItems = some v := by
          rw [← hv]; exact findLoop_congr _ _ rfl _
        exact addMutate_map_ItemID_of_line ct _ v hl'
  · intro hok
    exact ⟨_, RemoveFromCart_stored hok hu hc, removeLoop_map_ItemID_sublist cartItem ct.CartItems⟩

theorem only_requested_line_changes_witness :
    ∃ ct' it, findCart (CartService.AddToCart (Env.ok 10 true) twoItemsDB 7
          (request 2 1)).2.carts 7 = some ct' ∧
      ItemRepo.GetItem false twoItemsDB (request 2 1).ItemID = .ok it ∧
      (findLoop (request 2 1)
          [({ ItemID := 1, Quantity := 3, Price := 100, TotalPrice := 300 } : CartItem)] = none →
        ct'.CartItems =
          [({ ItemID := 1, Quantity := 3, Price := 100, TotalPrice := 300 } : CartItem)] ++
            [priceLine it (request 2 1)]) ∧
      (findLoop (request 2 1)
          [({ ItemID := 1, Quantity := 3, Price := 100, TotalPrice := 300 } : CartItem)] ≠ none →
        ct'.CartItems.map (fun l => l.ItemID) =
          [({ ItemID := 1, Quantity := 3, Price := 100, TotalPrice := 300 } : CartItem)].map
            (fun l => l.ItemID)) :=
  (only_requested_line_changes (Env.ok 10 true) twoItemsDB 7 (request 2 1)
    { ID := 9, UserID := 7,
      CartItems := [{ ItemID := 1, Quantity := 3, Price := 100, TotalPrice := 300 }],
      TotalPrice := 300 }
    (by decide) (by with_unfolding_all decide)).2.2.1 (by with_unfolding_all decide)

/-! ## Positive line quantities -/

theorem mem_removeLoop_gt (ci : CartItem) (L : List CartItem) (l : CartItem)
    (h : l ∈ (removeLoop ci L).1) :
    l ∈ L ∨
      ∃ v ∈ L, ci.Quantity < v.Quantity ∧ l.Quantity = wrapInt (v.Quantity - ci.Quantity) := by
  induction L with
  | nil => simp [removeLoop] at h
  | cons w rest ih =>
    by_cases hw : w.ItemID = ci.ItemID
    · simp only [removeLoop] at h
      rw [if_pos hw] at h
      by_cases hq : w.Quantity > ci.Quantity
      · rw [if_pos hq] at h
        rcases List.mem_cons.1 h with rfl | h
        · exact Or.inr ⟨w, List.mem_cons_self _ _, hq, rfl⟩
        · exact Or.inl (List.mem_cons_of_mem _ h)
      · rw [if_neg hq] at h
        exact Or.inl (List.mem_cons_of_mem _ h)
    · simp only [removeLoop] at h
      rw [if_neg hw] at h
      rcases List.mem_cons.1 h with rfl | h
      · exact Or.inl (List.mem_cons_self _ _)
      · rcases ih h with h' | ⟨v, hv, hq, he⟩
        · exact Or.inl (List.mem_cons_of_mem _ h')
        · exact Or.inr ⟨v, List.mem_cons_of_mem _ hv, hq, he⟩

theorem addMutate_linesPositive (ct : Cart) (it : Item) (ci : CartItem)
    (hq : 0 < ci.Quantity) (hpos : LinesPositive ct)
    (hsum : ∀ v, findLoop ci ct.CartItems = some v → v.Quantity + ci.Quantity ≤ maxInt) :
    LinesPositive (addMutate ct (priceLine it ci)) := by
  intro l hl
  have hmem : l ∈ (addLoop (priceLine it ci) ct.CartItems).1 ∨ l = priceLine it ci := by
    have hl' : l ∈ (if (addLoop (priceLine it ci) ct.CartItems).2 = true
        then (addLoop (priceLine it ci) ct.CartItems).1
        else (addLoop (priceLine it ci) ct.CartItems).1 ++ [priceLine it ci]) := hl
    split at hl'
    · exact Or.inl hl'
    · rcases List.mem_append.1 hl' with h | h
      · exact Or.inl h
      · exact Or.inr (List.mem_singleton.1 h)
  rcases hmem with h | rfl
  · rcases mem_addLoop _ _ _ h with h' | ⟨v, hv, rfl⟩
    · exact hpos l h'
    · have hv' : findLoop ci ct.CartItems = some v := by
        rw [← hv]; exact findLoop_congr _ _ rfl _
      have hvpos : 0 < v.Quantity := hpos v (List.mem_of_find?_eq_some hv')
      have hle := hsum v hv'
      have hint : IsInt (v.Quantity + ci.Quantity) := by
        unfold IsInt minInt
        constructor
        · omega
        · exact hle
      show 0 < wrapInt (v.Quantity + (priceLine it ci).Quantity)
      rw [priceLine_Quantity, wrapInt_of_isInt hint]
      omega
  · exact hq

theorem removeMutate_linesPositive (ct : Cart) (ci : CartItem)
    (hpos : LinesPositive ct) (hint : ∀ l ∈ ct.CartItems, l.Quantity ≤ maxInt)
    (hq : 0 < ci.Quantity) :
    LinesPositive (removeMutate ct ci) := by
  intro l hl
  rcases mem_removeLoop_gt ci ct.CartItems l hl with h | ⟨v, hv, hlt, he⟩
  · exact hpos l h
  · have hvi := hint v hv
    have hi : IsInt (v.Quantity - ci.Quantity) := by
      unfold maxInt at hvi
      unfold IsInt minInt maxInt
      constructor <;> omega
    rw [he, wrapInt_of_isInt hi]
    omega

/-- C27 (amended): when every line of the cart stored for the user has a positive quantity (a
Go `int`), after `AddToCart` or `RemoveFromCart` with a positive requested quantity, whatever
the call returns, every line of the cart stored for the user has a positive quantity, provided
an `AddToCart` that finds a line of the item does not take its quantity past the largest Go
`int`. -/
theorem lines_stay_positive (env : Env) (db : DB) (userid : ObjectID) (cartItem : CartItem)
    (hq : 0 < cartItem.Quantity)
    (hpos : ∀ ct, findCart db.carts userid = some ct → LinesPositive ct)
    (hint : ∀ ct, findCart db.carts userid = some ct → ∀ l ∈ ct.CartItems, l.Quantity ≤ maxInt)
    (hsum : ∀ ct v, findCart db.carts userid = some ct →
      findLoop cartItem ct.CartItems = some v → v.Quantity + cartItem.Quantity ≤ maxInt) :
    (∀ ct', findCart (CartService.AddToCart env db userid cartItem).2.carts userid = some ct' →
      LinesPositive ct') ∧
    (∀ ct', findCart (CartService.RemoveFromCart env db userid cartItem).2.carts userid =
        some ct' → LinesPositive ct') := by
  have hempty : ∀ c : Cart, LinesPositive { c with CartItems := [], TotalPrice := 0 } := by
    intro c l hl
    simp at hl
  constructor
  · intro ct' hct'
    rcases AddToCart_cases_full env db userid cartItem with hc | ⟨it, ct, _, hf, hc⟩ |
      ⟨it, _, hnone, hc | hc⟩
    · rw [hc] at hct'; exact hpos ct' hct'
    · rw [hc] at hct'
      obtain ⟨c, hfc, rfl | rfl⟩ := findCart_setCart_cases _ _ _ _ _ _ hct'
      · exact hpos _ hfc
      · exact addMutate_linesPositive ct it cartItem hq (hpos ct hf)
          (fun v hv => hsum ct v hf hv)
    · rw [hc] at hct'
      rcases findCart_append_cases _ _ _ _ hct' with h1 | ⟨_, rfl⟩
      · exact hpos ct' h1
      · intro l hl
        simp only [assignID, firstCart, List.mem_singleton] at hl
        rw [hl]
        exact hq
    · rw [hc] at hct'
      obtain ⟨c, hfc, hcc⟩ := findCart_setCart_cases _ _ _ _ _ _ hct'
      have hcp : LinesPositive c := by
        rcases findCart_append_cases _ _ _ _ hfc with h1 | ⟨_, rfl⟩
        · exact hpos c h1
        · intro l hl
          simp only [assignID, firstCart, List.mem_singleton] at hl
          rw [hl]
          exact hq
      rcases hcc with rfl | rfl
      · exact hcp
      · exact hempty c
  · intro ct' hct'
    rcases RemoveFromCart_carts_cases env db userid cartItem with hc | ⟨ct, hf, hc⟩
    · rw [hc] at hct'; exact hpos ct' hct'
    · rw [hc] at hct'
      obtain ⟨c, hfc, rfl | rfl⟩ := findCart_setCart_cases _ _ _ _ _ _ hct'
      · exact hpos _ hfc
      · exact removeMutate_linesPositive ct cartItem (hpos ct hf) (hint ct hf) hq

theorem reachable_restockedDB : Reachable restockedDB :=
  Reachable.catalog _
    (Reachable.addToCart (Env.ok 9 true) 7 (request 1 maxInt) (by decide) (by decide)
      (Reachable.init _))

/-- C27, as stated, fails: user 7 holds 2^63 - 1 units of item 1 in the cart (every line
positive), one more unit is in stock, and `AddToCart` of 1 succeeds and leaves the line with the
quantity -2^63. -/
theorem merged_line_quantity_wraps_negative :
    Reachable restockedDB ∧
    (∀ ct, findCart restockedDB.carts 7 = some ct → LinesPositive ct) ∧
    (findCart restockedDB.carts 7).map (fun c => c.CartItems.map (fun l => l.Quantity)) =
      some [9223372036854775807] ∧
    0 < (request 1 1).Quantity ∧
    afterAddOneMore.1 = none ∧
    (findCart afterAddOneMore.2.carts 7).map (fun c => c.CartItems.map (fun l => l.Quantity)) =
      some [-9223372036854775808] ∧
    ¬ (∀ ct', findCart afterAddOneMore.2.carts 7 = some ct' → LinesPositive ct') := by
  have h1 : (findCart restockedDB.carts 7).map
      (fun c => c.CartItems.map (fun l => l.Quantity)) = some [9223372036854775807] := by
    set_option maxRecDepth 8000 in decide
  have h2 : (findCart afterAddOneMore.2.carts 7).map
      (fun c => c.CartItems.map (fun l => l.Quantity)) = some [-9223372036854775808] := by
    set_option maxRecDepth 8000 in decide
  refine ⟨reachable_restockedDB, ?_, h1, by decide, ?_, h2, ?_⟩
  · intro ct hct l hl
    rw [hct] at h1
    have hm : l.Quantity ∈ ct.CartItems.map (fun l => l.Quantity) :=
      List.mem_map_of_mem (fun l => l.Quantity) hl
    have h1' : ct.CartItems.map (fun l => l.Quantity) = [9223372036854775807] :=
      Option.some.inj h1
    rw [h1', List.mem_singleton] at hm
    rw [hm]
    decide
  · set_option maxRecDepth 8000 in decide
  · intro h
    cases hf : findCart afterAddOneMore.2.carts 7 with
    | none => rw [hf] at h2; cases h2
    | some ct' =>
      rw [hf] at h2
      have hq : ct'.CartItems.map (fun l => l.Quantity) = [-9223372036854775808] :=
        Option.some.inj h2
      cases hl : ct'.CartItems with
      | nil => rw [hl] at hq; cases hq
      | cons l rest =>
        have hpos := h ct' hf l (by rw [hl]; exact List.mem_cons_self _ _)
        rw [hl] at hq
        have : l.Quantity = -9223372036854775808 := by
          simp only [List.map_cons, List.cons.injEq] at hq
          exact hq.1
        rw [this] at hpos
        exact absurd hpos (by decide)

theorem lines_stay_positive_witness :
    (∀ ct', findCart afterAdd2.2.carts 7 = some ct' → LinesPositive ct') ∧
    (∀ ct', findCart (CartService.RemoveFromCart (Env.ok 10 true)
        (setDiscount 1 10 afterAdd3.2) 7 (request 1 2)).2.carts 7 = some ct' →
      LinesPositive ct') :=
  lines_stay_positive (Env.ok 10 true) (setDiscount 1 10 afterAdd3.2) 7 (request 1 2)
    (by decide)
    (fun ct hct l hl => by
      have h1 : findCart (setDiscount 1 10 afterAdd3.2).carts 7 =
          some { ID := 9, UserID := 7,
                 CartItems := [{ ItemID := 1, Quantity := 3, Price := 100, TotalPrice := 300 }],
                 TotalPrice := 300 } := by
        with_unfolding_all decide
      rw [h1] at hct
      cases hct
      simp only [List.mem_singleton] at hl
      rw [hl]
      decide)
    (fun ct hct l hl =>
      (Reachable.quantities_isInt reachable_afterAdd3_discount ct (findCart_mem hct) l hl).2)
    (fun ct v hct hv => by
      have h1 : findCart (setDiscount 1 10 afterAdd3.2).carts 7 =
          some { ID := 9, UserID := 7,
                 CartItems := [{ ItemID := 1, Quantity := 3, Price := 100, TotalPrice := 300 }],
                 TotalPrice := 300 } := by
        with_unfolding_all decide
      rw [h1] at hct
      cases hct
      simp [findLoop, request] at hv
      rw [← hv]
      decide)


/-! ## Conservation of stock -/

theorem lineQuantity_of_line {db : DB} {userid : ObjectID} {ct : Cart} (ci : CartItem)
    {v : CartItem} (hc : findCart db.carts userid = some ct)
    (hl : findLoop ci ct.CartItems = some v) :
    lineQuantity db userid ci.ItemID = v.Quantity := by
  unfold findLoop at hl
  simp only [lineQuantity, hc, hl]

theorem lineQuantity_of_noLine {db : DB} {userid : ObjectID} {ct : Cart} (ci : CartItem)
    (hc : findCart db.carts userid = some ct) (hl : findLoop ci ct.CartItems = none) :
    lineQuantity db userid ci.ItemID = 0 := by
  unfold findLoop at hl
  simp only [lineQuantity, hc, hl]

theorem lineQuantity_of_noCart {db : DB} {userid : ObjectID} (itemID : ObjectID)
    (hc : findCart db.carts userid = none) : lineQuantity db userid itemID = 0 := by
  simp only [lineQuantity, hc]

theorem storedQuantity_of_getItem {db : DB} {id : ObjectID} {it : Item}
    (h : ItemRepo.GetItem false db id = .ok it) : storedQuantity db id = some it.Quantity := by
  simp only [ItemRepo.GetItem, Bool.false_eq_true, if_false] at h
  unfold storedQuantity
  cases hf : db.items.find? (fun it => decide (it.ID = id)) with
  | none => rw [hf] at h; cases h
  | some x =>
    rw [hf] at h
    cases h
    rfl

theorem stockOf_eq {db : DB} {userid id : ObjectID} {it : Item}
    (h : ItemRepo.GetItem false db id = .ok it) :
    stockOf db userid id = some (it.Quantity + lineQuantity db userid id) := by
  simp [stockOf, storedQuantity_of_getItem h]

theorem stockOf_congr {db db' : DB} (userid id : ObjectID) (hc : db'.carts = db.carts)
    (hi : db'.items = db.items) : stockOf db' userid id = stockOf db userid id := by
  simp [stockOf, storedQuantity, lineQuantity, hc, hi]

/-- When both writes of the coordinator succeed, an `AddToCart` that returns an error has left
the carts and the items as they were. -/
theorem AddToCart_unchanged_of_error {env : Env} {db : DB} {userid : ObjectID}
    {cartItem : CartItem} (hcart : env.updateCartFails = false)
    (hitem : env.updateItemFails = false)
    (herr : (CartService.AddToCart env db userid cartItem).1 ≠ none) :
    (CartService.AddToCart env db userid cartItem).2.carts = db.carts ∧
    (CartService.AddToCart env db userid cartItem).2.items = db.items := by
  have huc : ∀ (d : DB) (ct : Cart) (ci : CartItem) (act : action),
      (CartService.updateConcurrently env d ct ci act).1 = none := by
    intro d ct ci act
    rw [updateConcurrently_fst, hcart, hitem]
    rfl
  cases hgi : ItemRepo.GetItem env.getItemFails db cartItem.ItemID with
  | error e => rw [AddToCart_of_getItem_error hgi]; exact ⟨rfl, rfl⟩
  | ok it =>
    by_cases hq : it.Quantity < cartItem.Quantity
    · rw [AddToCart_of_short hgi hq]; exact ⟨rfl, rfl⟩
    · rcases GetCart_cases env.getCartFails db userid with
        ⟨_, hg⟩ | ⟨_, _, hg⟩ | ⟨_, ct, _, hg⟩
      · rw [AddToCart_of_getCart_error hgi hq hg]; exact ⟨rfl, rfl⟩
      · rw [AddToCart_of_noCart env hgi hq hg] at herr ⊢
        by_cases hcr : (CartRepo.CreateCart env.createCartFails env.newID db
            (firstCart userid (priceLine it cartItem))).1 = none
        · rw [if_pos hcr] at herr
          exact absurd (huc _ _ _ _) herr
        · rw [if_neg hcr]
          have hc := CreateCart_carts env.createCartFails env.newID db
            (firstCart userid (priceLine it cartItem))
          rw [if_neg hcr] at hc
          exact ⟨hc, CreateCart_items _ _ _ _⟩
      · rw [AddToCart_of_cart env hgi hq hg] at herr
        exact absurd (huc _ _ _ _) herr

/-- When both writes of the coordinator succeed, a `RemoveFromCart` that returns an error has
left the carts and the items as they were. -/
theorem RemoveFromCart_unchanged_of_error {env : Env} {db : DB} {userid : ObjectID}
    {cartItem : CartItem} (hcart : env.updateCartFails = false)
    (hitem : env.updateItemFails = false)
    (herr : (CartService.RemoveFromCart env db userid cartItem).1 ≠ none) :
    (CartService.RemoveFromCart env db userid cartItem).2.carts = db.carts ∧
    (CartService.RemoveFromCart env db userid cartItem).2.items = db.items := by
  rcases GetCart_cases env.getCartFails db userid with
    ⟨_, hg⟩ | ⟨_, _, hg⟩ | ⟨_, ct, _, hg⟩
  · rw [RemoveFromCart_of_getCart_error hg]; exact ⟨rfl, rfl⟩
  · rw [RemoveFromCart_of_noCart hg]; exact ⟨rfl, rfl⟩
  · cases hl : findLoop cartItem ct.CartItems with
    | none => rw [RemoveFromCart_of_noLine hg hl]; exact ⟨rfl, rfl⟩
    | some v =>
      by_cases hq : v.Quantity < cartItem.Quantity
      · rw [RemoveFromCart_of_tooMany hg hl hq]; exact ⟨rfl, rfl⟩
      · rw [RemoveFromCart_of_line hg hl hq, updateConcurrently_fst, hcart, hitem] at herr
        exact absurd rfl herr

theorem findLoop_append_of_none (ci line : CartItem) (L : List CartItem)
    (h : findLoop ci L = none) (hid : line.ItemID = ci.ItemID) :
    findLoop ci (L ++ [line]) = some line := by
  unfold findLoop at *
  rw [List.find?_append, h]
  simp [hid]

theorem findLoop_eq_none_of_forall_ne (ci : CartItem) (L : List CartItem)
    (h : ∀ w ∈ L, w.ItemID ≠ ci.ItemID) : findLoop ci L = none := by
  unfold findLoop
  rw [List.find?_eq_none]
  intro w hw
  simpa using h w hw

/-- The stock after a successful `AddToCart`, whose merge stays within the Go `int`s. -/
theorem stockOf_AddToCart_ok {env : Env} {db : DB} {userid : ObjectID} {cartItem : CartItem}
    {it : Item} (hr : Reachable db) (huid : userid ≠ 0) (hn : env.newID ≠ 0)
    (hq : 0 < cartItem.Quantity) (hqi : cartItem.Quantity ≤ maxInt)
    (hit : ItemRepo.GetItem false db cartItem.ItemID = .ok it)
    (hsum : ∀ ct v, findCart db.carts userid = some ct →
      findLoop cartItem ct.CartItems = some v → v.Quantity + cartItem.Quantity ≤ maxInt)
    (hok : (CartService.AddToCart env db userid cartItem).1 = none) :
    stockOf (CartService.AddToCart env db userid cartItem).2 userid cartItem.ItemID =
      some (it.Quantity + lineQuantity db userid cartItem.ItemID) := by
  obtain ⟨it', hit', _, hitems, _⟩ := AddToCart_ok hok
  rw [hit] at hit'
  cases hit'
  have hafter := GetItem_of_items_incQuantity db _ _ _ it hitems hit
  rw [stockOf_eq hafter, wrapInt_neg_of_pos hq hqi]
  congr 1
  show it.Quantity + -cartItem.Quantity + _ = _
  cases hc : findCart db.carts userid with
  | none =>
    have hst := AddToCart_stored_of_noCart hok (Reachable.ids_ne_zero hr) hn huid hit hc
    have hl : findLoop cartItem
        (assignID env.newID (firstCart userid (priceLine it cartItem))).CartItems =
        some (priceLine it cartItem) := by
      simp [findLoop, assignID, firstCart, priceLine_ItemID]
    rw [lineQuantity_of_line cartItem hst hl, lineQuantity_of_noCart _ hc, priceLine_Quantity]
    omega
  | some ct =>
    have hst := AddToCart_stored_of_cart hok (Reachable.ids_nodup hr) hit hc
    cases hl : findLoop cartItem ct.CartItems with
    | none =>
      have hl' : findLoop (priceLine it cartItem) ct.CartItems = none := by
        rw [← hl]; exact findLoop_congr _ _ rfl _
      have hl2 : findLoop cartItem (addMutate ct (priceLine it cartItem)).CartItems =
          some (priceLine it cartItem) := by
        rw [addMutate_CartItems_of_no_line ct _ hl']
        exact findLoop_append_of_none _ _ _ hl (priceLine_ItemID it cartItem)
      rw [lineQuantity_of_line cartItem hst hl2, lineQuantity_of_noLine cartItem hc hl,
        priceLine_Quantity]
      omega
    | some v =>
      have hl' : findLoop (priceLine it cartItem) ct.CartItems = some v := by
        rw [← hl]; exact findLoop_congr _ _ rfl _
      have hl2 : findLoop cartItem (addMutate ct (priceLine it cartItem)).CartItems =
          some { v with Quantity := wrapInt (v.Quantity + (priceLine it cartItem).Quantity),
                        TotalPrice := v.TotalPrice + (priceLine it cartItem).TotalPrice } := by
        rw [addMutate_CartItems_of_line ct _ v hl',
          findLoop_congr cartItem (priceLine it cartItem) rfl]
        exact findLoop_addLoop _ _ _ hl'
      have hvi : IsInt v.Quantity :=
        Reachable.quantities_isInt hr ct (findCart_mem hc) v (List.mem_of_find?_eq_some hl)
      have hint : IsInt (v.Quantity + cartItem.Quantity) := by
        have := hsum ct v hc hl
        unfold IsInt minInt maxInt at *
        omega
      rw [lineQuantity_of_line cartItem hst hl2, lineQuantity_of_line cartItem hc hl]
      show it.Quantity + -cartItem.Quantity +
        wrapInt (v.Quantity + (priceLine it cartItem).Quantity) = _
      rw [priceLine_Quantity, wrapInt_of_isInt hint]
      omega

/-- The stock after a successful `RemoveFromCart` with a positive quantity. -/
theorem stockOf_RemoveFromCart_ok {env : Env} {db : DB} {userid : ObjectID}
    {cartItem : CartItem} {it : Item} (hr : Reachable db)
    (hq : 0 < cartItem.Quantity)
    (hit : ItemRepo.GetItem false db cartItem.ItemID = .ok it)
    (hok : (CartService.RemoveFromCart env db userid cartItem).1 = none) :
    stockOf (CartService.RemoveFromCart env db userid cartItem).2 userid cartItem.ItemID =
      some (it.Quantity + lineQuantity db userid cartItem.ItemID) := by
  obtain ⟨ct, v, hc, hl, hnlt, hitems, _⟩ := RemoveFromCart_ok hok
  have hafter := GetItem_of_items_incQuantity db _ _ _ it hitems hit
  have hst := RemoveFromCart_stored hok (Reachable.ids_nodup hr) hc
  rw [stockOf_eq hafter, lineQuantity_of_line cartItem hc hl]
  congr 1
  show it.Quantity + cartItem.Quantity + _ = _
  by_cases hgt : v.Quantity > cartItem.Quantity
  · have hl2 := findLoop_removeLoop_gt cartItem v ct.CartItems hl hgt
    have hvi : IsInt v.Quantity :=
      Reachable.quantities_isInt hr ct (findCart_mem hc) v (List.mem_of_find?_eq_some hl)
    have hint : IsInt (v.Quantity - cartItem.Quantity) := by
      unfold IsInt minInt maxInt at *
      omega
    rw [lineQuantity_of_line cartItem hst hl2]
    show it.Quantity + cartItem.Quantity + wrapInt (v.Quantity - cartItem.Quantity) = _
    rw [wrapInt_of_isInt hint]
    omega
  · obtain ⟨_, hno, _⟩ := removeLoop_le cartItem v ct.CartItems hl hgt
    have hl2 : findLoop cartItem (removeMutate ct cartItem).CartItems = none :=
      findLoop_eq_none_of_forall_ne _ _ (hno (Reachable.lines_nodup hr ct (findCart_mem hc)))
    rw [lineQuantity_of_noLine cartItem hst hl2]
    omega

/-- C29 (amended): stock is conserved between the inventory and the cart.  In a reachable
store, for a stored item and a (non-zero) user, `AddToCart` and `RemoveFromCart` with a positive
quantity (a Go `int`), run on their own with both writes of the coordinator succeeding, leave the
sum of the stored quantity of the item and the quantity of its line in the cart stored for the
user (0 without a line or a cart) as it was, whatever the call returns, provided an `AddToCart`
that finds a line of the item does not take its quantity past the largest Go `int`. -/
theorem stock_is_conserved (env : Env) (db : DB) (userid : ObjectID) (cartItem : CartItem)
    (it : Item) (hr : Reachable db) (huid : userid ≠ 0) (hn : env.newID ≠ 0)
    (hq : 0 < cartItem.Quantity) (hqi : cartItem.Quantity ≤ maxInt)
    (hcart : env.updateCartFails = false) (hitem : env.updateItemFails = false)
    (hit : ItemRepo.GetItem false db cartItem.ItemID = .ok it)
    (hsum : ∀ ct v, findCart db.carts userid = some ct →
      findLoop cartItem ct.CartItems = some v → v.Quantity + cartItem.Quantity ≤ maxInt) :
    stockOf db userid cartItem.ItemID =
      some (it.Quantity + lineQuantity db userid cartItem.ItemID) ∧
    stockOf (CartService.AddToCart env db userid cartItem).2 userid cartItem.ItemID =
      stockOf db userid cartItem.ItemID ∧
    stockOf (CartService.RemoveFromCart env db userid cartItem).2 userid cartItem.ItemID =
      stockOf db userid cartItem.ItemID := by
  refine ⟨stockOf_eq hit, ?_, ?_⟩
  · by_cases hok : (CartService.AddToCart env db userid cartItem).1 = none
    · rw [stockOf_AddToCart_ok hr huid hn hq hqi hit hsum hok, stockOf_eq hit]
    · obtain ⟨hc, hi⟩ := AddToCart_unchanged_of_error hcart hitem hok
      exact stockOf_congr _ _ hc hi
  · by_cases hok : (CartService.RemoveFromCart env db userid cartItem).1 = none
    · rw [stockOf_RemoveFromCart_ok hr hq hit hok, stockOf_eq hit]
    · obtain ⟨hc, hi⟩ := RemoveFromCart_unchanged_of_error hcart hitem hok
      exact stockOf_congr _ _ hc hi

/-- C29, as stated, fails: user 7 holds 2^63 - 1 units of item 1 in the cart and one unit is in
stock (2^63 units in all); `AddToCart` of 1, with every store call succeeding, returns nil and
leaves no unit in stock and a line of quantity -2^63. -/
theorem stock_sum_changes_when_line_wraps :
    Reachable restockedDB ∧
    0 < (request 1 1).Quantity ∧
    stockOf restockedDB 7 1 = some 9223372036854775808 ∧
    afterAddOneMore.1 = none ∧
    storedQuantity afterAddOneMore.2 1 = some 0 ∧
    lineQuantity afterAddOneMore.2 7 1 = -9223372036854775808 ∧
    stockOf afterAddOneMore.2 7 1 = some (-9223372036854775808) ∧
    stockOf afterAddOneMore.2 7 1 ≠ stockOf restockedDB 7 1 := by
  refine ⟨reachable_restockedDB, by decide, ?_, ?_, ?_, ?_, ?_, ?_⟩ <;>
    set_option maxRecDepth 8000 in decide

theorem stock_is_conserved_witness :
    stockOf (setDiscount 1 10 afterAdd3.2) 7 (request 1 2).ItemID =
      some ((7 : Int) + lineQuantity (setDiscount 1 10 afterAdd3.2) 7 (request 1 2).ItemID) ∧
    stockOf afterAdd2.2 7 (request 1 2).ItemID =
      stockOf (setDiscount 1 10 afterAdd3.2) 7 (request 1 2).ItemID ∧
    stockOf (CartService.RemoveFromCart (Env.ok 10 true) (setDiscount 1 10 afterAdd3.2) 7
        (request 1 2)).2 7 (request 1 2).ItemID =
      stockOf (setDiscount 1 10 afterAdd3.2) 7 (request 1 2).ItemID :=
  stock_is_conserved (Env.ok 10 true) (setDiscount 1 10 afterAdd3.2) 7 (request 1 2)
    { ID := 1, Price := 100, Discount := 10, Quantity := 7 }
    reachable_afterAdd3_discount (by decide) (by decide) (by decide) (by decide) rfl rfl
    (by with_unfolding_all rfl)
    (fun ct v hct hv => by
      have h1 : findCart (setDiscount 1 10 afterAdd3.2).carts 7 =
          some { ID := 9, UserID := 7,
                 CartItems := [{ ItemID := 1, Quantity := 3, Price := 100, TotalPrice := 300 }],
                 TotalPrice := 300 } := by
        with_unfolding_all decide
      rw [h1] at hct
      cases hct
      simp [findLoop, request] at hv
      rw [← hv]
      decide)


/-! ## The cart write of the coordinator -/

theorem CreateCart_writes (fails : Bool) (newID : ObjectID) (db : DB) (c : Cart) :
    (CartRepo.CreateCart fails newID db c).2.writes = db.writes ++ [Write.CreateCart c] := by
  unfold CartRepo.CreateCart
  cases fails <;> simp only [Bool.false_eq_true, if_false, if_true]
  split_ifs <;> rfl

theorem newWrites_of_append {before after : DB} {l : List Write}
    (h : after.writes = before.writes ++ l) : newWrites before after = l := by
  simp [newWrites, h]

theorem updateConcurrently_writes_cartUpdates (env : Env) (db : DB) (ct : Cart) (ci : CartItem)
    (act : action) :
    ∃ l, (CartService.updateConcurrently env db ct ci act).2.writes = db.writes ++ l ∧
      cartUpdates l = [(ct.ID, ct.CartItems, ct.TotalPrice)] := by
  rw [updateConcurrently_writes]
  split
  · exact ⟨_, rfl, rfl⟩
  · exact ⟨_, rfl, rfl⟩

/-- The cart write of a successful `AddToCart` for a user who has a cart: it is keyed by the
identity of that cart and carries the lines and the total of the mutated cart. -/
theorem AddToCart_cartUpdates_of_cart {env : Env} {db : DB} {userid : ObjectID}
    {cartItem : CartItem} {it : Item} {ct : Cart}
    (hok : (CartService.AddToCart env db userid cartItem).1 = none)
    (hit : ItemRepo.GetItem false db cartItem.ItemID = .ok it)
    (hc : findCart db.carts userid = some ct) :
    cartUpdates (newWrites db (CartService.AddToCart env db userid cartItem).2) =
      [(ct.ID, (addMutate ct (priceLine it cartItem)).CartItems,
        sumTotalPrice (addMutate ct (priceLine it cartItem)).CartItems)] := by
  cases hgi : ItemRepo.GetItem env.getItemFails db cartItem.ItemID with
  | error e => rw [AddToCart_of_getItem_error hgi] at hok; cases hok
  | ok it' =>
    have hf := GetItem_fails_false hgi
    rw [hf, hit] at hgi
    cases hgi
    rw [← hf] at hit
    by_cases hq : it.Quantity < cartItem.Quantity
    · rw [AddToCart_of_short hit hq] at hok; cases hok
    · rcases GetCart_cases env.getCartFails db userid with
        ⟨_, hg⟩ | ⟨_, hnone, _⟩ | ⟨_, ct', hsome, hg⟩
      · rw [AddToCart_of_getCart_error hit hq hg] at hok; cases hok
      · rw [hc] at hnone; cases hnone
      · rw [hc] at hsome
        cases hsome
        rw [AddToCart_of_cart env hit hq hg]
        obtain ⟨l, hw, hl⟩ := updateConcurrently_writes_cartUpdates env db
          (addMutate ct (priceLine it cartItem)) (priceLine it cartItem) add
        rw [newWrites_of_append hw, hl]
        rfl

/-- C24 (what the code does at a first add): in a reachable store, for a (non-zero) user who has
no cart, a successful `AddToCart` stores the cart of the user, with the new line, by `CreateCart`
under the identity the driver generates, and the one cart write of the coordinator is keyed by
the zero identity and carries no line and the total 0: `updateConcurrently` is handed the empty
cart `GetCart` has returned, not the cart just created. -/
theorem first_add_cart_write_keyed_by_zero_identity (env : Env) (db : DB) (userid : ObjectID)
    (cartItem : CartItem) (it : Item)
    (hr : Reachable db) (huid : userid ≠ 0) (hn : env.newID ≠ 0)
    (hno : findCart db.carts userid = none)
    (hit : ItemRepo.GetItem false db cartItem.ItemID = .ok it)
    (hok : (CartService.AddToCart env db userid cartItem).1 = none) :
    cartUpdates (newWrites db (CartService.AddToCart env db userid cartItem).2) =
      [(0, [], 0)] ∧
    findCart (CartService.AddToCart env db userid cartItem).2.carts userid =
      some { ID := env.newID, UserID := userid, CartItems := [priceLine it cartItem],
             TotalPrice := (priceLine it cartItem).TotalPrice } ∧
    (newWrites db (CartService.AddToCart env db userid cartItem).2).head? =
      some (Write.CreateCart (firstCart userid (priceLine it cartItem))) := by
  have hst := AddToCart_stored_of_noCart hok (Reachable.ids_ne_zero hr) hn huid hit hno
  have hst' : findCart (CartService.AddToCart env db userid cartItem).2.carts userid =
      some { ID := env.newID, UserID := userid, CartItems := [priceLine it cartItem],
             TotalPrice := (priceLine it cartItem).TotalPrice } := by
    rw [hst]
    simp [assignID, firstCart]
  cases hgi : ItemRepo.GetItem env.getItemFails db cartItem.ItemID with
  | error e => rw [AddToCart_of_getItem_error hgi] at hok; cases hok
  | ok it' =>
    have hf := GetItem_fails_false hgi
    rw [hf, hit] at hgi
    cases hgi
    rw [← hf] at hit
    by_cases hq : it.Quantity < cartItem.Quantity
    · rw [AddToCart_of_short hit hq] at hok; cases hok
    · rcases GetCart_cases env.getCartFails db userid with
        ⟨_, hg⟩ | ⟨_, _, hg⟩ | ⟨_, ct', hsome, _⟩
      · rw [AddToCart_of_getCart_error hit hq hg] at hok; cases hok
      · rw [AddToCart_of_noCart env hit hq hg] at hok ⊢
        by_cases hcr : (CartRepo.CreateCart env.createCartFails env.newID db
            (firstCart userid (priceLine it cartItem))).1 = none
        · rw [if_pos hcr]
          obtain ⟨l, hw, hl⟩ := updateConcurrently_writes_cartUpdates env
            (CartRepo.CreateCart env.createCartFails env.newID db
              (firstCart userid (priceLine it cartItem))).2
            Cart.zero (priceLine it cartItem) add
          rw [CreateCart_writes, List.append_assoc] at hw
          rw [newWrites_of_append hw]
          refine ⟨?_, ?_, rfl⟩
          · show cartUpdates l = _
            rw [hl]
            rfl
          · rw [AddToCart_of_noCart env hit hq hg, if_pos hcr] at hst'
            exact hst'
        · rw [if_neg hcr] at hok; cases hok
      · rw [hno] at hsome; cases hsome

theorem first_add_cart_write_keyed_by_zero_identity_witness :
    (cartUpdates (newWrites (scenarioDB 1) afterAdd3.2) = [(0, [], 0)] ∧
     findCart afterAdd3.2.carts 7 =
       some { ID := (Env.ok 9 true).newID, UserID := 7,
              CartItems := [priceLine ⟨1, 100, 0, 10⟩ (request 1 3)],
              TotalPrice := (priceLine ⟨1, 100, 0, 10⟩ (request 1 3)).TotalPrice } ∧
     (newWrites (scenarioDB 1) afterAdd3.2).head? =
       some (Write.CreateCart (firstCart 7 (priceLine ⟨1, 100, 0, 10⟩ (request 1 3))))) ∧
    newWrites (scenarioDB 1) afterAdd3.2 =
      [Write.CreateCart
         { ID := 0, UserID := 7,
           CartItems := [{ ItemID := 1, Quantity := 3, Price := 100, TotalPrice := 300 }],
           TotalPrice := 300 },
       Write.UpdateCart 0 [] 0, Write.UpdateItem 1 (-3)] ∧
    afterAdd3.2.carts =
      [{ ID := 9, UserID := 7,
         CartItems := [{ ItemID := 1, Quantity := 3, Price := 100, TotalPrice := 300 }],
         TotalPrice := 300 }] ∧
    cartUpdates (newWrites (setDiscount 1 10 afterAdd3.2) afterAdd2.2) =
      [(9, [{ ItemID := 1, Quantity := 5, Price := 100, TotalPrice := 480 }], 480)] := by
  refine ⟨first_add_cart_write_keyed_by_zero_identity (Env.ok 9 true) (scenarioDB 1) 7
      (request 1 3) ⟨1, 100, 0, 10⟩ (Reachable.init _) (by decide)
      (by decide) (by simp [scenarioDB, findCart]) (by rfl) (by with_unfolding_all decide),
    ?_, ?_, ?_⟩
  · set_option maxRecDepth 8000 in with_unfolding_all decide
  · set_option maxRecDepth 8000 in with_unfolding_all decide
  · set_option maxRecDepth 8000 in with_unfolding_all decide

/-! ## The cart update handler -/

/-- C25 (what the handler does with the quantity of a request): for a (non-zero) user, a bound
request whose item identity parses and whose quantity `n` is a Go `int`, the handler answers
`n = 0` with status 400 and "invalid quantity" without calling the service, calls `AddToCart`
with quantity `n` when `n > 0`, and calls `RemoveFromCart` with the quantity the Go negation of
`n` gives when `n < 0`: that is `-n`, a positive quantity, for every `n` but the smallest Go
`int`, and the smallest Go `int` itself, a negative quantity, for that one.  The case `n = 0` is
the check of line 41 for a bound request as such; with `binding:"required"` on the field,
`ShouldBindJSON` does not return a request whose quantity is 0. -/
theorem UpdateCart_quantity_dispatch (objectIDFromHex : String → Except String ObjectID)
    (env : Env) (db : DB) (userid : ObjectID) (hex : String) (objectID : ObjectID) (n : Int)
    (huid : userid ≠ 0) (hhex : objectIDFromHex hex = .ok objectID) (hn : IsInt n) :
    (n = 0 →
      (CartController.UpdateCart objectIDFromHex env db userid
        (.ok { ItemID := hex, Quantity := n })).response =
          { status := 400, message := "invalid quantity" } ∧
      (CartController.UpdateCart objectIDFromHex env db userid
        (.ok { ItemID := hex, Quantity := n })).call = none ∧
      (CartController.UpdateCart objectIDFromHex env db userid
        (.ok { ItemID := hex, Quantity := n })).db = db) ∧
    (0 < n →
      (CartController.UpdateCart objectIDFromHex env db userid
        (.ok { ItemID := hex, Quantity := n })).call =
          some (ServiceCall.AddToCart userid (request objectID n))) ∧
    (n < 0 → n ≠ minInt →
      (CartController.UpdateCart objectIDFromHex env db userid
        (.ok { ItemID := hex, Quantity := n })).call =
          some (ServiceCall.RemoveFromCart userid (request objectID (-n))) ∧
      0 < -n) ∧
    (n = minInt →
      (CartController.UpdateCart objectIDFromHex env db userid
        (.ok { ItemID := hex, Quantity := n })).call =
          some (ServiceCall.RemoveFromCart userid (request objectID minInt)) ∧
      (ServiceCall.RemoveFromCart userid (request objectID minInt)).quantity < 0) := by
  refine ⟨?_, ?_, ?_, ?_⟩
  · intro h0
    subst h0
    simp [CartController.UpdateCart, huid]
  · intro hpos
    have h0 : n ≠ 0 := by omega
    have hneg : ¬ n < 0 := by omega
    simp [CartController.UpdateCart, huid, h0, hhex, hneg, request]
  · intro hneg hmin
    have h0 : n ≠ 0 := by omega
    have hw : wrapInt (-n) = -n := by
      apply wrapInt_of_isInt
      unfold IsInt minInt maxInt at *
      omega
    simp [CartController.UpdateCart, huid, h0, hhex, hneg, request, hw]
  · intro hmin
    subst hmin
    have hw : wrapInt (-minInt) = minInt := by decide
    have h0 : minInt ≠ 0 := by decide
    have hneg : minInt < 0 := by decide
    refine ⟨?_, hneg⟩
    simp [CartController.UpdateCart, huid, h0, hhex, hneg, request, hw]

theorem UpdateCart_quantity_dispatch_witness :
    ((CartController.UpdateCart (fun _ => .ok 1) (Env.ok 10 true) afterAdd3.2 7
        (.ok { ItemID := "000000000000000000000001", Quantity := minInt })).call =
          some (ServiceCall.RemoveFromCart 7 (request 1 minInt)) ∧
      (ServiceCall.RemoveFromCart 7 (request 1 minInt)).quantity < 0) ∧
    (CartController.UpdateCart (fun _ => .ok 1) (Env.ok 10 true) afterAdd3.2 7
        (.ok { ItemID := "000000000000000000000001", Quantity := minInt })).response =
      { status := 200, message := "success removed item from cart" } ∧
    storedQuantity afterAdd3.2 1 = some 7 ∧
    lineQuantity afterAdd3.2 7 1 = 3 ∧
    storedQuantity (CartController.UpdateCart (fun _ => .ok 1) (Env.ok 10 true) afterAdd3.2 7
        (.ok { ItemID := "000000000000000000000001", Quantity := minInt })).db 1 =
      some (-9223372036854775801) ∧
    lineQuantity (CartController.UpdateCart (fun _ => .ok 1) (Env.ok 10 true) afterAdd3.2 7
        (.ok { ItemID := "000000000000000000000001", Quantity := minInt })).db 7 1 =
      -9223372036854775805 := by
  refine ⟨(UpdateCart_quantity_dispatch (fun _ => .ok 1) (Env.ok 10 true) afterAdd3.2 7
      "000000000000000000000001" 1 minInt (by decide) rfl (by decide)).2.2.2 rfl,
    ?_, ?_, ?_, ?_, ?_⟩
  · set_option maxRecDepth 8000 in decide
  · set_option maxRecDepth 8000 in decide
  · set_option maxRecDepth 8000 in decide
  · set_option maxRecDepth 8000 in decide
  · set_option maxRecDepth 8000 in decide


end cart

namespace item

open category

/-! ## The validation fan-out -/

theorem takeFrom_flatten {α : Type} (i : Nat) (sends sends1 : List (List α)) (m : α)
    (h : takeFrom i sends = some (m, sends1)) :
    sends.flatten.Perm (m :: sends1.flatten) ∧ sends1.length = sends.length := by
  induction sends generalizing i sends1 with
  | nil => simp [takeFrom] at h
  | cons l rest ih =>
    cases i with
    | zero =>
      cases l with
      | nil => simp [takeFrom] at h
      | cons x xs =>
        simp only [takeFrom, Option.some.injEq, Prod.mk.injEq] at h
        obtain ⟨rfl, rfl⟩ := h
        simp
    | succ j =>
      simp only [takeFrom] at h
      cases hj : takeFrom j rest with
      | none => rw [hj] at h; simp at h
      | some p =>
        obtain ⟨m', r⟩ := p
        rw [hj] at h
        simp only [Option.some.injEq, Prod.mk.injEq] at h
        obtain ⟨rfl, rfl⟩ := h
        obtain ⟨hp, hlen⟩ := ih j r hj
        refine ⟨?_, by simp [hlen]⟩
        simp only [List.flatten_cons]
        exact (List.Perm.append_left l hp).trans List.perm_middle

/-- The messages that arrive on the channel are the messages the goroutines send, whatever the
order of the goroutines. -/
theorem channelOrder_perm {α : Type} (sched : List Nat) :
    ∀ sends : List (List α), (channelOrder sched sends).Perm sends.flatten := by
  induction sched with
  | nil => intro sends; exact List.Perm.refl _
  | cons i sched ih =>
    intro sends
    simp only [channelOrder]
    cases h : takeFrom i sends with
    | none => exact ih sends
    | some p =>
      obtain ⟨m, sends1⟩ := p
      exact ((ih sends1).cons m).trans (takeFrom_flatten i sends sends1 m h).1.symm

theorem takeFrom_all_empty {α : Type} (i : Nat) (sends : List (List α))
    (h : ∀ x ∈ sends, x = []) : takeFrom i sends = none := by
  induction sends generalizing i with
  | nil => cases i <;> rfl
  | cons l rest ih =>
    have hl : l = [] := h l (List.mem_cons_self _ _)
    subst hl
    cases i with
    | zero => rfl
    | succ j =>
      simp only [takeFrom]
      rw [ih j (fun x hx => h x (List.mem_cons_of_mem _ hx))]

theorem takeFrom_single {α : Type} (pre post : List (List α)) (l : List α)
    (hpre : ∀ x ∈ pre, x = []) (hpost : ∀ x ∈ post, x = []) (i : Nat) :
    takeFrom i (pre ++ l :: post) = none ∨
    ∃ m ms, l = m :: ms ∧ takeFrom i (pre ++ l :: post) = some (m, pre ++ ms :: post) := by
  induction pre generalizing i with
  | nil =>
    cases i with
    | zero =>
      cases l with
      | nil => exact Or.inl rfl
      | cons m ms => exact Or.inr ⟨m, ms, rfl, rfl⟩
    | succ j =>
      left
      simp only [List.nil_append, takeFrom]
      rw [takeFrom_all_empty j post hpost]
  | cons p pre ih =>
    have hp : p = [] := hpre p (List.mem_cons_self _ _)
    subst hp
    cases i with
    | zero => exact Or.inl rfl
    | succ j =>
      rcases ih (fun x hx => hpre x (List.mem_cons_of_mem _ hx)) j with h | ⟨m, ms, hl, h⟩
      · left
        show (match takeFrom j (pre ++ l :: post) with
          | some (m, r) => some (m, [] :: r)
          | none => none) = none
        rw [h]
      · right
        refine ⟨m, ms, hl, ?_⟩
        show (match takeFrom j (pre ++ l :: post) with
          | some (m, r) => some (m, [] :: r)
          | none => none) = some (m, [] :: (pre ++ ms :: post))
        rw [h]

/-- When one goroutine only sends, its messages arrive in the order in which it sends them. -/
theorem channelOrder_single {α : Type} (sched : List Nat) (pre post : List (List α))
    (hpre : ∀ x ∈ pre, x = []) (hpost : ∀ x ∈ post, x = []) :
    ∀ l : List α, channelOrder sched (pre ++ l :: post) = l := by
  induction sched with
  | nil =>
    intro l
    have h1 : pre.flatten = [] := by
      rw [List.flatten_eq_nil_iff]; exact hpre
    have h2 : post.flatten = [] := by
      rw [List.flatten_eq_nil_iff]; exact hpost
    simp [channelOrder, h1, h2]
  | cons i sched ih =>
    intro l
    simp only [channelOrder]
    rcases takeFrom_single pre post l hpre hpost i with h | ⟨m, ms, hl, h⟩
    · rw [h]; exact ih l
    · rw [h]
      simp only
      rw [ih ms, hl]


/-- C15: on the empty list of identifiers both `checkCategoryID` and `checkParentID` return nil,
call the existence check for no identifier and raise no panic (a nil slice and an empty slice
are the same list here). -/
theorem check_empty_list (sched : List Nat) (fault : Nat → Option String)
    (categories : List Category) :
    ItemService.checkCategoryID sched fault categories [] =
      { result := none, calls := [], panics := [] } ∧
    CategoryService.checkParentID fault categories [] =
      { result := none, calls := [], panics := [] } := by
  constructor
  · cases sched with
    | nil => rfl
    | cons i sched =>
      have h : ∀ s : List Nat, channelOrder s ([] : List (List (Option AppError))) = [] := by
        intro s
        induction s with
        | nil => rfl
        | cons j s ih => simp [channelOrder, takeFrom, ih]
      simp [ItemService.checkCategoryID, ItemService.checkCategoryID.spawn, h]
  · rfl

/-- The error both validation functions build for an identifier that does not exist. -/
theorem goroutine_no_fault (categories : List Category) (v : ObjectID) :
    ItemService.checkCategoryID.goroutine none categories v =
      if (CategoryRepo.IsExists none categories v).1 then []
      else [some (NewError "category not found: not found" 404)] := by
  unfold ItemService.checkCategoryID.goroutine CategoryRepo.IsExists
  by_cases h : (categories.any fun c => decide (c.ID = v)) = true
  · simp [h]
  · simp [h, ErrNotFound, AppError.Error, NewError]

theorem spawn_no_fault (categories : List Category) (ids : List ObjectID) (i : Nat) :
    (∀ m ∈ (ItemService.checkCategoryID.spawn (fun _ => none) categories i ids).flatten,
      m = some (NewError "category not found: not found" 404)) ∧
    ((ItemService.checkCategoryID.spawn (fun _ => none) categories i ids).flatten = [] ↔
      ∀ id ∈ ids, (CategoryRepo.IsExists none categories id).1 = true) := by
  induction ids generalizing i with
  | nil => simp [ItemService.checkCategoryID.spawn]
  | cons v rest ih =>
    obtain ⟨ih1, ih2⟩ := ih (i + 1)
    simp only [ItemService.checkCategoryID.spawn, List.flatten_cons, goroutine_no_fault]
    by_cases hv : (CategoryRepo.IsExists none categories v).1 = true
    · simp only [hv, if_true, List.nil_append]
      refine ⟨ih1, ?_⟩
      rw [ih2]
      simp [hv]
    · simp only [hv, if_false]
      refine ⟨?_, ?_⟩
      · intro m hm
        rcases List.mem_append.1 hm with hm | hm
        · exact List.mem_singleton.1 hm
        · exact ih1 m hm
      · simp [hv]

/-- The result of `checkCategoryID` when no existence check reports a storage error. -/
theorem checkCategoryID_no_fault (sched : List Nat) (categories : List Category)
    (categoryID : List ObjectID) :
    ((ItemService.checkCategoryID sched (fun _ => none) categories categoryID).result = none ↔
      ∀ id ∈ categoryID, (CategoryRepo.IsExists none categories id).1 = true) ∧
    ((ItemService.checkCategoryID sched (fun _ => none) categories categoryID).result ≠ none →
      (ItemService.checkCategoryID sched (fun _ => none) categories categoryID).result =
        some { Msg := "category not found: not found", StatusCode := 404 }) := by
  obtain ⟨h1, h2⟩ := spawn_no_fault categories categoryID 0
  have hperm := channelOrder_perm sched
    (ItemService.checkCategoryID.spawn (fun _ => none) categories 0 categoryID)
  have hall : ∀ m ∈ channelOrder sched
      (ItemService.checkCategoryID.spawn (fun _ => none) categories 0 categoryID),
      m = some (NewError "category not found: not found" 404) :=
    fun m hm => h1 m (hperm.mem_iff.1 hm)
  have hnil : channelOrder sched
      (ItemService.checkCategoryID.spawn (fun _ => none) categories 0 categoryID) = [] ↔
      ∀ id ∈ categoryID, (CategoryRepo.IsExists none categories id).1 = true := by
    rw [← h2]
    constructor
    · intro h; rw [h] at hperm; exact hperm.symm.eq_nil
    · intro h; rw [h] at hperm; exact hperm.eq_nil
  simp only [ItemService.checkCategoryID]
  cases hch : channelOrder sched
      (ItemService.checkCategoryID.spawn (fun _ => none) categories 0 categoryID) with
  | nil =>
    rw [hch] at hnil
    simp only [List.filterMap_nil, List.head?_nil, true_iff, ne_eq, not_true_eq_false,
      false_implies, and_true]
    exact hnil.1 rfl
  | cons m ms =>
    rw [hch] at hnil hall
    have hm := hall m (List.mem_cons_self _ _)
    subst hm
    have hhead : (List.filterMap (fun e => e)
        (some (NewError "category not found: not found" 404) :: ms)).head? =
        some (NewError "category not found: not found" 404) := by
      simp [List.filterMap_cons]
    rw [hhead]
    constructor
    · constructor
      · intro h; cases h
      · intro h
        have := hnil.2 h
        cases this
    · intro _; rfl

/-- C16: when no existence check reports a storage error, `checkCategoryID` returns nil exactly
when every identifier of the list exists, whatever the order in which the goroutines run, and
otherwise it returns the error with message "category not found: not found" and status 404. -/
theorem checkCategoryID_not_found_iff (sched : List Nat) (categories : List Category)
    (categoryID : List ObjectID) :
    ((ItemService.checkCategoryID sched (fun _ => none) categories categoryID).result = none ↔
      ∀ id ∈ categoryID, (CategoryRepo.IsExists none categories id).1 = true) ∧
    ((ItemService.checkCategoryID sched (fun _ => none) categories categoryID).result ≠ none →
      (ItemService.checkCategoryID sched (fun _ => none) categories categoryID).result =
        some { Msg := "category not found: not found", StatusCode := 404 }) :=
  checkCategoryID_no_fault sched categories categoryID


theorem checkParentID_loop_closed (fault : Nat → Option String) (categories : List Category)
    (ids : List ObjectID) :
    ∀ i, (CategoryService.checkParentID.loop fault categories i ids true).1 = [] := by
  induction ids with
  | nil => intro i; rfl
  | cons v rest ih => intro i; simp [CategoryService.checkParentID.loop, ih]

/-- C17 (the code differs): `checkParentID` returns what the check of the first identifier alone
gives, whatever follows in the list.  With category 1 stored and category 2 not, on the list
`[1, 2]` it returns nil and the check of 2 panics with a send on the closed channel, while
`checkCategoryID` returns the 404 error on the same list. -/
theorem checkParentID_reads_first_check_only :
    (∀ (fault : Nat → Option String) (categories : List Category) (v : ObjectID)
        (rest : List ObjectID),
      (CategoryService.checkParentID fault categories (v :: rest)).result =
        (CategoryService.checkParentID fault categories [v]).result) ∧
    CategoryService.checkParentID (fun _ => none) [{ ID := 1, ParentID := [] }] [1, 2] =
      { result := none, calls := [1, 2], panics := [ChanPanic.sendOnClosedChannel] } ∧
    ∀ sched : List Nat,
      (ItemService.checkCategoryID sched (fun _ => none) [{ ID := 1, ParentID := [] }]
        [1, 2]).result = some { Msg := "category not found: not found", StatusCode := 404 } := by
  refine ⟨?_, by decide, ?_⟩
  · intro fault categories v rest
    simp [CategoryService.checkParentID, CategoryService.checkParentID.loop,
      checkParentID_loop_closed]
  · intro sched
    apply (checkCategoryID_no_fault sched [{ ID := 1, ParentID := [] }] [1, 2]).2
    intro h
    have := (checkCategoryID_no_fault sched [{ ID := 1, ParentID := [] }] [1, 2]).1.1 h 2
      (by simp)
    revert this
    decide

theorem goroutine_fault (msg : String) (categories : List Category) (v : ObjectID) :
    ItemService.checkCategoryID.goroutine (some msg) categories v =
      [some (NewError ("internal error: " ++ msg) 500),
       some (NewError "category not found: not found" 404)] := by
  simp [ItemService.checkCategoryID.goroutine, CategoryRepo.IsExists, ErrNotFound,
    AppError.Error, NewError]

theorem spawn_all_empty (fault : Nat → Option String) (categories : List Category)
    (ids : List ObjectID) :
    ∀ i, (∀ j, i ≤ j → j < i + ids.length → fault j = none) →
      (∀ id ∈ ids, (CategoryRepo.IsExists none categories id).1 = true) →
      ∀ x ∈ ItemService.checkCategoryID.spawn fault categories i ids, x = [] := by
  induction ids with
  | nil => intro i _ _ x hx; simp [ItemService.checkCategoryID.spawn] at hx
  | cons v rest ih =>
    intro i hf hex x hx
    simp only [ItemService.checkCategoryID.spawn, List.mem_cons] at hx
    rcases hx with rfl | hx
    · rw [hf i (le_refl _) (by simp), goroutine_no_fault,
        if_pos (hex v (List.mem_cons_self _ _))]
    · refine ih (i + 1) (fun j h1 h2 => hf j (by omega) ?_)
        (fun id hid => hex id (List.mem_cons_of_mem _ hid)) x hx
      simp only [List.length_cons]
      omega

theorem spawn_append (fault : Nat → Option String) (categories : List Category)
    (a : List ObjectID) (v : ObjectID) (b : List ObjectID) :
    ∀ i, ItemService.checkCategoryID.spawn fault categories i (a ++ v :: b) =
      ItemService.checkCategoryID.spawn fault categories i a ++
        ItemService.checkCategoryID.goroutine (fault (i + a.length)) categories v ::
          ItemService.checkCategoryID.spawn fault categories (i + a.length + 1) b := by
  induction a with
  | nil => intro i; simp [ItemService.checkCategoryID.spawn]
  | cons w rest ih =>
    intro i
    have h1 : i + 1 + rest.length = i + (rest.length + 1) := by omega
    show ItemService.checkCategoryID.goroutine (fault i) categories w ::
        ItemService.checkCategoryID.spawn fault categories (i + 1) (rest ++ v :: b) = _
    rw [ih (i + 1), h1]
    rfl

/-- C18: when the existence check of exactly one identifier of the list fails with a storage
error and every other identifier exists, `checkCategoryID` returns the internal error (its
message is "internal error: " followed by the text of the storage error, its status 500),
whatever the order in which the goroutines run: not a not-found error and not nil. -/
theorem checkCategoryID_internal_error (sched : List Nat) (fault : Nat → Option String)
    (categories : List Category) (a : List ObjectID) (v : ObjectID) (b : List ObjectID)
    (msg : String) (hfail : fault a.length = some msg)
    (hothers : ∀ j, j ≠ a.length → fault j = none)
    (hexist : ∀ id ∈ a ++ b, (CategoryRepo.IsExists none categories id).1 = true) :
    (ItemService.checkCategoryID sched fault categories (a ++ v :: b)).result =
      some { Msg := "internal error: " ++ msg, StatusCode := 500 } := by
  have hpre : ∀ x ∈ ItemService.checkCategoryID.spawn fault categories 0 a, x = [] :=
    spawn_all_empty fault categories a 0 (fun j _ h2 => hothers j (by omega))
      (fun id hid => hexist id (List.mem_append_left _ hid))
  have hpost : ∀ x ∈ ItemService.checkCategoryID.spawn fault categories (0 + a.length + 1) b,
      x = [] :=
    spawn_all_empty fault categories b _ (fun j h1 _ => hothers j (by omega))
      (fun id hid => hexist id (List.mem_append_right _ hid))
  simp only [ItemService.checkCategoryID]
  rw [spawn_append, channelOrder_single sched _ _ hpre hpost, Nat.zero_add, hfail,
    goroutine_fault]
  rfl

theorem checkCategoryID_internal_error_witness :
    (ItemService.checkCategoryID [2, 0, 1] (fun j => if j = 1 then some "timeout" else none)
      [{ ID := 1, ParentID := [] }, { ID := 3, ParentID := [1] }] ([1] ++ 2 :: [3])).result =
      some { Msg := "internal error: " ++ "timeout", StatusCode := 500 } :=
  checkCategoryID_internal_error [2, 0, 1] (fun j => if j = 1 then some "timeout" else none)
    [{ ID := 1, ParentID := [] }, { ID := 3, ParentID := [1] }] [1] 2 [3] "timeout"
    (by decide) (fun j hj => by simp at hj; simp [hj]) (by decide)


theorem checkParentID_loop_closed_panics (fault : Nat → Option String)
    (categories : List Category) (ids : List ObjectID) :
    ∀ i, (CategoryService.checkParentID.loop fault categories i ids true).2.length =
      ids.length := by
  induction ids with
  | nil => intro i; rfl
  | cons v rest ih => intro i; simp [CategoryService.checkParentID.loop, ih]

/-- C30 (the code differs): `checkParentID` uses its channel safely only on lists of at most one
identifier.  On every list of two or more identifiers the channel is closed after the check of
the first one, and each later identifier raises a panic: its check sends on the closed channel,
or, when it has nothing to send, the goroutine started with it closes the closed channel.  With
category 1 stored, the list `[1, 2]` gives a send on the closed channel when category 2 is not
stored and a close of the closed channel when it is.  The list of panics has one entry for each
later identifier, the fault the goroutines started for it run into; in a run of the program the
first of them ends the process.  In `checkCategoryID` the one close stands after the loop, and
its model records no panic. -/
theorem checkParentID_panics_after_first_identifier :
    (∀ (fault : Nat → Option String) (categories : List Category),
      (CategoryService.checkParentID fault categories []).panics = []) ∧
    (∀ (fault : Nat → Option String) (categories : List Category) (v : ObjectID),
      (CategoryService.checkParentID fault categories [v]).panics = []) ∧
    (∀ (fault : Nat → Option String) (categories : List Category) (v w : ObjectID)
        (rest : List ObjectID),
      (CategoryService.checkParentID fault categories (v :: w :: rest)).panics.length =
        rest.length + 1 ∧
      (CategoryService.checkParentID fault categories (v :: w :: rest)).panics.head? =
        some (if (CategoryService.checkParentID.goroutine (fault 1) categories w).isEmpty
          then ChanPanic.closeOfClosedChannel else ChanPanic.sendOnClosedChannel)) ∧
    (CategoryService.checkParentID (fun _ => none) [{ ID := 1, ParentID := [] }] [1, 2]).panics =
      [ChanPanic.sendOnClosedChannel] ∧
    (CategoryService.checkParentID (fun _ => none)
        [{ ID := 1, ParentID := [] }, { ID := 2, ParentID := [1] }] [1, 2]).panics =
      [ChanPanic.closeOfClosedChannel] ∧
    (∀ (sched : List Nat) (fault : Nat → Option String) (categories : List Category)
        (ids : List ObjectID),
      (ItemService.checkCategoryID sched fault categories ids).panics = []) := by
  refine ⟨fun _ _ => rfl, fun _ _ _ => rfl, ?_, by decide, by decide, fun _ _ _ _ => rfl⟩
  intro fault categories v w rest
  constructor
  · simp [CategoryService.checkParentID, CategoryService.checkParentID.loop,
      checkParentID_loop_closed_panics]
  · simp [CategoryService.checkParentID, CategoryService.checkParentID.loop]


end item

end Ecommerce
